import Mathlib

/-!
# MD5 (mackron/md5, `md5.h`): a shallow embedding and its verification

Machine integers are natural numbers reduced explicitly: `unsigned int` values are taken
modulo `2^32`, the `unsigned long long` byte counter modulo `2^64`, `unsigned char` values
modulo `2^8`.  Byte buffers are lists of naturals.  Functions whose C original can index a
buffer outside its bounds return an `Option`; `none` stands for such an access.
The context and digest pointers are taken to be non-null (the `NULL` guards of the C
functions return at once).
-/

namespace MD5

/-! ## Data model -/

/-- The constant `MD5_SIZE`. -/
def MD5_SIZE : Nat := 16

/-- The constant `MD5_SIZE_FORMATTED`. -/
def MD5_SIZE_FORMATTED : Nat := 33

/-- The struct `md5_context`: registers, 64-bit byte count, cache and number of valid bytes
in the cache. -/
structure md5_context where
  a : Nat
  b : Nat
  c : Nat
  d : Nat
  sz : Nat
  cache : List Nat
  cacheLen : Nat
deriving DecidableEq

/-- The value of `sizeof(ctx->cache)`. -/
def sizeof_cache : Nat := 64

/-- Wrap-around of `unsigned int`. -/
def u32 (x : Nat) : Nat := x % 4294967296

/-- Wrap-around of `unsigned long long`. -/
def u64 (x : Nat) : Nat := x % 18446744073709551616

/-- Conversion to `unsigned char`. -/
def u8 (x : Nat) : Nat := x % 256

/-- Wrap-around of `size_t`, taken to be 64 bits wide. -/
def usize (x : Nat) : Nat := x % 18446744073709551616

/-- Subtraction of `size_t` values, which wraps around below zero. -/
def usize_sub (x y : Nat) : Nat := usize (usize x + 18446744073709551616 - usize y)

/-- The operator `~` on an `unsigned int`. -/
def not32 (x : Nat) : Nat := 4294967295 - u32 x

/-- The loop of `md5_zero_memory(p + off, sz)`: bytes `off .. off+sz-1` are set to zero,
lowest index first. -/
def md5_zero_memory (p : List Nat) (off : Nat) : Nat → List Nat
  | 0 => p
  | i + 1 => (md5_zero_memory p off i).set (off + i) 0

/-- The loop of `md5_copy_memory(dst + dOff, src + sOff, sz)`: byte `i` of the source window
is stored at byte `i` of the destination window, lowest index first. -/
def md5_copy_memory (dst : List Nat) (dOff : Nat) (src : List Nat) (sOff : Nat) : Nat → List Nat
  | 0 => dst
  | i + 1 => (md5_copy_memory dst dOff src sOff i).set (dOff + i) (src.getD (sOff + i) 0)

/-! ## Compression core -/

/-- The macro `MD5_F`. -/
def MD5_F (x y z : Nat) : Nat := (x &&& y) ||| (not32 x &&& z)

/-- The macro `MD5_G`. -/
def MD5_G (x y z : Nat) : Nat := (x &&& z) ||| (y &&& not32 z)

/-- The macro `MD5_H`. -/
def MD5_H (x y z : Nat) : Nat := (x ^^^ y) ^^^ z

/-- The macro `MD5_I`. -/
def MD5_I (x y z : Nat) : Nat := y ^^^ (x ||| not32 z)

/-- The macro `MD5_ROTATE_LEFT` on an `unsigned int`. -/
def MD5_ROTATE_LEFT (x n : Nat) : Nat := u32 (x <<< n) ||| (x >>> (32 - n))

/-- The macro `MD5_FF`: three statements on `a`, whose final value is returned. -/
def MD5_FF (a b c d x s ac : Nat) : Nat :=
  let a := u32 (a + u32 (u32 (MD5_F b c d + x) + u32 ac))
  let a := MD5_ROTATE_LEFT a s
  u32 (a + b)

/-- The macro `MD5_GG`. -/
def MD5_GG (a b c d x s ac : Nat) : Nat :=
  let a := u32 (a + u32 (u32 (MD5_G b c d + x) + u32 ac))
  let a := MD5_ROTATE_LEFT a s
  u32 (a + b)

/-- The macro `MD5_HH`. -/
def MD5_HH (a b c d x s ac : Nat) : Nat :=
  let a := u32 (a + u32 (u32 (MD5_H b c d + x) + u32 ac))
  let a := MD5_ROTATE_LEFT a s
  u32 (a + b)

/-- The macro `MD5_II`. -/
def MD5_II (a b c d x s ac : Nat) : Nat :=
  let a := u32 (a + u32 (u32 (MD5_I b c d + x) + u32 ac))
  let a := MD5_ROTATE_LEFT a s
  u32 (a + b)

def MD5_S11 : Nat := 7
def MD5_S12 : Nat := 12
def MD5_S13 : Nat := 17
def MD5_S14 : Nat := 22
def MD5_S21 : Nat := 5
def MD5_S22 : Nat := 9
def MD5_S23 : Nat := 14
def MD5_S24 : Nat := 20
def MD5_S31 : Nat := 4
def MD5_S32 : Nat := 11
def MD5_S33 : Nat := 16
def MD5_S34 : Nat := 23
def MD5_S41 : Nat := 6
def MD5_S42 : Nat := 10
def MD5_S43 : Nat := 15
def MD5_S44 : Nat := 21

/-- The function `md5_decode`: word `i` is assembled from source bytes `4i .. 4i+3`, least
significant byte first.  Only source indices `0 .. 63` are read. -/
def md5_decode (src : List Nat) : List Nat :=
  (List.range 16).map fun i =>
    u32 (src.getD (4 * i + 0) 0) ||| u32 (u32 (src.getD (4 * i + 1) 0) <<< 8)
      ||| u32 (u32 (src.getD (4 * i + 2) 0) <<< 16) ||| u32 (u32 (src.getD (4 * i + 3) 0) <<< 24)

/-- The 64 unrolled steps of `md5_update_block` on its locals `a`, `b`, `c`, `d` and the
decoded words `x`, in source order; the result is the value of the four locals after the
last step. -/
def md5_update_block_rounds (a b c d : Nat) (x : List Nat) : Nat × Nat × Nat × Nat :=
  let a := MD5_FF a b c d (x.getD 0 0) MD5_S11 0xd76aa478
  let d := MD5_FF d a b c (x.getD 1 0) MD5_S12 0xe8c7b756
  let c := MD5_FF c d a b (x.getD 2 0) MD5_S13 0x242070db
  let b := MD5_FF b c d a (x.getD 3 0) MD5_S14 0xc1bdceee
  let a := MD5_FF a b c d (x.getD 4 0) MD5_S11 0xf57c0faf
  let d := MD5_FF d a b c (x.getD 5 0) MD5_S12 0x4787c62a
  let c := MD5_FF c d a b (x.getD 6 0) MD5_S13 0xa8304613
  let b := MD5_FF b c d a (x.getD 7 0) MD5_S14 0xfd469501
  let a := MD5_FF a b c d (x.getD 8 0) MD5_S11 0x698098d8
  let d := MD5_FF d a b c (x.getD 9 0) MD5_S12 0x8b44f7af
  let c := MD5_FF c d a b (x.getD 10 0) MD5_S13 0xffff5bb1
  let b := MD5_FF b c d a (x.getD 11 0) MD5_S14 0x895cd7be
  let a := MD5_FF a b c d (x.getD 12 0) MD5_S11 0x6b901122
  let d := MD5_FF d a b c (x.getD 13 0) MD5_S12 0xfd987193
  let c := MD5_FF c d a b (x.getD 14 0) MD5_S13 0xa679438e
  let b := MD5_FF b c d a (x.getD 15 0) MD5_S14 0x49b40821

  let a := MD5_GG a b c d (x.getD 1 0) MD5_S21 0xf61e2562
  let d := MD5_GG d a b c (x.getD 6 0) MD5_S22 0xc040b340
  let c := MD5_GG c d a b (x.getD 11 0) MD5_S23 0x265e5a51
  let b := MD5_GG b c d a (x.getD 0 0) MD5_S24 0xe9b6c7aa
  let a := MD5_GG a b c d (x.getD 5 0) MD5_S21 0xd62f105d
  let d := MD5_GG d a b c (x.getD 10 0) MD5_S22 0x02441453
  let c := MD5_GG c d a b (x.getD 15 0) MD5_S23 0xd8a1e681
  let b := MD5_GG b c d a (x.getD 4 0) MD5_S24 0xe7d3fbc8
  let a := MD5_GG a b c d (x.getD 9 0) MD5_S21 0x21e1cde6
  let d := MD5_GG d a b c (x.getD 14 0) MD5_S22 0xc33707d6
  let c := MD5_GG c d a b (x.getD 3 0) MD5_S23 0xf4d50d87
  let b := MD5_GG b c d a (x.getD 8 0) MD5_S24 0x455a14ed
  let a := MD5_GG a b c d (x.getD 13 0) MD5_S21 0xa9e3e905
  let d := MD5_GG d a b c (x.getD 2 0) MD5_S22 0xfcefa3f8
  let c := MD5_GG c d a b (x.getD 7 0) MD5_S23 0x676f02d9
  let b := MD5_GG b c d a (x.getD 12 0) MD5_S24 0x8d2a4c8a

  let a := MD5_HH a b c d (x.getD 5 0) MD5_S31 0xfffa3942
  let d := MD5_HH d a b c (x.getD 8 0) MD5_S32 0x8771f681
  let c := MD5_HH c d a b (x.getD 11 0) MD5_S33 0x6d9d6122
  let b := MD5_HH b c d a (x.getD 14 0) MD5_S34 0xfde5380c
  let a := MD5_HH a b c d (x.getD 1 0) MD5_S31 0xa4beea44
  let d := MD5_HH d a b c (x.getD 4 0) MD5_S32 0x4bdecfa9
  let c := MD5_HH c d a b (x.getD 7 0) MD5_S33 0xf6bb4b60
  let b := MD5_HH b c d a (x.getD 10 0) MD5_S34 0xbebfbc70
  let a := MD5_HH a b c d (x.getD 13 0) MD5_S31 0x289b7ec6
  let d := MD5_HH d a b c (x.getD 0 0) MD5_S32 0xeaa127fa
  let c := MD5_HH c d a b (x.getD 3 0) MD5_S33 0xd4ef3085
  let b := MD5_HH b c d a (x.getD 6 0) MD5_S34 0x04881d05
  let a := MD5_HH a b c d (x.getD 9 0) MD5_S31 0xd9d4d039
  let d := MD5_HH d a b c (x.getD 12 0) MD5_S32 0xe6db99e5
  let c := MD5_HH c d a b (x.getD 15 0) MD5_S33 0x1fa27cf8
  let b := MD5_HH b c d a (x.getD 2 0) MD5_S34 0xc4ac5665

  let a := MD5_II a b c d (x.getD 0 0) MD5_S41 0xf4292244
  let d := MD5_II d a b c (x.getD 7 0) MD5_S42 0x432aff97
  let c := MD5_II c d a b (x.getD 14 0) MD5_S43 0xab9423a7
  let b := MD5_II b c d a (x.getD 5 0) MD5_S44 0xfc93a039
  let a := MD5_II a b c d (x.getD 12 0) MD5_S41 0x655b59c3
  let d := MD5_II d a b c (x.getD 3 0) MD5_S42 0x8f0ccc92
  let c := MD5_II c d a b (x.getD 10 0) MD5_S43 0xffeff47d
  let b := MD5_II b c d a (x.getD 1 0) MD5_S44 0x85845dd1
  let a := MD5_II a b c d (x.getD 8 0) MD5_S41 0x6fa87e4f
  let d := MD5_II d a b c (x.getD 15 0) MD5_S42 0xfe2ce6e0
  let c := MD5_II c d a b (x.getD 6 0) MD5_S43 0xa3014314
  let b := MD5_II b c d a (x.getD 13 0) MD5_S44 0x4e0811a1
  let a := MD5_II a b c d (x.getD 4 0) MD5_S41 0xf7537e82
  let d := MD5_II d a b c (x.getD 11 0) MD5_S42 0xbd3af235
  let c := MD5_II c d a b (x.getD 2 0) MD5_S43 0x2ad7d2bb
  let b := MD5_II b c d a (x.getD 9 0) MD5_S44 0xeb86d391

  (a, b, c, d)

/-- The function `md5_update_block`: the locals are loaded from the registers, the block
starting at `src` is decoded, the 64 steps run, their result is added into the registers and
`cacheLen` is reset. -/
def md5_update_block (ctx : md5_context) (src : List Nat) : md5_context :=
  let x := md5_decode src
  let r := md5_update_block_rounds ctx.a ctx.b ctx.c ctx.d x
  { ctx with
    a := u32 (ctx.a + r.1)
    b := u32 (ctx.b + r.2.1)
    c := u32 (ctx.c + r.2.2.1)
    d := u32 (ctx.d + r.2.2.2)
    cacheLen := 0 }

/-! ## Stream controller -/

/-- The function `md5_init`: `md5_zero_memory` over the whole struct clears every field
(whatever it held), then the registers of RFC 1321 section 3.3 are stored. -/
def md5_init (_ctx : md5_context) : md5_context :=
  let ctx : md5_context :=
    { a := 0, b := 0, c := 0, d := 0, sz := 0, cache := List.replicate sizeof_cache 0,
      cacheLen := 0 }
  { ctx with
    a := 0x67452301
    b := 0xefcdab89
    c := 0x98badcfe
    d := 0x10325476
    sz := 0 }

/-- One iteration of the `while` loop of `md5_update`, from the context and
`totalBytesProcessed` to their values at the end of the iteration.  `bytes` is the source
buffer and `sz` the length passed by the caller.  The result is `none` when the iteration
reads the source or writes the cache outside its bounds. -/
def md5_update_iter (ctx : md5_context) (bytes : List Nat) (sz : Nat)
    (totalBytesProcessed : Nat) : Option (md5_context × Nat) :=
  let bytesRemainingToProcess := sz - totalBytesProcessed
  if ctx.cacheLen = 0 ∧ bytesRemainingToProcess > sizeof_cache then
    if totalBytesProcessed + sizeof_cache ≤ bytes.length then
      some (md5_update_block ctx (bytes.drop totalBytesProcessed),
        totalBytesProcessed + sizeof_cache)
    else none
  else
    let cacheRemaining := usize_sub sizeof_cache (u32 ctx.cacheLen)
    if cacheRemaining > 0 then
      let bytesToProcess :=
        if bytesRemainingToProcess > cacheRemaining then cacheRemaining
        else bytesRemainingToProcess
      if ctx.cacheLen + bytesToProcess ≤ sizeof_cache
          ∧ totalBytesProcessed + bytesToProcess ≤ bytes.length then
        let ctx1 : md5_context :=
          { ctx with
            cache := md5_copy_memory ctx.cache ctx.cacheLen bytes totalBytesProcessed
              bytesToProcess
            cacheLen := u32 (ctx.cacheLen + bytesToProcess) }
        let totalBytesProcessed := totalBytesProcessed + bytesToProcess
        let cacheRemaining := usize_sub sizeof_cache (u32 ctx1.cacheLen)
        if cacheRemaining = 0 then
          some (md5_update_block ctx1 ctx1.cache, totalBytesProcessed)
        else some (ctx1, totalBytesProcessed)
      else none
    else
      some (md5_update_block ctx ctx.cache, totalBytesProcessed)

/-- The `while (totalBytesProcessed < sz)` loop of `md5_update`, run for at most `fuel`
iterations; `none` also when the fuel is used up before the loop condition fails. -/
def md5_update_loop : Nat → md5_context → List Nat → Nat → Nat → Option md5_context
  | 0, ctx, _, sz, totalBytesProcessed =>
    if totalBytesProcessed < sz then none else some ctx
  | fuel + 1, ctx, bytes, sz, totalBytesProcessed =>
    if totalBytesProcessed < sz then
      match md5_update_iter ctx bytes sz totalBytesProcessed with
      | none => none
      | some (ctx1, total1) => md5_update_loop fuel ctx1 bytes sz total1
    else some ctx

/-- The function `md5_update`.  The source is `none` for a `NULL` pointer.  The loop is given
`sz + 1` iterations, which is enough whenever `cacheLen ≤ 64` on entry. -/
def md5_update (ctx : md5_context) (src : Option (List Nat)) (sz : Nat) :
    Option md5_context :=
  match src with
  | none => if sz > 0 then some ctx else some { ctx with sz := u64 (ctx.sz + sz) }
  | some bytes =>
    match md5_update_loop (sz + 1) ctx bytes sz 0 with
    | none => none
    | some ctx1 => some { ctx1 with sz := u64 (ctx1.sz + sz) }

/-- The test `cacheRemaining == 0` at the start of `md5_finalize` (the cache is exactly
full). -/
def md5_finalize_cache_full (ctx : md5_context) : Bool :=
  usize_sub sizeof_cache (u32 ctx.cacheLen) == 0

/-- The value `szLo` of `md5_finalize`. -/
def md5_szLo (sz : Nat) : Nat := u32 (((sz >>> 0) &&& 0xFFFFFFFF) <<< 3)

/-- The value `szHi` of `md5_finalize`. -/
def md5_szHi (sz : Nat) : Nat := u32 (((sz >>> 32) &&& 0xFFFFFFFF) <<< 3)

/-- The digest bytes `md5_finalize` writes from the registers. -/
def md5_write_digest (ctx : md5_context) : List Nat :=
  [ u8 (ctx.a >>> 0), u8 (ctx.a >>> 8), u8 (ctx.a >>> 16), u8 (ctx.a >>> 24),
    u8 (ctx.b >>> 0), u8 (ctx.b >>> 8), u8 (ctx.b >>> 16), u8 (ctx.b >>> 24),
    u8 (ctx.c >>> 0), u8 (ctx.c >>> 8), u8 (ctx.c >>> 16), u8 (ctx.c >>> 24),
    u8 (ctx.d >>> 0), u8 (ctx.d >>> 8), u8 (ctx.d >>> 16), u8 (ctx.d >>> 24) ]

/-- The first step of `md5_finalize` (source lines 326-329): a cache that is exactly full is
handed to `md5_update_block`.  The result is the context and the blocks handed over. -/
def md5_finalize_flush (ctx : md5_context) : md5_context × List (List Nat) :=
  if md5_finalize_cache_full ctx then (md5_update_block ctx ctx.cache, [ctx.cache])
  else (ctx, [])

/-- The second step of `md5_finalize` (source lines 332-341): the byte `0x80` is stored at
`cache[cacheLen]`, and when fewer than 8 bytes then remain the rest of the cache is zeroed and
the block handed to `md5_update_block`.  The result is the context, the blocks handed over
and the final value of `cacheRemaining`. -/
def md5_finalize_marker (ctx : md5_context) : md5_context × List (List Nat) × Nat :=
  let ctx := { ctx with cache := ctx.cache.set ctx.cacheLen 0x80 }
  let ctx := { ctx with cacheLen := u32 (ctx.cacheLen + 1) }
  let cacheRemaining := usize_sub sizeof_cache (u32 ctx.cacheLen)
  if cacheRemaining < 8 then
    let ctx := { ctx with cache := md5_zero_memory ctx.cache ctx.cacheLen cacheRemaining }
    (md5_update_block ctx ctx.cache, [ctx.cache], sizeof_cache)
  else (ctx, [], cacheRemaining)

/-- The third step of `md5_finalize` (source lines 344-356): zero fill up to byte 56, the
eight length bytes, and the last block handed to `md5_update_block`.  The result is the
context and the blocks handed over. -/
def md5_finalize_length (ctx : md5_context) (cacheRemaining : Nat) :
    md5_context × List (List Nat) :=
  let ctx := { ctx with
    cache := md5_zero_memory ctx.cache ctx.cacheLen (usize_sub cacheRemaining 8) }
  let szLo := md5_szLo ctx.sz
  let szHi := md5_szHi ctx.sz
  let ctx := { ctx with cache := ctx.cache.set 56 (u8 ((szLo >>> 0) &&& 0xFF)) }
  let ctx := { ctx with cache := ctx.cache.set 57 (u8 ((szLo >>> 8) &&& 0xFF)) }
  let ctx := { ctx with cache := ctx.cache.set 58 (u8 ((szLo >>> 16) &&& 0xFF)) }
  let ctx := { ctx with cache := ctx.cache.set 59 (u8 ((szLo >>> 24) &&& 0xFF)) }
  let ctx := { ctx with cache := ctx.cache.set 60 (u8 ((szHi >>> 0) &&& 0xFF)) }
  let ctx := { ctx with cache := ctx.cache.set 61 (u8 ((szHi >>> 8) &&& 0xFF)) }
  let ctx := { ctx with cache := ctx.cache.set 62 (u8 ((szHi >>> 16) &&& 0xFF)) }
  let ctx := { ctx with cache := ctx.cache.set 63 (u8 ((szHi >>> 24) &&& 0xFF)) }
  (md5_update_block ctx ctx.cache, [ctx.cache])

/-- The function `md5_finalize` with a log of the blocks handed to `md5_update_block`, in
order: the three steps above, then the digest is written from the registers.  The result is
the final context, the digest and the log; `none` when the store of `0x80` at
`cache[cacheLen]` falls outside the cache. -/
def md5_finalize_log (ctx : md5_context) :
    Option (md5_context × List Nat × List (List Nat)) :=
  let s1 := md5_finalize_flush ctx
  if s1.1.cacheLen < sizeof_cache then
    let s2 := md5_finalize_marker s1.1
    let s3 := md5_finalize_length s2.1 s2.2.2
    some (s3.1, md5_write_digest s3.1, s1.2 ++ s2.2.1 ++ s3.2)
  else none

/-- The function `md5_finalize`: the final context and the 16 digest bytes. -/
def md5_finalize (ctx : md5_context) : Option (md5_context × List Nat) :=
  match md5_finalize_log ctx with
  | none => none
  | some (ctx1, digest, _) => some (ctx1, digest)

/-- The function `md5`: the digest written for the source `src` of length `sz`.  The local
context is uninitialised before `md5_init`, which overwrites every field. -/
def md5 (src : Option (List Nat)) (sz : Nat) : Option (List Nat) :=
  let ctx := md5_init ⟨0, 0, 0, 0, 0, [], 0⟩
  match md5_update ctx src sz with
  | none => none
  | some ctx1 =>
    match md5_finalize ctx1 with
    | none => none
    | some (_, digest) => some digest

/-! ## Hex formatter -/

/-- The string literal `hex` of `md5_format_byte`, as character codes. -/
def md5_hex : List Nat :=
  [48, 49, 50, 51, 52, 53, 54, 55, 56, 57, 97, 98, 99, 100, 101, 102]

/-- The function `md5_format_byte` writing at `dst + off`. -/
def md5_format_byte (dst : List Nat) (off : Nat) (byte : Nat) : List Nat :=
  let dst := dst.set (off + 0) (md5_hex.getD ((byte &&& 0xF0) >>> 4) 0)
  dst.set (off + 1) (md5_hex.getD (byte &&& 0x0F) 0)

/-- The `for` loop of `md5_format`, iterations `0 .. n-1`. -/
def md5_format_loop (dst : List Nat) (hash : List Nat) : Nat → List Nat
  | 0 => dst
  | i + 1 => md5_format_byte (md5_format_loop dst hash i) (i * 2) (hash.getD i 0)

/-- The function `md5_format` on a non-null destination buffer `dst` (a list as long as the
buffer really is) with the capacity `dstCap` the caller passes.  `none` when the destination
is written or the hash is read outside its bounds. -/
def md5_format (dst : List Nat) (dstCap : Nat) (hash : List Nat) : Option (List Nat) :=
  if dstCap < 33 then
    if dstCap > 0 then
      if 0 < dst.length then some (dst.set 0 0) else none
    else some dst
  else
    if 33 ≤ dst.length ∧ 16 ≤ hash.length then
      some ((md5_format_loop dst hash 16).set 32 0)
    else none


/-! ## Specification-level definitions -/

/-- The four registers of a context, in the order A, B, C, D. -/
def md5_regs (ctx : md5_context) : Nat × Nat × Nat × Nat := (ctx.a, ctx.b, ctx.c, ctx.d)

/-- The compression function on registers: `md5_update_block` seen as a map from the
registers and a block to the new registers. -/
def md5_compress (r : Nat × Nat × Nat × Nat) (block : List Nat) : Nat × Nat × Nat × Nat :=
  md5_regs (md5_update_block ⟨r.1, r.2.1, r.2.2.1, r.2.2.2, 0, [], 0⟩ block)

/-- Fold of the compression function over the first `k` 64-byte blocks of `data`. -/
def md5_fold_blocks : Nat → Nat × Nat × Nat × Nat → List Nat → Nat × Nat × Nat × Nat
  | 0, r, _ => r
  | k + 1, r, data => md5_fold_blocks k (md5_compress r (data.take 64)) (data.drop 64)

/-- The valid bytes of the cache, `cache[0 .. cacheLen)`. -/
def md5_pending (ctx : md5_context) : List Nat := ctx.cache.take ctx.cacheLen

/-- The eight length bytes `md5_finalize` stores at `cache[56 .. 63]`. -/
def md5_length_bytes (sz : Nat) : List Nat :=
  [ u8 ((md5_szLo sz >>> 0) &&& 0xFF), u8 ((md5_szLo sz >>> 8) &&& 0xFF),
    u8 ((md5_szLo sz >>> 16) &&& 0xFF), u8 ((md5_szLo sz >>> 24) &&& 0xFF),
    u8 ((md5_szHi sz >>> 0) &&& 0xFF), u8 ((md5_szHi sz >>> 8) &&& 0xFF),
    u8 ((md5_szHi sz >>> 16) &&& 0xFF), u8 ((md5_szHi sz >>> 24) &&& 0xFF) ]

/-- A natural number as a 32-bit little-endian integer: four bytes, least significant
first. -/
def le32 (v : Nat) : List Nat :=
  [v % 256, v / 256 % 256, v / 65536 % 256, v / 16777216 % 256]

/-- A natural number as a 64-bit little-endian integer: eight bytes, least significant
first. -/
def le64 (v : Nat) : List Nat :=
  (List.range 8).map fun i => v / 256 ^ i % 256

/-- The value of a little-endian byte string. -/
def le_value : List Nat → Nat
  | [] => 0
  | b :: bs => b + 256 * le_value bs

/-- The 16 digest bytes decoded as four little-endian 32-bit words. -/
def digest_words (digest : List Nat) : List Nat :=
  [ le_value (digest.take 4), le_value ((digest.drop 4).take 4),
    le_value ((digest.drop 8).take 4), le_value ((digest.drop 12).take 4) ]

/-- The four initial constants of RFC 1321, section 3.3. -/
def rfc1321_initial : Nat × Nat × Nat × Nat :=
  (0x67452301, 0xefcdab89, 0x98badcfe, 0x10325476)

/-- The number of zero bytes of the RFC 1321 padding of a message of `n` bytes. -/
def rfc1321_zeros (n : Nat) : Nat := (119 - n % 64) % 64

/-- The padded message of RFC 1321: the message, the byte `0x80`, the zero bytes, and the
bit length as a 64-bit little-endian integer. -/
def rfc1321_pad (S : List Nat) : List Nat :=
  S ++ [0x80] ++ List.replicate (rfc1321_zeros S.length) 0 ++ le64 (8 * S.length)

/-- The RFC 1321 reference digest: the compression function folded from the initial
constants over the 64-byte blocks of the padded message, the registers then serialised
least significant byte first. -/
def rfc1321_md5 (S : List Nat) : List Nat :=
  let r := md5_fold_blocks ((rfc1321_pad S).length / 64) rfc1321_initial (rfc1321_pad S)
  le32 r.1 ++ le32 r.2.1 ++ le32 r.2.2.1 ++ le32 r.2.2.2

/-- One `md5_update` call per chunk, in order, each chunk passed whole. -/
def md5_update_chunks : md5_context → List (List Nat) → Option md5_context
  | ctx, [] => some ctx
  | ctx, chunk :: rest =>
    match md5_update ctx (some chunk) chunk.length with
    | none => none
    | some ctx1 => md5_update_chunks ctx1 rest

/-- The digest written by `md5_init`, one `md5_update` per chunk and `md5_finalize`, from a
context of prior content `ctx0`. -/
def md5_chunked (ctx0 : md5_context) (chunks : List (List Nat)) : Option (List Nat) :=
  match md5_update_chunks (md5_init ctx0) chunks with
  | none => none
  | some ctx1 =>
    match md5_finalize ctx1 with
    | none => none
    | some (_, digest) => some digest

/-- The contexts reachable from `md5_init` by `md5_update` calls that return. -/
inductive md5_reachable : md5_context → Prop
  | init (ctx0 : md5_context) : md5_reachable (md5_init ctx0)
  | update (ctx ctx1 : md5_context) (src : Option (List Nat)) (sz : Nat) :
      md5_reachable ctx → md5_update ctx src sz = some ctx1 → md5_reachable ctx1

/-- The character codes of a string of the test program. -/
def bytes_of (s : String) : List Nat := s.toList.map Char.toNat

/-- The body of `do_test` up to `md5_format`: the content of `hashStr` after `md5` and
`md5_format`, from the initial content `hashStr` of the 33-byte buffer. -/
def do_test_hashStr (hashStr : List Nat) (input : String) : Option (List Nat) :=
  match md5 (some (bytes_of input)) (bytes_of input).length with
  | none => none
  | some hash => md5_format hashStr 33 hash

/-- The lowercase hexadecimal digit (as a character code) of a value below 16. -/
def hex_digit (v : Nat) : Nat := if v < 10 then 48 + v else 87 + v

/-- The value of a lowercase hexadecimal digit. -/
def hex_digit_value (c : Nat) : Option Nat :=
  if 48 ≤ c ∧ c ≤ 57 then some (c - 48)
  else if 97 ≤ c ∧ c ≤ 102 then some (c - 87)
  else none

/-- Parsing a string of hexadecimal digit pairs into bytes, high nibble first. -/
def parse_hex : List Nat → Option (List Nat)
  | [] => some []
  | [_] => none
  | hi :: lo :: rest =>
    match hex_digit_value hi, hex_digit_value lo, parse_hex rest with
    | some h, some l, some r => some ((16 * h + l) :: r)
    | _, _, _ => none

/-- The registers after every complete 64-byte block of `data` has been compressed, in
order, from the registers `r`. -/
def md5_stream_regs (r : Nat × Nat × Nat × Nat) (data : List Nat) : Nat × Nat × Nat × Nat :=
  md5_fold_blocks (data.length / 64) r data

/-- The bytes of `data` after its last complete 64-byte block. -/
def md5_stream_rest (data : List Nat) : List Nat := data.drop (64 * (data.length / 64))

/-- The blocks `md5_finalize` compresses, from the valid cache bytes `p` and the byte count
`sz`: one block when at most 55 bytes are pending, two otherwise. -/
def md5_padding_blocks (p : List Nat) (sz : Nat) : List (List Nat) :=
  if p.length ≤ 55 then
    [p ++ [0x80] ++ List.replicate (55 - p.length) 0 ++ md5_length_bytes sz]
  else
    [p ++ [0x80] ++ List.replicate (63 - p.length) 0,
      List.replicate 56 0 ++ md5_length_bytes sz]

/-- Four registers serialised least significant byte first, register A first. -/
def md5_serialise (r : Nat × Nat × Nat × Nat) : List Nat :=
  le32 r.1 ++ le32 r.2.1 ++ le32 r.2.2.1 ++ le32 r.2.2.2

/-- The nibble `md5_format_byte` looks up for destination index `j` of the hex string: the
high nibble of byte `j / 2` for even `j`, the low nibble for odd `j`. -/
def md5_format_nibble (hash : List Nat) (j : Nat) : Nat :=
  if j % 2 = 0 then (hash.getD (j / 2) 0 &&& 0xF0) >>> 4 else hash.getD (j / 2) 0 &&& 0x0F

/-- The lowercase hexadecimal rendering of a byte string: two digits per byte, high nibble
first. -/
def hex_encode : List Nat → List Nat
  | [] => []
  | b :: rest => hex_digit (b / 16) :: hex_digit (b % 16) :: hex_encode rest

/-- One iteration of the loop of `md5_update` with the cache-bypass branch removed: the
slow path of `md5_update_iter`, taken whatever the cache holds. -/
def md5_update_buffered_iter (ctx : md5_context) (bytes : List Nat) (sz : Nat)
    (totalBytesProcessed : Nat) : Option (md5_context × Nat) :=
  let bytesRemainingToProcess := sz - totalBytesProcessed
  let cacheRemaining := usize_sub sizeof_cache (u32 ctx.cacheLen)
  if cacheRemaining > 0 then
    let bytesToProcess :=
      if bytesRemainingToProcess > cacheRemaining then cacheRemaining
      else bytesRemainingToProcess
    if ctx.cacheLen + bytesToProcess ≤ sizeof_cache
        ∧ totalBytesProcessed + bytesToProcess ≤ bytes.length then
      let ctx1 : md5_context :=
        { ctx with
          cache := md5_copy_memory ctx.cache ctx.cacheLen bytes totalBytesProcessed
            bytesToProcess
          cacheLen := u32 (ctx.cacheLen + bytesToProcess) }
      let totalBytesProcessed := totalBytesProcessed + bytesToProcess
      let cacheRemaining := usize_sub sizeof_cache (u32 ctx1.cacheLen)
      if cacheRemaining = 0 then
        some (md5_update_block ctx1 ctx1.cache, totalBytesProcessed)
      else some (ctx1, totalBytesProcessed)
    else none
  else
    some (md5_update_block ctx ctx.cache, totalBytesProcessed)

/-- The loop of `md5_update` with the cache-bypass branch removed, run for at most `fuel`
iterations. -/
def md5_update_buffered_loop : Nat → md5_context → List Nat → Nat → Nat → Option md5_context
  | 0, ctx, _, sz, totalBytesProcessed =>
    if totalBytesProcessed < sz then none else some ctx
  | fuel + 1, ctx, bytes, sz, totalBytesProcessed =>
    if totalBytesProcessed < sz then
      match md5_update_buffered_iter ctx bytes sz totalBytesProcessed with
      | none => none
      | some (ctx1, total1) => md5_update_buffered_loop fuel ctx1 bytes sz total1
    else some ctx

/-- The function `md5_update` with the cache-bypass branch removed: every byte goes through
the cache. -/
def md5_update_buffered (ctx : md5_context) (src : Option (List Nat)) (sz : Nat) :
    Option md5_context :=
  match src with
  | none => if sz > 0 then some ctx else some { ctx with sz := u64 (ctx.sz + sz) }
  | some bytes =>
    match md5_update_buffered_loop (sz + 1) ctx bytes sz 0 with
    | none => none
    | some ctx1 => some { ctx1 with sz := u64 (ctx1.sz + sz) }

/-- The loop of `md5_update` with its bookkeeping exposed: the result is the final context,
the final value of `totalBytesProcessed` and the number of iterations that ran. -/
def md5_update_loop_count :
    Nat → md5_context → List Nat → Nat → Nat → Option (md5_context × Nat × Nat)
  | 0, ctx, _, sz, totalBytesProcessed =>
    if totalBytesProcessed < sz then none else some (ctx, totalBytesProcessed, 0)
  | fuel + 1, ctx, bytes, sz, totalBytesProcessed =>
    if totalBytesProcessed < sz then
      match md5_update_iter ctx bytes sz totalBytesProcessed with
      | none => none
      | some (ctx1, total1) =>
        match md5_update_loop_count fuel ctx1 bytes sz total1 with
        | none => none
        | some (ctx2, total2, k) => some (ctx2, total2, k + 1)
    else some (ctx, totalBytesProcessed, 0)

/-- The index conditions of one iteration of the loop of `md5_update`, in source order: the
subtraction `sz - totalBytesProcessed` does not underflow; on the bypass path the block read
from the source ends at or before `sz`; on the slow path `sizeof(cache) - cacheLen` does not
underflow, the copy writes the cache inside `0 .. 63` and reads the source before `sz`, and
the second `sizeof(cache) - cacheLen` does not underflow. -/
def md5_update_iter_safe (ctx : md5_context) (sz : Nat) (totalBytesProcessed : Nat) : Bool :=
  let bytesRemainingToProcess := sz - totalBytesProcessed
  decide (totalBytesProcessed ≤ sz) &&
  (if ctx.cacheLen = 0 ∧ bytesRemainingToProcess > sizeof_cache then
    decide (totalBytesProcessed + sizeof_cache ≤ sz)
  else
    let cacheRemaining := usize_sub sizeof_cache (u32 ctx.cacheLen)
    decide (u32 ctx.cacheLen ≤ sizeof_cache) &&
    (if cacheRemaining > 0 then
      let bytesToProcess :=
        if bytesRemainingToProcess > cacheRemaining then cacheRemaining
        else bytesRemainingToProcess
      decide (ctx.cacheLen + bytesToProcess ≤ sizeof_cache) &&
      decide (totalBytesProcessed + bytesToProcess ≤ sz) &&
      decide (u32 (u32 (ctx.cacheLen + bytesToProcess)) ≤ sizeof_cache)
    else true))

/-- The index conditions hold at every iteration the loop of `md5_update` runs, and the loop
ends within `fuel` iterations. -/
def md5_update_loop_safe : Nat → md5_context → List Nat → Nat → Nat → Bool
  | 0, _, _, sz, totalBytesProcessed => decide (¬ totalBytesProcessed < sz)
  | fuel + 1, ctx, bytes, sz, totalBytesProcessed =>
    if totalBytesProcessed < sz then
      md5_update_iter_safe ctx sz totalBytesProcessed &&
      (match md5_update_iter ctx bytes sz totalBytesProcessed with
        | none => false
        | some (ctx1, total1) => md5_update_loop_safe fuel ctx1 bytes sz total1)
    else true

/-- The index conditions of `md5_finalize`, in source order: `sizeof(cache) - cacheLen` does
not underflow; the byte `0x80` is stored at an index below 64; the second
`sizeof(cache) - cacheLen` does not underflow; the zero fill of a block without room for the
length (source line 338) ends at or before index 64; `cacheRemaining - 8` does not underflow;
the zero fill that precedes the length bytes (source line 344) ends at or before index 56. -/
def md5_finalize_safe (ctx : md5_context) : Bool :=
  let s1 := md5_finalize_flush ctx
  let cacheLen1 := u32 (s1.1.cacheLen + 1)
  let cacheRemaining1 := usize_sub sizeof_cache (u32 cacheLen1)
  let s2 := md5_finalize_marker s1.1
  decide (u32 ctx.cacheLen ≤ sizeof_cache) &&
  decide (s1.1.cacheLen < sizeof_cache) &&
  decide (u32 cacheLen1 ≤ sizeof_cache) &&
  (if cacheRemaining1 < 8 then decide (cacheLen1 + cacheRemaining1 ≤ sizeof_cache) else true) &&
  decide (8 ≤ s2.2.2) &&
  decide (s2.1.cacheLen + usize_sub s2.2.2 8 ≤ 56)

/-- The little-endian 32-bit decoding of block bytes `4k .. 4k+3`. -/
def le32_word (block : List Nat) (k : Nat) : Nat :=
  block.getD (4 * k) 0 + 256 * block.getD (4 * k + 1) 0 + 65536 * block.getD (4 * k + 2) 0
    + 16777216 * block.getD (4 * k + 3) 0

/-- Rotation of a 32-bit value to the left by `n` bit positions, in arithmetic form: the low
`32 - n` bits move up by `n` and the high `n` bits come down. -/
def rotl32 (x n : Nat) : Nat := x * 2 ^ n % 4294967296 + x / 2 ^ (32 - n)

/-- The 64 additive constants of `md5_update_block`, in source order. -/
def md5_round_K : List Nat :=
  [
    0xd76aa478, 0xe8c7b756, 0x242070db, 0xc1bdceee,
    0xf57c0faf, 0x4787c62a, 0xa8304613, 0xfd469501,
    0x698098d8, 0x8b44f7af, 0xffff5bb1, 0x895cd7be,
    0x6b901122, 0xfd987193, 0xa679438e, 0x49b40821,
    0xf61e2562, 0xc040b340, 0x265e5a51, 0xe9b6c7aa,
    0xd62f105d, 0x02441453, 0xd8a1e681, 0xe7d3fbc8,
    0x21e1cde6, 0xc33707d6, 0xf4d50d87, 0x455a14ed,
    0xa9e3e905, 0xfcefa3f8, 0x676f02d9, 0x8d2a4c8a,
    0xfffa3942, 0x8771f681, 0x6d9d6122, 0xfde5380c,
    0xa4beea44, 0x4bdecfa9, 0xf6bb4b60, 0xbebfbc70,
    0x289b7ec6, 0xeaa127fa, 0xd4ef3085, 0x04881d05,
    0xd9d4d039, 0xe6db99e5, 0x1fa27cf8, 0xc4ac5665,
    0xf4292244, 0x432aff97, 0xab9423a7, 0xfc93a039,
    0x655b59c3, 0x8f0ccc92, 0xffeff47d, 0x85845dd1,
    0x6fa87e4f, 0xfe2ce6e0, 0xa3014314, 0x4e0811a1,
    0xf7537e82, 0xbd3af235, 0x2ad7d2bb, 0xeb86d391 ]

/-- The mixing function of round `r`: `F`, `G`, `H`, `I`. -/
def md5_round_f (r b c d : Nat) : Nat :=
  match r with
  | 0 => MD5_F b c d
  | 1 => MD5_G b c d
  | 2 => MD5_H b c d
  | _ => MD5_I b c d

/-- The index of the message word used at step `i`. -/
def md5_round_perm (i : Nat) : Nat :=
  match i / 16 with
  | 0 => i
  | 1 => (5 * i + 1) % 16
  | 2 => (3 * i + 5) % 16
  | _ => 7 * i % 16

/-- The rotation amounts, four per round. -/
def md5_round_shifts : List (List Nat) :=
  [[7, 12, 17, 22], [5, 9, 14, 20], [4, 11, 16, 23], [6, 10, 15, 21]]

/-- The rotation amount of step `i`. -/
def md5_round_shift (i : Nat) : Nat := (md5_round_shifts.getD (i / 16) []).getD (i % 4) 0

/-- Step `i` of the round loop on the words `w`: `(a, b, c, d)` becomes
`(d, b + rotl32(a + f(b, c, d) + w[perm i] + K[i], s), b, c)`, all sums modulo `2^32`. -/
def md5_round_step (w : List Nat) (s : Nat × Nat × Nat × Nat) (i : Nat) :
    Nat × Nat × Nat × Nat :=
  (s.2.2.2,
   (s.2.1 + rotl32
      ((s.1 + md5_round_f (i / 16) s.2.1 s.2.2.1 s.2.2.2 + w.getD (md5_round_perm i) 0
        + md5_round_K.getD i 0) % 4294967296)
      (md5_round_shift i)) % 4294967296,
   s.2.1, s.2.2.1)

/-- The round loop: steps `0 .. 63` in order from `(a, b, c, d)`. -/
def md5_round_loop (a b c d : Nat) (w : List Nat) : Nat × Nat × Nat × Nat :=
  (List.range 64).foldl (md5_round_step w) (a, b, c, d)

/-- The compression function by the round formula: the words are the little-endian decoding
of the block, the round loop runs from the registers, and its result is added to the
registers modulo `2^32`. -/
def md5_round_compress (r : Nat × Nat × Nat × Nat) (block : List Nat) :
    Nat × Nat × Nat × Nat :=
  let w := (List.range 16).map (le32_word block)
  let s := md5_round_loop r.1 r.2.1 r.2.2.1 r.2.2.2 w
  ((r.1 + s.1) % 4294967296, (r.2.1 + s.2.1) % 4294967296,
    (r.2.2.1 + s.2.2.1) % 4294967296, (r.2.2.2 + s.2.2.2) % 4294967296)


/-! ## Basic facts -/

theorem md5_update_block_cache (ctx : md5_context) (src : List Nat) :
    (md5_update_block ctx src).cache = ctx.cache := by
  simp only [md5_update_block]

theorem md5_update_block_sz (ctx : md5_context) (src : List Nat) :
    (md5_update_block ctx src).sz = ctx.sz := by
  simp only [md5_update_block]

theorem md5_update_block_cacheLen (ctx : md5_context) (src : List Nat) :
    (md5_update_block ctx src).cacheLen = 0 := by
  simp only [md5_update_block]

theorem md5_regs_update_block (ctx : md5_context) (src : List Nat) :
    md5_regs (md5_update_block ctx src) = md5_compress (md5_regs ctx) src := by
  simp only [md5_regs, md5_compress, md5_update_block]

theorem md5_update_block_regs_lt (ctx : md5_context) (src : List Nat) :
    (md5_update_block ctx src).a < 4294967296 ∧ (md5_update_block ctx src).b < 4294967296 ∧
    (md5_update_block ctx src).c < 4294967296 ∧ (md5_update_block ctx src).d < 4294967296 := by
  simp only [md5_update_block, u32]
  refine ⟨?_, ?_, ?_, ?_⟩ <;> exact Nat.mod_lt _ (by norm_num)

theorem md5_decode_take (src : List Nat) : md5_decode (src.take 64) = md5_decode src := by
  unfold md5_decode
  apply List.map_congr_left
  intro i hi
  have hi : i < 16 := List.mem_range.mp hi
  have h : ∀ k, k < 64 → (List.take 64 src).getD k 0 = src.getD k 0 := by
    intro k hk
    simp [List.getD_eq_getElem?_getD, List.getElem?_take, hk]
  rw [h _ (by omega), h _ (by omega), h _ (by omega), h _ (by omega)]

theorem md5_update_block_take (ctx : md5_context) (src : List Nat) :
    md5_update_block ctx (src.take 64) = md5_update_block ctx src := by
  unfold md5_update_block
  rw [md5_decode_take]

theorem md5_compress_take (r : Nat × Nat × Nat × Nat) (src : List Nat) :
    md5_compress r (src.take 64) = md5_compress r src := by
  unfold md5_compress
  rw [md5_update_block_take]

theorem usize_sub_of_le (x y : Nat) (hy : y ≤ x) (hx : x < 18446744073709551616) :
    usize_sub x y = x - y := by
  unfold usize_sub usize
  omega

/-! ## The memory loops -/

theorem md5_zero_memory_length (p : List Nat) (off k : Nat) :
    (md5_zero_memory p off k).length = p.length := by
  induction k with
  | zero => rfl
  | succ k ih => simp [md5_zero_memory, ih]

theorem md5_zero_memory_getElem? (p : List Nat) (off k i : Nat) :
    (md5_zero_memory p off k)[i]? =
      if off ≤ i ∧ i < off + k ∧ i < p.length then some 0 else p[i]? := by
  induction k with
  | zero =>
    simp only [md5_zero_memory]
    rw [if_neg (by omega)]
  | succ k ih =>
    simp only [md5_zero_memory, List.getElem?_set, ih, md5_zero_memory_length]
    by_cases h1 : off + k = i
    · subst h1
      by_cases h2 : off + k < p.length
      · simp [h2]
      · have : p[off + k]? = none := List.getElem?_eq_none (by omega)
        simp [h2, this]
    · by_cases h3 : off ≤ i ∧ i < off + k ∧ i < p.length
      · have : off ≤ i ∧ i < off + (k + 1) ∧ i < p.length := by omega
        simp [h1, h3, this]
      · have : ¬ (off ≤ i ∧ i < off + (k + 1) ∧ i < p.length) := by omega
        simp [h1, h3, this]

theorem md5_copy_memory_length (dst : List Nat) (dOff : Nat) (src : List Nat) (sOff k : Nat) :
    (md5_copy_memory dst dOff src sOff k).length = dst.length := by
  induction k with
  | zero => rfl
  | succ k ih => simp [md5_copy_memory, ih]

theorem md5_copy_memory_getElem? (dst : List Nat) (dOff : Nat) (src : List Nat)
    (sOff k i : Nat) :
    (md5_copy_memory dst dOff src sOff k)[i]? =
      if dOff ≤ i ∧ i < dOff + k ∧ i < dst.length then some (src.getD (sOff + (i - dOff)) 0)
      else dst[i]? := by
  induction k with
  | zero =>
    simp only [md5_copy_memory]
    rw [if_neg (by omega)]
  | succ k ih =>
    simp only [md5_copy_memory, List.getElem?_set, ih, md5_copy_memory_length]
    by_cases h1 : dOff + k = i
    · subst h1
      by_cases h2 : dOff + k < dst.length
      · simp [h2]
      · have : dst[dOff + k]? = none := List.getElem?_eq_none (by omega)
        simp [h2, this]
    · by_cases h3 : dOff ≤ i ∧ i < dOff + k ∧ i < dst.length
      · have : dOff ≤ i ∧ i < dOff + (k + 1) ∧ i < dst.length := by omega
        simp [h1, h3, this]
      · have : ¬ (dOff ≤ i ∧ i < dOff + (k + 1) ∧ i < dst.length) := by omega
        simp [h1, h3, this]

theorem md5_zero_memory_eq (p : List Nat) (off k : Nat) (h : off + k ≤ p.length) :
    md5_zero_memory p off k = p.take off ++ List.replicate k 0 ++ p.drop (off + k) := by
  apply List.ext_getElem?
  intro i
  rw [md5_zero_memory_getElem?]
  simp only [List.getElem?_append, List.length_append, List.length_take, List.length_replicate,
    List.getElem?_take, List.getElem?_replicate, List.getElem?_drop]
  have h0 : min off p.length = off := by omega
  rw [h0]
  by_cases h1 : i < off
  · have : ¬ (off ≤ i ∧ i < off + k ∧ i < p.length) := by omega
    have h4 : i < off + k := by omega
    simp [h1, this, h4]
  · by_cases h2 : i < off + k
    · have : off ≤ i ∧ i < off + k ∧ i < p.length := by omega
      have h5 : i - off < k := by omega
      simp [h1, h2, this, h5]
    · have : ¬ (off ≤ i ∧ i < off + k ∧ i < p.length) := by omega
      have h5 : off + k + (i - (off + k)) = i := by omega
      simp [h1, h2, this, h5]

theorem md5_copy_memory_eq (dst : List Nat) (dOff : Nat) (src : List Nat) (sOff k : Nat)
    (hd : dOff + k ≤ dst.length) (hs : sOff + k ≤ src.length) :
    md5_copy_memory dst dOff src sOff k =
      dst.take dOff ++ (src.drop sOff).take k ++ dst.drop (dOff + k) := by
  apply List.ext_getElem?
  intro i
  rw [md5_copy_memory_getElem?]
  simp only [List.getElem?_append, List.length_append, List.length_take, List.length_drop,
    List.getElem?_take, List.getElem?_drop]
  have h0 : min dOff dst.length = dOff := by omega
  have h00 : min k (src.length - sOff) = k := by omega
  rw [h0, h00]
  by_cases h1 : i < dOff
  · have : ¬ (dOff ≤ i ∧ i < dOff + k ∧ i < dst.length) := by omega
    have h4 : i < dOff + k := by omega
    simp [h1, this, h4]
  · by_cases h2 : i < dOff + k
    · have : dOff ≤ i ∧ i < dOff + k ∧ i < dst.length := by omega
      have h5 : i - dOff < k := by omega
      have h6 : sOff + (i - dOff) < src.length := by omega
      simp [h1, h2, this, h5, List.getD_eq_getElem?_getD, List.getElem?_eq_getElem h6]
    · have : ¬ (dOff ≤ i ∧ i < dOff + k ∧ i < dst.length) := by omega
      have h5 : dOff + k + (i - (dOff + k)) = i := by omega
      simp [h1, h2, this, h5]

theorem md5_set8_eq (X : List Nat) (hX : X.length = 64) (b0 b1 b2 b3 b4 b5 b6 b7 : Nat) :
    ((((((((X.set 56 b0).set 57 b1).set 58 b2).set 59 b3).set 60 b4).set 61 b5).set 62
      b6).set 63 b7) = X.take 56 ++ [b0, b1, b2, b3, b4, b5, b6, b7] := by
  apply List.ext_getElem?
  intro i
  simp only [List.getElem?_set, List.length_set, hX, List.getElem?_append, List.length_take,
    List.getElem?_take]
  by_cases h1 : i < 56
  · have e : ∀ j, 56 ≤ j → ¬ (j = i) := by intro j hj; omega
    simp [h1, e]
  · by_cases h2 : i < 64
    · have : i = 56 ∨ i = 57 ∨ i = 58 ∨ i = 59 ∨ i = 60 ∨ i = 61 ∨ i = 62 ∨ i = 63 := by omega
      rcases this with h | h | h | h | h | h | h | h <;> subst h <;> simp
    · have e : ∀ j, j < 64 → ¬ (j = i) := by intro j hj; omega
      have : X[i]? = none := List.getElem?_eq_none (by omega)
      have h3 : ¬ (i - 56 < 8) := by omega
      simp [h1, e, this]
      omega

theorem md5_finalize_length_fst (ctx : md5_context) (r : Nat) :
    ∃ p : md5_context, (md5_finalize_length ctx r).1 = md5_update_block p p.cache := by
  unfold md5_finalize_length
  exact ⟨_, rfl⟩

theorem md5_finalize_log_shape (ctx c : md5_context) (dg : List Nat) (log : List (List Nat))
    (h : md5_finalize_log ctx = some (c, dg, log)) :
    (∃ p : md5_context, c = md5_update_block p p.cache) ∧ dg = md5_write_digest c := by
  unfold md5_finalize_log at h
  simp only at h
  split at h
  · simp only [Option.some.injEq, Prod.mk.injEq] at h
    obtain ⟨h1, h2, -⟩ := h
    subst h1
    exact ⟨md5_finalize_length_fst _ _, h2.symm⟩
  · exact absurd h (by simp)

/-! ## The steps of `md5_finalize` -/

theorem md5_finalize_cache_full_of_lt (ctx : md5_context) (h : ctx.cacheLen < 64) :
    md5_finalize_cache_full ctx = false := by
  have h1 : u32 ctx.cacheLen = ctx.cacheLen := by unfold u32; omega
  unfold md5_finalize_cache_full
  rw [h1, usize_sub_of_le _ _ (by unfold sizeof_cache; omega) (by unfold sizeof_cache; omega)]
  simp only [sizeof_cache, beq_eq_false_iff_ne, ne_eq]
  omega

theorem md5_finalize_flush_of_lt (ctx : md5_context) (h : ctx.cacheLen < 64) :
    md5_finalize_flush ctx = (ctx, []) := by
  unfold md5_finalize_flush
  rw [md5_finalize_cache_full_of_lt ctx h]
  rfl

theorem md5_set_marker_eq (cache : List Nat) (n : Nat) (h : n < cache.length) :
    cache.set n 0x80 = cache.take n ++ [0x80] ++ cache.drop (n + 1) := by
  rw [List.set_eq_take_append_cons_drop, if_pos h]
  simp

theorem md5_finalize_marker_le55 (ctx : md5_context) (h : ctx.cacheLen ≤ 55) :
    md5_finalize_marker ctx =
      ({ ctx with cache := ctx.cache.set ctx.cacheLen 0x80, cacheLen := ctx.cacheLen + 1 }, [],
        63 - ctx.cacheLen) := by
  have h1 : u32 (ctx.cacheLen + 1) = ctx.cacheLen + 1 := by unfold u32; omega
  have h2 : usize_sub sizeof_cache (ctx.cacheLen + 1) = 63 - ctx.cacheLen := by
    rw [usize_sub_of_le _ _ (by unfold sizeof_cache; omega) (by unfold sizeof_cache; omega)]
    unfold sizeof_cache
    omega
  simp only [md5_finalize_marker, h1, h2]
  rw [if_neg (by omega)]

theorem md5_finalize_marker_ge56 (ctx : md5_context) (h : 56 ≤ ctx.cacheLen)
    (h' : ctx.cacheLen < 64) (hlen : ctx.cache.length = 64) :
    md5_finalize_marker ctx =
      (md5_update_block
        { ctx with
          cache := md5_pending ctx ++ [0x80] ++ List.replicate (63 - ctx.cacheLen) 0
          cacheLen := ctx.cacheLen + 1 }
        (md5_pending ctx ++ [0x80] ++ List.replicate (63 - ctx.cacheLen) 0),
       [md5_pending ctx ++ [0x80] ++ List.replicate (63 - ctx.cacheLen) 0], 64) := by
  have h1 : u32 (ctx.cacheLen + 1) = ctx.cacheLen + 1 := by unfold u32; omega
  have h2 : usize_sub sizeof_cache (ctx.cacheLen + 1) = 63 - ctx.cacheLen := by
    rw [usize_sub_of_le _ _ (by unfold sizeof_cache; omega) (by unfold sizeof_cache; omega)]
    unfold sizeof_cache
    omega
  have h3 : md5_zero_memory (ctx.cache.set ctx.cacheLen 0x80) (ctx.cacheLen + 1)
      (63 - ctx.cacheLen) =
      md5_pending ctx ++ [0x80] ++ List.replicate (63 - ctx.cacheLen) 0 := by
    rw [md5_zero_memory_eq _ _ _ (by simp only [List.length_set]; omega),
      md5_set_marker_eq _ _ (by omega)]
    have e1 : (List.take ctx.cacheLen ctx.cache ++ [0x80]).length = ctx.cacheLen + 1 := by
      simp only [List.length_append, List.length_take, List.length_singleton]
      omega
    rw [List.take_left' e1]
    have e2 : ctx.cacheLen + 1 + (63 - ctx.cacheLen) = 64 := by omega
    rw [e2, List.drop_eq_nil_of_le (by
      simp only [List.length_append, List.length_take, List.length_singleton,
        List.length_drop]
      omega)]
    simp only [md5_pending, List.append_nil]
  simp only [md5_finalize_marker, h1, h2, h3]
  rw [if_pos (by omega)]
  rfl

theorem md5_finalize_length_eq (ctx : md5_context) (r : Nat) (hlen : ctx.cache.length = 64)
    (h8 : 8 ≤ r) (hr : ctx.cacheLen + r = 64) :
    md5_finalize_length ctx r =
      (md5_update_block
        { ctx with
          cache := md5_pending ctx ++ List.replicate (56 - ctx.cacheLen) 0
            ++ md5_length_bytes ctx.sz }
        (md5_pending ctx ++ List.replicate (56 - ctx.cacheLen) 0 ++ md5_length_bytes ctx.sz),
       [md5_pending ctx ++ List.replicate (56 - ctx.cacheLen) 0 ++ md5_length_bytes ctx.sz]) := by
  have h2 : usize_sub r 8 = 56 - ctx.cacheLen := by
    rw [usize_sub_of_le _ _ h8 (by omega)]
    omega
  have h3 : (md5_zero_memory ctx.cache ctx.cacheLen (56 - ctx.cacheLen)).take 56 =
      md5_pending ctx ++ List.replicate (56 - ctx.cacheLen) 0 := by
    rw [md5_zero_memory_eq _ _ _ (by omega)]
    apply List.take_left'
    simp only [md5_pending, List.length_append, List.length_take, List.length_replicate]
    omega
  simp only [md5_finalize_length, h2]
  rw [md5_set8_eq _ (by rw [md5_zero_memory_length]; exact hlen), h3]
  rfl

/-! ## One iteration of the loop of `md5_update` -/

theorem md5_update_iter_fast (ctx : md5_context) (bytes : List Nat) (tbp : Nat)
    (hc : ctx.cacheLen = 0) (hr : 64 < bytes.length - tbp) :
    md5_update_iter ctx bytes bytes.length tbp =
      some (md5_update_block ctx (bytes.drop tbp), tbp + 64) := by
  unfold md5_update_iter
  simp only [sizeof_cache]
  rw [if_pos ⟨hc, hr⟩, if_pos (by omega)]

theorem md5_update_iter_full (ctx : md5_context) (bytes : List Nat) (sz tbp : Nat)
    (hc : ctx.cacheLen = 64) :
    md5_update_iter ctx bytes sz tbp = some (md5_update_block ctx ctx.cache, tbp) := by
  have h1 : u32 ctx.cacheLen = 64 := by rw [hc]; rfl
  have h2 : usize_sub sizeof_cache 64 = 0 := by decide
  unfold md5_update_iter
  simp only [h1, h2]
  rw [if_neg (by omega), if_neg (by omega)]

theorem md5_update_iter_fill (ctx : md5_context) (bytes : List Nat) (tbp : Nat)
    (hc : ctx.cacheLen < 64) (ht : tbp < bytes.length)
    (hs : ¬ (ctx.cacheLen = 0 ∧ 64 < bytes.length - tbp))
    (hr : 64 - ctx.cacheLen ≤ bytes.length - tbp) :
    md5_update_iter ctx bytes bytes.length tbp =
      some (md5_update_block
          { ctx with
            cache := md5_copy_memory ctx.cache ctx.cacheLen bytes tbp (64 - ctx.cacheLen)
            cacheLen := 64 }
          (md5_copy_memory ctx.cache ctx.cacheLen bytes tbp (64 - ctx.cacheLen)),
        tbp + (64 - ctx.cacheLen)) := by
  have h1 : u32 ctx.cacheLen = ctx.cacheLen := by unfold u32; omega
  have h2 : usize_sub 64 ctx.cacheLen = 64 - ctx.cacheLen :=
    usize_sub_of_le _ _ (by omega) (by omega)
  have h3 : (if bytes.length - tbp > 64 - ctx.cacheLen then 64 - ctx.cacheLen
      else bytes.length - tbp) = 64 - ctx.cacheLen := by
    split <;> omega
  have h4 : ctx.cacheLen + (64 - ctx.cacheLen) = 64 := by omega
  have h5 : usize_sub 64 (u32 (u32 64)) = 0 := by decide
  unfold md5_update_iter
  simp only [sizeof_cache, h1, h2, h3, h4, h5]
  rw [if_neg hs, if_pos (by omega), if_pos (by omega), if_pos trivial]
  rfl

theorem md5_update_iter_part (ctx : md5_context) (bytes : List Nat) (tbp : Nat)
    (ht : tbp < bytes.length)
    (hr : ctx.cacheLen + (bytes.length - tbp) < 64) :
    md5_update_iter ctx bytes bytes.length tbp =
      some ({ ctx with
          cache := md5_copy_memory ctx.cache ctx.cacheLen bytes tbp (bytes.length - tbp)
          cacheLen := ctx.cacheLen + (bytes.length - tbp) },
        bytes.length) := by
  have h1 : u32 ctx.cacheLen = ctx.cacheLen := by unfold u32; omega
  have h2 : usize_sub 64 ctx.cacheLen = 64 - ctx.cacheLen :=
    usize_sub_of_le _ _ (by omega) (by omega)
  have h3 : (if bytes.length - tbp > 64 - ctx.cacheLen then 64 - ctx.cacheLen
      else bytes.length - tbp) = bytes.length - tbp := by
    split <;> omega
  have h4 : u32 (u32 (ctx.cacheLen + (bytes.length - tbp))) =
      ctx.cacheLen + (bytes.length - tbp) := by
    unfold u32; omega
  have h4' : u32 (ctx.cacheLen + (bytes.length - tbp)) =
      ctx.cacheLen + (bytes.length - tbp) := by
    unfold u32; omega
  have h5 : usize_sub 64 (ctx.cacheLen + (bytes.length - tbp)) =
      64 - (ctx.cacheLen + (bytes.length - tbp)) :=
    usize_sub_of_le _ _ (by omega) (by omega)
  have h6 : tbp + (bytes.length - tbp) = bytes.length := by omega
  unfold md5_update_iter
  simp only [sizeof_cache, h1, h2, h3, h4, h4', h5, h6]
  rw [if_neg (by omega), if_pos (by omega), if_pos (by omega), if_neg (by omega)]

theorem md5_update_loop_done (fuel : Nat) (ctx : md5_context) (bytes : List Nat)
    (sz tbp : Nat) (h : sz ≤ tbp) : md5_update_loop fuel ctx bytes sz tbp = some ctx := by
  cases fuel with
  | zero => unfold md5_update_loop; rw [if_neg (by omega)]
  | succ f => unfold md5_update_loop; rw [if_neg (by omega)]

theorem md5_update_loop_step (fuel : Nat) (ctx ctx1 : md5_context) (bytes : List Nat)
    (sz tbp tbp1 : Nat) (h : tbp < sz)
    (hi : md5_update_iter ctx bytes sz tbp = some (ctx1, tbp1)) :
    md5_update_loop (fuel + 1) ctx bytes sz tbp = md5_update_loop fuel ctx1 bytes sz tbp1 := by
  rw [md5_update_loop, if_pos h, hi]

/-! ## Folding the compression function over a stream -/

theorem md5_stream_regs_short (r : Nat × Nat × Nat × Nat) (D : List Nat)
    (h : D.length < 64) : md5_stream_regs r D = r := by
  unfold md5_stream_regs
  rw [Nat.div_eq_of_lt h]
  rfl

theorem md5_stream_rest_short (D : List Nat) (h : D.length < 64) :
    md5_stream_rest D = D := by
  unfold md5_stream_rest
  rw [Nat.div_eq_of_lt h]
  rfl

theorem md5_stream_regs_block (r : Nat × Nat × Nat × Nat) (D : List Nat)
    (h : 64 ≤ D.length) :
    md5_stream_regs r D = md5_stream_regs (md5_compress r (D.take 64)) (D.drop 64) := by
  unfold md5_stream_regs
  have e : D.length / 64 = (D.drop 64).length / 64 + 1 := by
    rw [List.length_drop]
    omega
  rw [e]
  rfl

theorem md5_stream_rest_block (D : List Nat) (h : 64 ≤ D.length) :
    md5_stream_rest D = md5_stream_rest (D.drop 64) := by
  unfold md5_stream_rest
  rw [List.drop_drop, List.length_drop]
  congr 1
  omega

theorem md5_pending_length (ctx : md5_context) (h : ctx.cacheLen ≤ ctx.cache.length) :
    (md5_pending ctx).length = ctx.cacheLen := by
  unfold md5_pending
  rw [List.length_take]
  omega

/-- The loop of `md5_update` from a context with `cacheLen < 64`: it ends within as many
iterations as bytes remain, `cacheLen` ends as the byte total modulo 64, and with a 64-byte
cache the registers and the valid cache bytes are those of the stream made of the valid
cache bytes followed by the remaining source bytes. -/
theorem md5_update_loop_spec (bytes : List Nat) :
    ∀ (fuel : Nat) (ctx : md5_context) (tbp : Nat), ctx.cacheLen < 64 → tbp ≤ bytes.length →
      bytes.length - tbp ≤ fuel →
      ∃ ctx1, md5_update_loop fuel ctx bytes bytes.length tbp = some ctx1 ∧
        ctx1.cacheLen = (ctx.cacheLen + (bytes.length - tbp)) % 64 ∧
        ctx1.sz = ctx.sz ∧ ctx1.cache.length = ctx.cache.length ∧
        (ctx.cache.length = 64 →
          md5_regs ctx1 = md5_stream_regs (md5_regs ctx) (md5_pending ctx ++ bytes.drop tbp) ∧
          md5_pending ctx1 = md5_stream_rest (md5_pending ctx ++ bytes.drop tbp)) := by
  intro fuel
  induction fuel with
  | zero =>
    intro ctx tbp hc ht hf
    refine ⟨ctx, md5_update_loop_done _ _ _ _ _ (by omega), by omega, rfl, rfl, ?_⟩
    intro hlen
    have hp := md5_pending_length ctx (by omega)
    have hd : bytes.drop tbp = [] := List.drop_eq_nil_of_le (by omega)
    rw [hd, List.append_nil, md5_stream_regs_short _ _ (by omega),
      md5_stream_rest_short _ (by omega)]
    exact ⟨rfl, rfl⟩
  | succ f ih =>
    intro ctx tbp hc ht hf
    by_cases hdone : bytes.length ≤ tbp
    · refine ⟨ctx, md5_update_loop_done _ _ _ _ _ hdone, by omega, rfl, rfl, ?_⟩
      intro hlen
      have hp := md5_pending_length ctx (by omega)
      have hd : bytes.drop tbp = [] := List.drop_eq_nil_of_le (by omega)
      rw [hd, List.append_nil, md5_stream_regs_short _ _ (by omega),
        md5_stream_rest_short _ (by omega)]
      exact ⟨rfl, rfl⟩
    · have ht' : tbp < bytes.length := by omega
      by_cases hfast : ctx.cacheLen = 0 ∧ 64 < bytes.length - tbp
      · -- the cache is bypassed
        obtain ⟨hc0, hr⟩ := hfast
        obtain ⟨ctx1, h1, h2, h3, h4, h5⟩ :=
          ih (md5_update_block ctx (bytes.drop tbp)) (tbp + 64)
            (by rw [md5_update_block_cacheLen]; omega) (by omega) (by omega)
        rw [md5_update_block_cacheLen] at h2
        rw [md5_update_block_sz] at h3
        rw [md5_update_block_cache] at h4 h5
        refine ⟨ctx1, ?_, by omega, h3, h4, ?_⟩
        · rw [md5_update_loop_step f ctx _ bytes _ tbp _ ht'
            (md5_update_iter_fast ctx bytes tbp hc0 hr)]
          exact h1
        · intro hlen
          obtain ⟨h6, h7⟩ := h5 hlen
          have hp : md5_pending ctx = [] := by unfold md5_pending; rw [hc0]; rfl
          have hp1 : md5_pending (md5_update_block ctx (bytes.drop tbp)) = [] := by
            unfold md5_pending; rw [md5_update_block_cacheLen]; rfl
          rw [hp1, List.nil_append, md5_regs_update_block] at h6
          rw [hp1, List.nil_append] at h7
          have hD : 64 ≤ (bytes.drop tbp).length := by rw [List.length_drop]; omega
          rw [hp, List.nil_append, md5_stream_regs_block _ _ hD, md5_stream_rest_block _ hD,
            List.drop_drop, md5_compress_take]
          exact ⟨h6, h7⟩
      · by_cases hfill : 64 - ctx.cacheLen ≤ bytes.length - tbp
        · -- the cache is filled and compressed
          have hiter := md5_update_iter_fill ctx bytes tbp hc ht' hfast hfill
          obtain ⟨ctx1, h1, h2, h3, h4, h5⟩ :=
            ih (md5_update_block
                { ctx with
                  cache := md5_copy_memory ctx.cache ctx.cacheLen bytes tbp (64 - ctx.cacheLen)
                  cacheLen := 64 }
                (md5_copy_memory ctx.cache ctx.cacheLen bytes tbp (64 - ctx.cacheLen)))
              (tbp + (64 - ctx.cacheLen))
              (by rw [md5_update_block_cacheLen]; omega) (by omega) (by omega)
          rw [md5_update_block_cacheLen] at h2
          rw [md5_update_block_sz] at h3
          rw [md5_update_block_cache] at h4 h5
          simp only [md5_copy_memory_length] at h4 h5
          refine ⟨ctx1, ?_, by omega, h3, h4, ?_⟩
          · rw [md5_update_loop_step f ctx _ bytes _ tbp _ ht' hiter]
            exact h1
          · intro hlen
            obtain ⟨h6, h7⟩ := h5 hlen
            have hp := md5_pending_length ctx (by omega)
            have hcopy : md5_copy_memory ctx.cache ctx.cacheLen bytes tbp (64 - ctx.cacheLen) =
                (md5_pending ctx ++ bytes.drop tbp).take 64 := by
              rw [md5_copy_memory_eq _ _ _ _ _ (by omega) (by omega),
                List.take_append_eq_append_take, hp,
                List.take_of_length_le (l := md5_pending ctx) (by omega),
                List.drop_of_length_le (l := ctx.cache) (by omega), List.append_nil]
              rfl
            have hp1 : ∀ X, md5_pending (md5_update_block
                { ctx with
                  cache := md5_copy_memory ctx.cache ctx.cacheLen bytes tbp (64 - ctx.cacheLen)
                  cacheLen := 64 } X) = [] := by
              intro X
              unfold md5_pending; rw [md5_update_block_cacheLen]; rfl
            rw [hp1, List.nil_append, md5_regs_update_block] at h6
            rw [hp1, List.nil_append] at h7
            have hD : 64 ≤ (md5_pending ctx ++ bytes.drop tbp).length := by
              rw [List.length_append, List.length_drop, hp]; omega
            have hdrop : (md5_pending ctx ++ bytes.drop tbp).drop 64 =
                bytes.drop (tbp + (64 - ctx.cacheLen)) := by
              rw [List.drop_append_eq_append_drop, hp,
                List.drop_of_length_le (l := md5_pending ctx) (by omega), List.nil_append,
                List.drop_drop]
            rw [md5_stream_regs_block _ _ hD, md5_stream_rest_block _ hD, hdrop, ← hcopy]
            exact ⟨h6, h7⟩
        · -- the remaining bytes fit in the cache without filling it
          have hpart : ctx.cacheLen + (bytes.length - tbp) < 64 := by omega
          have hiter := md5_update_iter_part ctx bytes tbp ht' hpart
          refine ⟨{ ctx with
              cache := md5_copy_memory ctx.cache ctx.cacheLen bytes tbp (bytes.length - tbp)
              cacheLen := ctx.cacheLen + (bytes.length - tbp) }, ?_, ?_, rfl, ?_, ?_⟩
          · rw [md5_update_loop_step f ctx _ bytes _ tbp _ ht' hiter]
            exact md5_update_loop_done _ _ _ _ _ (le_refl _)
          · show ctx.cacheLen + (bytes.length - tbp) = _
            omega
          · show (md5_copy_memory _ _ _ _ _).length = _
            rw [md5_copy_memory_length]
          · intro hlen
            have hp := md5_pending_length ctx (by omega)
            have hD : (md5_pending ctx ++ bytes.drop tbp).length < 64 := by
              rw [List.length_append, List.length_drop, hp]; omega
            rw [md5_stream_regs_short _ _ hD, md5_stream_rest_short _ hD]
            refine ⟨rfl, ?_⟩
            show (md5_copy_memory ctx.cache ctx.cacheLen bytes tbp (bytes.length - tbp)).take
              (ctx.cacheLen + (bytes.length - tbp)) = _
            rw [md5_copy_memory_eq _ _ _ _ _ (by omega) (by omega)]
            rw [List.take_left' (by
              rw [List.length_append, List.length_take, List.length_take, List.length_drop]
              omega)]
            rw [List.take_of_length_le (l := bytes.drop tbp) (by rw [List.length_drop])]
            rfl

/-! ## `md5_update` on a whole chunk -/

theorem md5_update_spec (ctx : md5_context) (C : List Nat) (hc : ctx.cacheLen < 64) :
    ∃ ctx1, md5_update ctx (some C) C.length = some ctx1 ∧
      ctx1.cacheLen = (ctx.cacheLen + C.length) % 64 ∧
      ctx1.sz = u64 (ctx.sz + C.length) ∧ ctx1.cache.length = ctx.cache.length ∧
      (ctx.cache.length = 64 →
        md5_regs ctx1 = md5_stream_regs (md5_regs ctx) (md5_pending ctx ++ C) ∧
        md5_pending ctx1 = md5_stream_rest (md5_pending ctx ++ C)) := by
  obtain ⟨ctx1, h1, h2, h3, h4, h5⟩ :=
    md5_update_loop_spec C (C.length + 1) ctx 0 hc (by omega) (by omega)
  refine ⟨{ ctx1 with sz := u64 (ctx1.sz + C.length) }, ?_, ?_, ?_, h4, ?_⟩
  · simp only [md5_update, h1]
  · exact h2
  · show u64 (ctx1.sz + C.length) = _
    rw [h3]
  · intro hlen
    exact h5 hlen

theorem md5_stream_append (E : List Nat) :
    ∀ (n : Nat) (D : List Nat) (r : Nat × Nat × Nat × Nat), D.length ≤ n →
      md5_stream_regs (md5_stream_regs r D) (md5_stream_rest D ++ E) =
        md5_stream_regs r (D ++ E) ∧
      md5_stream_rest (md5_stream_rest D ++ E) = md5_stream_rest (D ++ E) := by
  intro n
  induction n with
  | zero =>
    intro D r h
    rw [md5_stream_regs_short r D (by omega), md5_stream_rest_short D (by omega)]
    exact ⟨rfl, rfl⟩
  | succ n ih =>
    intro D r h
    by_cases hD : D.length < 64
    · rw [md5_stream_regs_short r D hD, md5_stream_rest_short D hD]
      exact ⟨rfl, rfl⟩
    · have h64 : 64 ≤ D.length := by omega
      have hDE : 64 ≤ (D ++ E).length := by rw [List.length_append]; omega
      obtain ⟨i1, i2⟩ := ih (D.drop 64) (md5_compress r (D.take 64))
        (by rw [List.length_drop]; omega)
      rw [md5_stream_regs_block r D h64, md5_stream_rest_block D h64,
        md5_stream_regs_block r (D ++ E) hDE, md5_stream_rest_block (D ++ E) hDE,
        List.take_append_of_le_length h64, List.drop_append_of_le_length h64]
      exact ⟨i1, i2⟩

theorem md5_stream_rest_length (D : List Nat) :
    (md5_stream_rest D).length = D.length % 64 := by
  unfold md5_stream_rest
  rw [List.length_drop]
  omega

theorem md5_update_chunks_spec (chunks : List (List Nat)) :
    ∀ ctx : md5_context, ctx.cacheLen < 64 → ctx.cache.length = 64 →
      ctx.sz < 18446744073709551616 →
      ∃ ctx1, md5_update_chunks ctx chunks = some ctx1 ∧
        ctx1.cacheLen = (ctx.cacheLen + chunks.flatten.length) % 64 ∧
        ctx1.sz = u64 (ctx.sz + chunks.flatten.length) ∧ ctx1.cache.length = 64 ∧
        md5_regs ctx1 = md5_stream_regs (md5_regs ctx) (md5_pending ctx ++ chunks.flatten) ∧
        md5_pending ctx1 = md5_stream_rest (md5_pending ctx ++ chunks.flatten) := by
  induction chunks with
  | nil =>
    intro ctx hc hlen hsz
    have hp := md5_pending_length ctx (by omega)
    refine ⟨ctx, rfl, ?_, ?_, hlen, ?_, ?_⟩
    · simp only [List.flatten_nil, List.length_nil]; omega
    · simp only [List.flatten_nil, List.length_nil, u64]; omega
    · rw [List.flatten_nil, List.append_nil, md5_stream_regs_short _ _ (by omega)]
    · rw [List.flatten_nil, List.append_nil, md5_stream_rest_short _ (by omega)]
  | cons C rest ih =>
    intro ctx hc hlen hsz
    obtain ⟨ctx1, h1, h2, h3, h4, h5⟩ := md5_update_spec ctx C hc
    obtain ⟨h6, h7⟩ := h5 hlen
    obtain ⟨ctx2, g1, g2, g3, g4, g5, g6⟩ := ih ctx1 (by rw [h2]; omega) (by omega)
      (by rw [h3]; unfold u64; omega)
    obtain ⟨a1, a2⟩ := md5_stream_append rest.flatten _ (md5_pending ctx ++ C)
      (md5_regs ctx) (le_refl _)
    refine ⟨ctx2, ?_, ?_, ?_, g4, ?_, ?_⟩
    · simp only [md5_update_chunks, h1]
      exact g1
    · rw [g2, h2, List.flatten_cons, List.length_append]; omega
    · rw [g3, h3, List.flatten_cons, List.length_append]; unfold u64; omega
    · rw [g5, h6, h7, a1, List.flatten_cons, List.append_assoc]
    · rw [g6, h7, a2, List.flatten_cons, List.append_assoc]

/-! ## `md5_finalize` from a context with `cacheLen < 64` -/

theorem md5_finalize_log_le55 (ctx : md5_context) (hn : ctx.cacheLen ≤ 55)
    (hlen : ctx.cache.length = 64) :
    md5_finalize_log ctx =
      some (md5_update_block
          { ctx with
            cache := md5_pending ctx ++ [0x80] ++ List.replicate (55 - ctx.cacheLen) 0
              ++ md5_length_bytes ctx.sz
            cacheLen := ctx.cacheLen + 1 }
          (md5_pending ctx ++ [0x80] ++ List.replicate (55 - ctx.cacheLen) 0
              ++ md5_length_bytes ctx.sz),
        md5_write_digest (md5_update_block
          { ctx with
            cache := md5_pending ctx ++ [0x80] ++ List.replicate (55 - ctx.cacheLen) 0
              ++ md5_length_bytes ctx.sz
            cacheLen := ctx.cacheLen + 1 }
          (md5_pending ctx ++ [0x80] ++ List.replicate (55 - ctx.cacheLen) 0
              ++ md5_length_bytes ctx.sz)),
        [md5_pending ctx ++ [0x80] ++ List.replicate (55 - ctx.cacheLen) 0
              ++ md5_length_bytes ctx.sz]) := by
  have hp : md5_pending
      { ctx with cache := ctx.cache.set ctx.cacheLen 0x80, cacheLen := ctx.cacheLen + 1 } =
      md5_pending ctx ++ [0x80] := by
    unfold md5_pending
    show (ctx.cache.set ctx.cacheLen 0x80).take (ctx.cacheLen + 1) = _
    rw [md5_set_marker_eq _ _ (by omega)]
    apply List.take_left'
    simp only [List.length_append, List.length_take, List.length_singleton]
    omega
  unfold md5_finalize_log
  simp only [md5_finalize_flush_of_lt ctx (by omega), md5_finalize_marker_le55 ctx hn]
  rw [if_pos (by unfold sizeof_cache; omega)]
  rw [md5_finalize_length_eq _ _ (by simp only [List.length_set]; exact hlen) (by omega)
    (by show ctx.cacheLen + 1 + (63 - ctx.cacheLen) = 64; omega), hp]
  have e : 56 - (ctx.cacheLen + 1) = 55 - ctx.cacheLen := by omega
  simp only [e, List.nil_append]

theorem md5_finalize_log_ge56 (ctx : md5_context) (hn : 56 ≤ ctx.cacheLen)
    (hn' : ctx.cacheLen < 64) (hlen : ctx.cache.length = 64) :
    md5_finalize_log ctx =
      some (md5_update_block
          { md5_update_block
              { ctx with
                cache := md5_pending ctx ++ [0x80] ++ List.replicate (63 - ctx.cacheLen) 0
                cacheLen := ctx.cacheLen + 1 }
              (md5_pending ctx ++ [0x80] ++ List.replicate (63 - ctx.cacheLen) 0) with
            cache := List.replicate 56 0 ++ md5_length_bytes ctx.sz }
          (List.replicate 56 0 ++ md5_length_bytes ctx.sz),
        md5_write_digest (md5_update_block
          { md5_update_block
              { ctx with
                cache := md5_pending ctx ++ [0x80] ++ List.replicate (63 - ctx.cacheLen) 0
                cacheLen := ctx.cacheLen + 1 }
              (md5_pending ctx ++ [0x80] ++ List.replicate (63 - ctx.cacheLen) 0) with
            cache := List.replicate 56 0 ++ md5_length_bytes ctx.sz }
          (List.replicate 56 0 ++ md5_length_bytes ctx.sz)),
        [md5_pending ctx ++ [0x80] ++ List.replicate (63 - ctx.cacheLen) 0,
          List.replicate 56 0 ++ md5_length_bytes ctx.sz]) := by
  have hp := md5_pending_length ctx (by omega)
  unfold md5_finalize_log
  simp only [md5_finalize_flush_of_lt ctx (by omega), md5_finalize_marker_ge56 ctx hn hn' hlen]
  rw [if_pos (by unfold sizeof_cache; omega)]
  rw [md5_finalize_length_eq _ _ (by
      rw [md5_update_block_cache]
      simp only [List.length_append, List.length_replicate, List.length_singleton, hp]
      omega) (by omega) (by rw [md5_update_block_cacheLen])]
  simp only [md5_pending, md5_update_block_cacheLen, md5_update_block_sz, List.take_zero,
    List.nil_append, List.singleton_append]

theorem md5_regs_set_cache (ctx : md5_context) (cache : List Nat) :
    md5_regs { ctx with cache := cache } = md5_regs ctx := by
  simp only [md5_regs]

theorem md5_regs_set_cache_len (ctx : md5_context) (cache : List Nat) (n : Nat) :
    md5_regs { ctx with cache := cache, cacheLen := n } = md5_regs ctx := by
  simp only [md5_regs]

theorem md5_write_digest_eq (ctx : md5_context) :
    md5_write_digest ctx = md5_serialise (md5_regs ctx) := by
  simp [md5_write_digest, md5_serialise, md5_regs, le32, u8, Nat.shiftRight_eq_div_pow]

theorem md5_finalize_log_spec (ctx : md5_context) (hn : ctx.cacheLen < 64)
    (hlen : ctx.cache.length = 64) :
    ∃ final, md5_finalize_log ctx =
        some (final, md5_write_digest final, md5_padding_blocks (md5_pending ctx) ctx.sz) ∧
      md5_regs final =
        List.foldl md5_compress (md5_regs ctx) (md5_padding_blocks (md5_pending ctx) ctx.sz) ∧
      (md5_padding_blocks (md5_pending ctx) ctx.sz).getLast? = some final.cache := by
  have hp := md5_pending_length ctx (by omega)
  by_cases h : ctx.cacheLen ≤ 55
  · have hpb : md5_padding_blocks (md5_pending ctx) ctx.sz =
        [md5_pending ctx ++ [0x80] ++ List.replicate (55 - ctx.cacheLen) 0
          ++ md5_length_bytes ctx.sz] := by
      simp only [md5_padding_blocks, hp, if_pos h]
    rw [hpb]
    refine ⟨_, md5_finalize_log_le55 ctx h hlen, ?_, ?_⟩
    · rw [md5_regs_update_block, md5_regs_set_cache_len]
      rfl
    · rw [md5_update_block_cache]
      rfl
  · have hpb : md5_padding_blocks (md5_pending ctx) ctx.sz =
        [md5_pending ctx ++ [0x80] ++ List.replicate (63 - ctx.cacheLen) 0,
          List.replicate 56 0 ++ md5_length_bytes ctx.sz] := by
      simp only [md5_padding_blocks, hp, if_neg h]
    rw [hpb]
    refine ⟨_, md5_finalize_log_ge56 ctx (by omega) hn hlen, ?_, ?_⟩
    · rw [md5_regs_update_block, md5_regs_set_cache, md5_regs_update_block,
        md5_regs_set_cache_len]
      rfl
    · rw [md5_update_block_cache]
      rfl

theorem md5_finalize_spec (ctx : md5_context) (hn : ctx.cacheLen < 64)
    (hlen : ctx.cache.length = 64) :
    ∃ final, md5_finalize ctx =
        some (final, md5_serialise (List.foldl md5_compress (md5_regs ctx)
          (md5_padding_blocks (md5_pending ctx) ctx.sz))) := by
  obtain ⟨final, h1, h2, -⟩ := md5_finalize_log_spec ctx hn hlen
  refine ⟨final, ?_⟩
  simp only [md5_finalize, h1, md5_write_digest_eq, h2]

/-! ## Facts about `md5_init` and reachable contexts -/

theorem md5_init_cacheLen (ctx0 : md5_context) : (md5_init ctx0).cacheLen = 0 := rfl

theorem md5_init_sz (ctx0 : md5_context) : (md5_init ctx0).sz = 0 := rfl

theorem md5_init_cache_length (ctx0 : md5_context) : (md5_init ctx0).cache.length = 64 := rfl

theorem md5_init_regs (ctx0 : md5_context) : md5_regs (md5_init ctx0) = rfc1321_initial := rfl

theorem md5_init_pending (ctx0 : md5_context) : md5_pending (md5_init ctx0) = [] := rfl

theorem md5_update_iter_cacheLen_lt (ctx ctx1 : md5_context) (bytes : List Nat)
    (sz tbp tbp1 : Nat) (h : md5_update_iter ctx bytes sz tbp = some (ctx1, tbp1)) :
    ctx1.cacheLen < 64 := by
  unfold md5_update_iter at h
  simp only [sizeof_cache] at h
  split_ifs at h
  all_goals simp only [Option.some.injEq, Prod.mk.injEq] at h
  all_goals rw [← h.1]
  all_goals first
    | (rw [md5_update_block_cacheLen]; omega)
    | (simp only [usize_sub, usize, u32] at *; omega)

theorem md5_update_loop_cacheLen_lt (bytes : List Nat) (sz : Nat) :
    ∀ (fuel : Nat) (ctx ctx1 : md5_context) (tbp : Nat), ctx.cacheLen < 64 →
      md5_update_loop fuel ctx bytes sz tbp = some ctx1 → ctx1.cacheLen < 64 := by
  intro fuel
  induction fuel with
  | zero =>
    intro ctx ctx1 tbp hc h
    unfold md5_update_loop at h
    split_ifs at h
    simp only [Option.some.injEq] at h
    rw [← h]; exact hc
  | succ f ih =>
    intro ctx ctx1 tbp hc h
    unfold md5_update_loop at h
    split_ifs at h
    · split at h
      · exact absurd h (by simp)
      · next c2 t2 heq =>
        exact ih c2 ctx1 t2 (md5_update_iter_cacheLen_lt _ _ _ _ _ _ heq) h
    · simp only [Option.some.injEq] at h
      rw [← h]; exact hc

theorem md5_update_cacheLen_lt (ctx ctx1 : md5_context) (src : Option (List Nat)) (sz : Nat)
    (hc : ctx.cacheLen < 64) (h : md5_update ctx src sz = some ctx1) : ctx1.cacheLen < 64 := by
  unfold md5_update at h
  split at h
  · split_ifs at h <;> simp only [Option.some.injEq] at h <;> rw [← h] <;> exact hc
  · next bytes =>
    split at h
    · exact absurd h (by simp)
    · next c2 heq =>
      simp only [Option.some.injEq] at h
      rw [← h]
      exact md5_update_loop_cacheLen_lt bytes sz _ ctx c2 _ hc heq

theorem md5_reachable_cacheLen_lt (ctx : md5_context) (h : md5_reachable ctx) :
    ctx.cacheLen < 64 := by
  induction h with
  | init ctx0 => rw [md5_init_cacheLen]; omega
  | update ctx ctx1 src sz _ hu ih => exact md5_update_cacheLen_lt ctx ctx1 src sz ih hu

theorem md5_serialise_length (r : Nat × Nat × Nat × Nat) : (md5_serialise r).length = 16 := rfl

/-! ## The length field -/

theorem and_255 (x : Nat) : x &&& 255 = x % 256 := Nat.and_pow_two_sub_one_eq_mod x 8

theorem and_4294967295 (x : Nat) : x &&& 4294967295 = x % 4294967296 :=
  Nat.and_pow_two_sub_one_eq_mod x 32

theorem md5_szLo_eq (sz : Nat) : md5_szLo sz = sz % 4294967296 * 8 % 4294967296 := by
  simp only [md5_szLo, u32, Nat.shiftRight_zero, and_4294967295, Nat.shiftLeft_eq]

theorem md5_szHi_eq (sz : Nat) :
    md5_szHi sz = sz / 4294967296 % 4294967296 * 8 % 4294967296 := by
  simp only [md5_szHi, u32, and_4294967295, Nat.shiftLeft_eq, Nat.shiftRight_eq_div_pow]

theorem le64_eq (v : Nat) :
    le64 v = [v % 256, v / 256 % 256, v / 65536 % 256, v / 16777216 % 256,
      v / 4294967296 % 256, v / 1099511627776 % 256, v / 281474976710656 % 256,
      v / 72057594037927936 % 256] := by
  simp [le64, List.range, List.range.loop]

theorem md5_length_bytes_eq (sz : Nat) :
    md5_length_bytes sz = le32 (md5_szLo sz) ++ le32 (md5_szHi sz) := by
  simp only [md5_length_bytes, le32, u8, and_255, Nat.shiftRight_eq_div_pow, Nat.mod_mod]
  norm_num

theorem md5_length_bytes_small (sz : Nat) (h : sz < 536870912) :
    md5_length_bytes sz = le64 (8 * sz) := by
  rw [md5_length_bytes_eq, md5_szLo_eq, md5_szHi_eq, le64_eq]
  simp only [le32, List.cons_append, List.nil_append, List.cons.injEq, and_true]
  refine ⟨?_, ?_, ?_, ?_, ?_, ?_, ?_, ?_⟩ <;> omega

theorem md5_length_bytes_low (sz : Nat) :
    (md5_length_bytes sz).take 4 = (le64 (u64 (sz * 8))).take 4 := by
  rw [md5_length_bytes_eq, md5_szLo_eq, le64_eq]
  simp only [le32, u64, List.cons_append, List.nil_append, List.take_succ_cons, List.take_zero,
    List.cons.injEq, and_true]
  refine ⟨?_, ?_, ?_, ?_⟩ <;> omega

/-- What `md5_finalize` leaves in bytes 56 to 63 of the cache, from any context with
`cacheLen < 64`: the eight bytes made from `szLo` and `szHi`. -/
theorem md5_finalize_length_field (ctx : md5_context) (hn : ctx.cacheLen < 64)
    (hlen : ctx.cache.length = 64) :
    ∃ final digest, md5_finalize ctx = some (final, digest) ∧
      final.cache.drop 56 = md5_length_bytes ctx.sz := by
  obtain ⟨final, h1, -, h3⟩ := md5_finalize_log_spec ctx hn hlen
  have hp := md5_pending_length ctx (by omega)
  refine ⟨final, md5_write_digest final, by simp only [md5_finalize, h1], ?_⟩
  unfold md5_padding_blocks at h3
  by_cases h : ctx.cacheLen ≤ 55
  · rw [hp, if_pos h, List.getLast?_singleton] at h3
    simp only [Option.some.injEq] at h3
    rw [← h3]
    apply List.drop_left'
    simp only [List.length_append, List.length_replicate, List.length_singleton, hp]
    omega
  · rw [hp, if_neg h] at h3
    have h3' : some (List.replicate 56 0 ++ md5_length_bytes ctx.sz) = some final.cache := h3
    simp only [Option.some.injEq] at h3'
    rw [← h3']
    apply List.drop_left'
    simp only [List.length_replicate]

/-! ## The reference digest of RFC 1321 -/

theorem rfc1321_zeros_least (n : Nat) :
    (n + 1 + rfc1321_zeros n) % 64 = 56 ∧
      ∀ z, (n + 1 + z) % 64 = 56 → rfc1321_zeros n ≤ z := by
  unfold rfc1321_zeros
  constructor
  · omega
  · intro z hz
    omega

theorem md5_stream_regs_cons_block (r : Nat × Nat × Nat × Nat) (B X : List Nat)
    (hB : B.length = 64) :
    md5_stream_regs r (B ++ X) = md5_stream_regs (md5_compress r B) X := by
  rw [md5_stream_regs_block r (B ++ X) (by rw [List.length_append]; omega),
    List.take_left' hB, List.drop_left' hB]

theorem md5_stream_regs_one_block (r : Nat × Nat × Nat × Nat) (B : List Nat)
    (hB : B.length = 64) : md5_stream_regs r B = md5_compress r B := by
  have h := md5_stream_regs_cons_block r B [] hB
  rw [List.append_nil] at h
  rw [h, md5_stream_regs_short _ _ (by simp)]

theorem md5_length_bytes_length (sz : Nat) : (md5_length_bytes sz).length = 8 := rfl

theorem md5_stream_regs_padding (r : Nat × Nat × Nat × Nat) (p : List Nat) (n : Nat)
    (hp : p.length = n % 64) (hn : n < 536870912) :
    md5_stream_regs r
        (p ++ ([0x80] ++ List.replicate (rfc1321_zeros n) 0 ++ le64 (8 * n))) =
      List.foldl md5_compress r (md5_padding_blocks p n) := by
  rw [← md5_length_bytes_small n hn]
  unfold md5_padding_blocks rfc1321_zeros
  by_cases h : p.length ≤ 55
  · rw [if_pos h]
    have e : (119 - n % 64) % 64 = 55 - p.length := by omega
    rw [e, List.foldl_cons, List.foldl_nil, ← md5_stream_regs_one_block]
    · simp only [List.append_assoc]
    · simp only [List.length_append, List.length_replicate, List.length_singleton,
        md5_length_bytes_length]
      omega
  · rw [if_neg h]
    have e : (119 - n % 64) % 64 = (63 - p.length) + 56 := by omega
    rw [e, List.replicate_add, List.foldl_cons, List.foldl_cons, List.foldl_nil,
      ← md5_stream_regs_one_block, ← md5_stream_regs_cons_block]
    · simp only [List.append_assoc]
    · simp only [List.length_append, List.length_replicate, List.length_singleton]
      omega
    · simp only [List.length_append, List.length_replicate, md5_length_bytes_length]

theorem rfc1321_md5_eq (S : List Nat) :
    rfc1321_md5 S = md5_serialise (md5_stream_regs rfc1321_initial (rfc1321_pad S)) := rfl

/-! ## The digest -/

theorem md5_finalize_isSome (ctx : md5_context) (h : ctx.cacheLen ≤ 64) :
    ∃ r, md5_finalize ctx = some r := by
  have hs : (md5_finalize_flush ctx).1.cacheLen < sizeof_cache := by
    unfold md5_finalize_flush sizeof_cache
    split
    · show (md5_update_block ctx ctx.cache).cacheLen < 64
      rw [md5_update_block_cacheLen]
      omega
    · next hf =>
      show ctx.cacheLen < 64
      have h1 : u32 ctx.cacheLen = ctx.cacheLen := by unfold u32; omega
      simp only [md5_finalize_cache_full, h1, sizeof_cache, beq_iff_eq] at hf
      rw [usize_sub_of_le _ _ h (by omega)] at hf
      omega
  unfold md5_finalize md5_finalize_log
  simp only [if_pos hs]
  exact ⟨_, rfl⟩

theorem le_value_le32 (v : Nat) (h : v < 4294967296) : le_value (le32 v) = v := by
  simp only [le32, le_value]
  omega

/-! ## The hex formatter -/

theorem md5_format_loop_length (dst hash : List Nat) (n : Nat) :
    (md5_format_loop dst hash n).length = dst.length := by
  induction n with
  | zero => rfl
  | succ n ih => simp [md5_format_loop, md5_format_byte, ih]

theorem md5_format_loop_getElem? (dst hash : List Nat) (n : Nat) (hn : 2 * n ≤ dst.length)
    (j : Nat) :
    (md5_format_loop dst hash n)[j]? =
      if j < 2 * n then some (md5_hex.getD (md5_format_nibble hash j) 0) else dst[j]? := by
  induction n with
  | zero => simp [md5_format_loop]
  | succ n ih =>
    have ih := ih (by omega)
    have hl := md5_format_loop_length dst hash n
    simp only [md5_format_loop, md5_format_byte, List.getElem?_set, List.length_set, hl, ih,
      Nat.add_zero]
    by_cases h1 : n * 2 + 1 = j
    · subst h1
      have e1 : (n * 2 + 1) % 2 = 1 := by omega
      have e2 : (n * 2 + 1) / 2 = n := by omega
      have e3 : n * 2 + 1 < dst.length := by omega
      have e4 : n * 2 + 1 < 2 * (n + 1) := by omega
      simp [md5_format_nibble, e1, e2, e3, e4]
    · rw [if_neg h1]
      by_cases h2 : n * 2 = j
      · subst h2
        have e1 : (n * 2) % 2 = 0 := by omega
        have e2 : (n * 2) / 2 = n := by omega
        have e3 : n * 2 < dst.length := by omega
        have e4 : n * 2 < 2 * (n + 1) := by omega
        simp [md5_format_nibble, e2, e3, e4]
      · rw [if_neg h2]
        by_cases h3 : j < 2 * n
        · rw [if_pos h3, if_pos (by omega)]
        · rw [if_neg h3, if_neg (by omega)]

theorem md5_format_ok (dst : List Nat) (dstCap : Nat) (hash : List Nat) (hcap : 33 ≤ dstCap)
    (hdst : dstCap ≤ dst.length) (hh : 16 ≤ hash.length) :
    md5_format dst dstCap hash = some ((md5_format_loop dst hash 16).set 32 0) := by
  unfold md5_format
  rw [if_neg (by omega), if_pos ⟨by omega, hh⟩]

theorem md5_format_getElem? (dst : List Nat) (hash : List Nat) (hdst : 33 ≤ dst.length)
    (j : Nat) :
    ((md5_format_loop dst hash 16).set 32 0)[j]? =
      if j < 32 then some (md5_hex.getD (md5_format_nibble hash j) 0)
      else if j = 32 then some 0 else dst[j]? := by
  rw [List.getElem?_set, md5_format_loop_length, md5_format_loop_getElem? _ _ _ (by omega)]
  by_cases h1 : j < 32
  · rw [if_neg (by omega), if_pos (by omega), if_pos h1]
  · by_cases h2 : j = 32
    · subst h2
      rw [if_pos rfl, if_pos (by omega), if_neg (by omega), if_pos rfl]
    · rw [if_neg (by omega), if_neg (by omega), if_neg h1, if_neg h2]

set_option maxRecDepth 100000 in
theorem md5_nibble_hi (b : Nat) (h : b < 256) :
    md5_hex.getD ((b &&& 0xF0) >>> 4) 0 = hex_digit (b / 16) := by
  revert b
  decide

set_option maxRecDepth 100000 in
theorem md5_nibble_lo (b : Nat) (h : b < 256) :
    md5_hex.getD (b &&& 0x0F) 0 = hex_digit (b % 16) := by
  revert b
  decide

theorem hex_digit_mem (v : Nat) (h : v < 16) : hex_digit v ∈ md5_hex ∧ hex_digit v ≠ 0 := by
  revert v
  decide

theorem hex_digit_value_hex_digit (v : Nat) (h : v < 16) :
    hex_digit_value (hex_digit v) = some v := by
  revert v
  decide

theorem parse_hex_encode (h : List Nat) (hb : ∀ b ∈ h, b < 256) :
    parse_hex (hex_encode h) = some h := by
  induction h with
  | nil => rfl
  | cons b t ih =>
    have hb0 : b < 256 := hb b (List.mem_cons_self _ _)
    have ih := ih (fun x hx => hb x (List.mem_cons_of_mem _ hx))
    simp only [hex_encode, parse_hex, hex_digit_value_hex_digit (b / 16) (by omega),
      hex_digit_value_hex_digit (b % 16) (by omega), ih]
    have e : 16 * (b / 16) + b % 16 = b := by omega
    rw [e]

theorem hex_encode_getElem? (h : List Nat) :
    ∀ j : Nat, (hex_encode h)[j]? =
      if j < 2 * h.length then
        some (hex_digit (if j % 2 = 0 then h.getD (j / 2) 0 / 16 else h.getD (j / 2) 0 % 16))
      else none := by
  induction h with
  | nil => intro j; simp [hex_encode]
  | cons b t ih =>
    intro j
    match j with
    | 0 => simp [hex_encode]
    | 1 =>
      have e : 1 < 2 * (t.length + 1) := by omega
      simp [hex_encode, e]
    | j + 2 =>
      have e1 : (j + 2) % 2 = j % 2 := by omega
      have e2 : (j + 2) / 2 = j / 2 + 1 := by omega
      simp only [hex_encode, List.getElem?_cons_succ, ih j, e1, e2, List.length_cons,
        List.getD_cons_succ]
      by_cases h1 : j < 2 * t.length
      · rw [if_pos h1, if_pos (show j + 2 < 2 * (t.length + 1) by omega)]
      · rw [if_neg h1, if_neg (show ¬ j + 2 < 2 * (t.length + 1) by omega)]

theorem md5_getD_lt (h : List Nat) (hb : ∀ b ∈ h, b < 256) (i : Nat) : h.getD i 0 < 256 := by
  rw [List.getD_eq_getElem?_getD]
  by_cases hi : i < h.length
  · rw [List.getElem?_eq_getElem hi]
    exact hb _ (List.getElem_mem hi)
  · rw [List.getElem?_eq_none (by omega)]
    decide

theorem md5_format_char (h : List Nat) (hb : ∀ b ∈ h, b < 256) (j : Nat) :
    md5_hex.getD (md5_format_nibble h j) 0 =
      hex_digit (if j % 2 = 0 then h.getD (j / 2) 0 / 16 else h.getD (j / 2) 0 % 16) := by
  unfold md5_format_nibble
  by_cases hj : j % 2 = 0
  · rw [if_pos hj, if_pos hj, md5_nibble_hi _ (md5_getD_lt h hb _)]
  · rw [if_neg hj, if_neg hj, md5_nibble_lo _ (md5_getD_lt h hb _)]

theorem md5_format_take (dst h : List Nat) (hdst : 33 ≤ dst.length) (hh : h.length = 16)
    (hb : ∀ b ∈ h, b < 256) :
    ((md5_format_loop dst h 16).set 32 0).take 32 = hex_encode h := by
  apply List.ext_getElem?
  intro j
  rw [List.getElem?_take, md5_format_getElem? dst h hdst, hex_encode_getElem?, hh,
    md5_format_char h hb]
  by_cases hj : j < 32
  · rw [if_pos hj, if_pos hj, if_pos (show j < 2 * 16 by omega)]
  · rw [if_neg hj, if_neg (show ¬ j < 2 * 16 by omega)]

theorem do_test_hashStr_eq (hashStr : List Nat) (hlen : hashStr.length = 33) (input : String)
    (digest : List Nat)
    (hd : md5 (some (bytes_of input)) (bytes_of input).length = some digest)
    (h16 : digest.length = 16) (hb : ∀ b ∈ digest, b < 256) :
    do_test_hashStr hashStr input = some (hex_encode digest ++ [0]) := by
  have h1 := md5_format_ok hashStr 33 digest (le_refl _) (by omega) (by omega)
  have h6 := md5_format_take hashStr digest (by omega) h16 hb
  have hget := md5_format_getElem? hashStr digest (by omega)
  simp only [do_test_hashStr, hd, h1, Option.some.injEq]
  have e2 : ((md5_format_loop hashStr digest 16).set 32 0).drop 32 = [0] := by
    apply List.ext_getElem?
    intro j
    rw [List.getElem?_drop]
    match j with
    | 0 => rw [hget, if_neg (by omega), if_pos rfl]; rfl
    | j + 1 =>
      rw [List.getElem?_eq_none (by rw [List.length_set, md5_format_loop_length]; omega)]
      rfl
  rw [← List.take_append_drop 32 ((md5_format_loop hashStr digest 16).set 32 0), e2, h6]

/-! ## A chunk that fits in the cache without filling it -/

theorem md5_update_small (ctx : md5_context) (chunk : List Nat)
    (h : ctx.cacheLen + chunk.length < 64) :
    md5_update ctx (some chunk) chunk.length =
      some { ctx with
        cache := md5_copy_memory ctx.cache ctx.cacheLen chunk 0 chunk.length
        cacheLen := ctx.cacheLen + chunk.length
        sz := u64 (ctx.sz + chunk.length) } := by
  by_cases h0 : chunk.length = 0
  · have hl : md5_update_loop (chunk.length + 1) ctx chunk chunk.length 0 = some ctx :=
      md5_update_loop_done _ _ _ _ _ (by omega)
    simp only [md5_update, hl]
    rw [h0]
    rfl
  · have hiter := md5_update_iter_part ctx chunk 0 (by omega) (by omega)
    rw [Nat.sub_zero] at hiter
    have hl : md5_update_loop (chunk.length + 1) ctx chunk chunk.length 0 =
        some { ctx with
          cache := md5_copy_memory ctx.cache ctx.cacheLen chunk 0 chunk.length
          cacheLen := ctx.cacheLen + chunk.length } := by
      rw [md5_update_loop_step chunk.length ctx _ chunk _ 0 _ (by omega) hiter]
      exact md5_update_loop_done _ _ _ _ _ (le_refl _)
    simp only [md5_update, hl]

/-! ## `md5_update` without the cache bypass -/

theorem md5_update_buffered_iter_fill (ctx : md5_context) (bytes : List Nat) (tbp : Nat)
    (hc : ctx.cacheLen < 64) (ht : tbp < bytes.length)
    (hr : 64 - ctx.cacheLen ≤ bytes.length - tbp) :
    md5_update_buffered_iter ctx bytes bytes.length tbp =
      some (md5_update_block
          { ctx with
            cache := md5_copy_memory ctx.cache ctx.cacheLen bytes tbp (64 - ctx.cacheLen)
            cacheLen := 64 }
          (md5_copy_memory ctx.cache ctx.cacheLen bytes tbp (64 - ctx.cacheLen)),
        tbp + (64 - ctx.cacheLen)) := by
  have h1 : u32 ctx.cacheLen = ctx.cacheLen := by unfold u32; omega
  have h2 : usize_sub 64 ctx.cacheLen = 64 - ctx.cacheLen :=
    usize_sub_of_le _ _ (by omega) (by omega)
  have h3 : (if bytes.length - tbp > 64 - ctx.cacheLen then 64 - ctx.cacheLen
      else bytes.length - tbp) = 64 - ctx.cacheLen := by
    split <;> omega
  have h4 : ctx.cacheLen + (64 - ctx.cacheLen) = 64 := by omega
  have h5 : usize_sub 64 (u32 (u32 64)) = 0 := by decide
  unfold md5_update_buffered_iter
  simp only [sizeof_cache, h1, h2, h3, h4, h5]
  rw [if_pos (by omega), if_pos (by omega), if_pos trivial]
  rfl

theorem md5_update_buffered_iter_part (ctx : md5_context) (bytes : List Nat) (tbp : Nat)
    (ht : tbp < bytes.length)
    (hr : ctx.cacheLen + (bytes.length - tbp) < 64) :
    md5_update_buffered_iter ctx bytes bytes.length tbp =
      some ({ ctx with
          cache := md5_copy_memory ctx.cache ctx.cacheLen bytes tbp (bytes.length - tbp)
          cacheLen := ctx.cacheLen + (bytes.length - tbp) },
        bytes.length) := by
  have h1 : u32 ctx.cacheLen = ctx.cacheLen := by unfold u32; omega
  have h2 : usize_sub 64 ctx.cacheLen = 64 - ctx.cacheLen :=
    usize_sub_of_le _ _ (by omega) (by omega)
  have h3 : (if bytes.length - tbp > 64 - ctx.cacheLen then 64 - ctx.cacheLen
      else bytes.length - tbp) = bytes.length - tbp := by
    split <;> omega
  have h4 : u32 (u32 (ctx.cacheLen + (bytes.length - tbp))) =
      ctx.cacheLen + (bytes.length - tbp) := by
    unfold u32; omega
  have h4' : u32 (ctx.cacheLen + (bytes.length - tbp)) =
      ctx.cacheLen + (bytes.length - tbp) := by
    unfold u32; omega
  have h5 : usize_sub 64 (ctx.cacheLen + (bytes.length - tbp)) =
      64 - (ctx.cacheLen + (bytes.length - tbp)) :=
    usize_sub_of_le _ _ (by omega) (by omega)
  have h6 : tbp + (bytes.length - tbp) = bytes.length := by omega
  unfold md5_update_buffered_iter
  simp only [sizeof_cache, h1, h2, h3, h4, h4', h5, h6]
  rw [if_pos (by omega), if_pos (by omega), if_neg (by omega)]

theorem md5_update_buffered_loop_done (fuel : Nat) (ctx : md5_context) (bytes : List Nat)
    (sz tbp : Nat) (h : sz ≤ tbp) :
    md5_update_buffered_loop fuel ctx bytes sz tbp = some ctx := by
  cases fuel with
  | zero => unfold md5_update_buffered_loop; rw [if_neg (by omega)]
  | succ f => unfold md5_update_buffered_loop; rw [if_neg (by omega)]

theorem md5_update_buffered_loop_step (fuel : Nat) (ctx ctx1 : md5_context)
    (bytes : List Nat) (sz tbp tbp1 : Nat) (h : tbp < sz)
    (hi : md5_update_buffered_iter ctx bytes sz tbp = some (ctx1, tbp1)) :
    md5_update_buffered_loop (fuel + 1) ctx bytes sz tbp =
      md5_update_buffered_loop fuel ctx1 bytes sz tbp1 := by
  rw [md5_update_buffered_loop, if_pos h, hi]

/-- The loop without the cache bypass satisfies the specification of the loop of
`md5_update`. -/
theorem md5_update_buffered_loop_spec (bytes : List Nat) :
    ∀ (fuel : Nat) (ctx : md5_context) (tbp : Nat), ctx.cacheLen < 64 → tbp ≤ bytes.length →
      bytes.length - tbp ≤ fuel →
      ∃ ctx1, md5_update_buffered_loop fuel ctx bytes bytes.length tbp = some ctx1 ∧
        ctx1.cacheLen = (ctx.cacheLen + (bytes.length - tbp)) % 64 ∧
        ctx1.sz = ctx.sz ∧ ctx1.cache.length = ctx.cache.length ∧
        (ctx.cache.length = 64 →
          md5_regs ctx1 = md5_stream_regs (md5_regs ctx) (md5_pending ctx ++ bytes.drop tbp) ∧
          md5_pending ctx1 = md5_stream_rest (md5_pending ctx ++ bytes.drop tbp)) := by
  intro fuel
  induction fuel with
  | zero =>
    intro ctx tbp hc ht hf
    refine ⟨ctx, md5_update_buffered_loop_done _ _ _ _ _ (by omega), by omega, rfl, rfl, ?_⟩
    intro hlen
    have hp := md5_pending_length ctx (by omega)
    have hd : bytes.drop tbp = [] := List.drop_eq_nil_of_le (by omega)
    rw [hd, List.append_nil, md5_stream_regs_short _ _ (by omega),
      md5_stream_rest_short _ (by omega)]
    exact ⟨rfl, rfl⟩
  | succ f ih =>
    intro ctx tbp hc ht hf
    by_cases hdone : bytes.length ≤ tbp
    · refine ⟨ctx, md5_update_buffered_loop_done _ _ _ _ _ hdone, by omega, rfl, rfl, ?_⟩
      intro hlen
      have hp := md5_pending_length ctx (by omega)
      have hd : bytes.drop tbp = [] := List.drop_eq_nil_of_le (by omega)
      rw [hd, List.append_nil, md5_stream_regs_short _ _ (by omega),
        md5_stream_rest_short _ (by omega)]
      exact ⟨rfl, rfl⟩
    · have ht' : tbp < bytes.length := by omega
      by_cases hfill : 64 - ctx.cacheLen ≤ bytes.length - tbp
      · have hiter := md5_update_buffered_iter_fill ctx bytes tbp hc ht' hfill
        obtain ⟨ctx1, h1, h2, h3, h4, h5⟩ :=
          ih (md5_update_block
              { ctx with
                cache := md5_copy_memory ctx.cache ctx.cacheLen bytes tbp (64 - ctx.cacheLen)
                cacheLen := 64 }
              (md5_copy_memory ctx.cache ctx.cacheLen bytes tbp (64 - ctx.cacheLen)))
            (tbp + (64 - ctx.cacheLen))
            (by rw [md5_update_block_cacheLen]; omega) (by omega) (by omega)
        rw [md5_update_block_cacheLen] at h2
        rw [md5_update_block_sz] at h3
        rw [md5_update_block_cache] at h4 h5
        simp only [md5_copy_memory_length] at h4 h5
        refine ⟨ctx1, ?_, by omega, h3, h4, ?_⟩
        · rw [md5_update_buffered_loop_step f ctx _ bytes _ tbp _ ht' hiter]
          exact h1
        · intro hlen
          obtain ⟨h6, h7⟩ := h5 hlen
          have hp := md5_pending_length ctx (by omega)
          have hcopy : md5_copy_memory ctx.cache ctx.cacheLen bytes tbp (64 - ctx.cacheLen) =
              (md5_pending ctx ++ bytes.drop tbp).take 64 := by
            rw [md5_copy_memory_eq _ _ _ _ _ (by omega) (by omega),
              List.take_append_eq_append_take, hp,
              List.take_of_length_le (l := md5_pending ctx) (by omega),
              List.drop_of_length_le (l := ctx.cache) (by omega), List.append_nil]
            rfl
          have hp1 : ∀ X, md5_pending (md5_update_block
              { ctx with
                cache := md5_copy_memory ctx.cache ctx.cacheLen bytes tbp (64 - ctx.cacheLen)
                cacheLen := 64 } X) = [] := by
            intro X
            unfold md5_pending; rw [md5_update_block_cacheLen]; rfl
          rw [hp1, List.nil_append, md5_regs_update_block] at h6
          rw [hp1, List.nil_append] at h7
          have hD : 64 ≤ (md5_pending ctx ++ bytes.drop tbp).length := by
            rw [List.length_append, List.length_drop, hp]; omega
          have hdrop : (md5_pending ctx ++ bytes.drop tbp).drop 64 =
              bytes.drop (tbp + (64 - ctx.cacheLen)) := by
            rw [List.drop_append_eq_append_drop, hp,
              List.drop_of_length_le (l := md5_pending ctx) (by omega), List.nil_append,
              List.drop_drop]
          rw [md5_stream_regs_block _ _ hD, md5_stream_rest_block _ hD, hdrop, ← hcopy]
          exact ⟨h6, h7⟩
      · have hpart : ctx.cacheLen + (bytes.length - tbp) < 64 := by omega
        have hiter := md5_update_buffered_iter_part ctx bytes tbp ht' hpart
        refine ⟨{ ctx with
            cache := md5_copy_memory ctx.cache ctx.cacheLen bytes tbp (bytes.length - tbp)
            cacheLen := ctx.cacheLen + (bytes.length - tbp) }, ?_, ?_, rfl, ?_, ?_⟩
        · rw [md5_update_buffered_loop_step f ctx _ bytes _ tbp _ ht' hiter]
          exact md5_update_buffered_loop_done _ _ _ _ _ (le_refl _)
        · show ctx.cacheLen + (bytes.length - tbp) = _
          omega
        · show (md5_copy_memory _ _ _ _ _).length = _
          rw [md5_copy_memory_length]
        · intro hlen
          have hp := md5_pending_length ctx (by omega)
          have hD : (md5_pending ctx ++ bytes.drop tbp).length < 64 := by
            rw [List.length_append, List.length_drop, hp]; omega
          rw [md5_stream_regs_short _ _ hD, md5_stream_rest_short _ hD]
          refine ⟨rfl, ?_⟩
          show (md5_copy_memory ctx.cache ctx.cacheLen bytes tbp (bytes.length - tbp)).take
            (ctx.cacheLen + (bytes.length - tbp)) = _
          rw [md5_copy_memory_eq _ _ _ _ _ (by omega) (by omega)]
          rw [List.take_left' (by
            rw [List.length_append, List.length_take, List.length_take, List.length_drop]
            omega)]
          rw [List.take_of_length_le (l := bytes.drop tbp) (by rw [List.length_drop])]
          rfl

theorem md5_update_buffered_spec (ctx : md5_context) (C : List Nat) (hc : ctx.cacheLen < 64) :
    ∃ ctx1, md5_update_buffered ctx (some C) C.length = some ctx1 ∧
      ctx1.cacheLen = (ctx.cacheLen + C.length) % 64 ∧
      ctx1.sz = u64 (ctx.sz + C.length) ∧ ctx1.cache.length = ctx.cache.length ∧
      (ctx.cache.length = 64 →
        md5_regs ctx1 = md5_stream_regs (md5_regs ctx) (md5_pending ctx ++ C) ∧
        md5_pending ctx1 = md5_stream_rest (md5_pending ctx ++ C)) := by
  obtain ⟨ctx1, h1, h2, h3, h4, h5⟩ :=
    md5_update_buffered_loop_spec C (C.length + 1) ctx 0 hc (by omega) (by omega)
  refine ⟨{ ctx1 with sz := u64 (ctx1.sz + C.length) }, ?_, ?_, ?_, h4, ?_⟩
  · simp only [md5_update_buffered, h1]
  · exact h2
  · show u64 (ctx1.sz + C.length) = _
    rw [h3]
  · intro hlen
    exact h5 hlen

/-! ## Termination of the loop of `md5_update` -/

theorem md5_update_loop_eq_count (bytes : List Nat) (sz : Nat) :
    ∀ (fuel : Nat) (ctx : md5_context) (tbp : Nat),
      md5_update_loop fuel ctx bytes sz tbp =
        (md5_update_loop_count fuel ctx bytes sz tbp).map (fun r => r.1) := by
  intro fuel
  induction fuel with
  | zero =>
    intro ctx tbp
    unfold md5_update_loop md5_update_loop_count
    split <;> rfl
  | succ f ih =>
    intro ctx tbp
    unfold md5_update_loop md5_update_loop_count
    by_cases h : tbp < sz
    · rw [if_pos h, if_pos h]
      cases hi : md5_update_iter ctx bytes sz tbp with
      | none => rfl
      | some p =>
        obtain ⟨c1, t1⟩ := p
        simp only
        rw [ih c1 t1]
        cases md5_update_loop_count f c1 bytes sz t1 with
        | none => rfl
        | some r => rfl
    · rw [if_neg h, if_neg h]
      rfl

theorem md5_update_loop_count_done (fuel : Nat) (ctx : md5_context) (bytes : List Nat)
    (sz tbp : Nat) (h : sz ≤ tbp) :
    md5_update_loop_count fuel ctx bytes sz tbp = some (ctx, tbp, 0) := by
  cases fuel with
  | zero => unfold md5_update_loop_count; rw [if_neg (by omega)]
  | succ f => unfold md5_update_loop_count; rw [if_neg (by omega)]

theorem md5_update_loop_count_step (fuel : Nat) (ctx ctx1 ctx2 : md5_context)
    (bytes : List Nat) (sz tbp tbp1 tbp2 k : Nat) (h : tbp < sz)
    (hi : md5_update_iter ctx bytes sz tbp = some (ctx1, tbp1))
    (hl : md5_update_loop_count fuel ctx1 bytes sz tbp1 = some (ctx2, tbp2, k)) :
    md5_update_loop_count (fuel + 1) ctx bytes sz tbp = some (ctx2, tbp2, k + 1) := by
  rw [md5_update_loop_count, if_pos h, hi]
  simp only [hl]

theorem md5_update_loop_count_mono (bytes : List Nat) (sz : Nat) :
    ∀ (fuel : Nat) (ctx : md5_context) (tbp : Nat) (r : md5_context × Nat × Nat),
      md5_update_loop_count fuel ctx bytes sz tbp = some r →
      ∀ m, md5_update_loop_count (fuel + m) ctx bytes sz tbp = some r := by
  intro fuel
  induction fuel with
  | zero =>
    intro ctx tbp r h m
    unfold md5_update_loop_count at h
    by_cases ht : tbp < sz
    · rw [if_pos ht] at h
      exact absurd h (by simp)
    · rw [if_neg ht] at h
      rw [← h]
      exact md5_update_loop_count_done _ _ _ _ _ (by omega)
  | succ f ih =>
    intro ctx tbp r h m
    by_cases ht : tbp < sz
    · rw [md5_update_loop_count, if_pos ht] at h
      cases hi : md5_update_iter ctx bytes sz tbp with
      | none =>
        rw [hi] at h
        exact absurd h (by simp)
      | some p =>
        obtain ⟨c1, t1⟩ := p
        rw [hi] at h
        simp only at h
        cases hl : md5_update_loop_count f c1 bytes sz t1 with
        | none =>
          rw [hl] at h
          exact absurd h (by simp)
        | some q =>
          obtain ⟨c2, t2, k⟩ := q
          rw [hl] at h
          simp only [Option.some.injEq] at h
          have e : f + 1 + m = (f + m) + 1 := by omega
          rw [e, ← h]
          exact md5_update_loop_count_step (f + m) ctx c1 c2 bytes sz tbp t1 t2 k ht hi
            (ih c1 t1 _ hl m)
    · have hd := md5_update_loop_count_done (f + 1) ctx bytes sz tbp (by omega)
      rw [hd] at h
      rw [← h]
      exact md5_update_loop_count_done _ _ _ _ _ (by omega)

/-- One iteration of the loop from a context with `cacheLen ≤ 64`: it returns, and either the
cache was full and is emptied without consuming input, or input is consumed and the cache
ends empty or the input ends. -/
theorem md5_update_iter_progress (ctx : md5_context) (bytes : List Nat) (tbp : Nat)
    (hc : ctx.cacheLen ≤ 64) (ht : tbp < bytes.length) :
    ∃ c1 t1, md5_update_iter ctx bytes bytes.length tbp = some (c1, t1) ∧
      (ctx.cacheLen = 64 → t1 = tbp ∧ c1.cacheLen = 0) ∧
      (ctx.cacheLen < 64 →
        (c1.cacheLen = 0 ∧ t1 = tbp + (64 - ctx.cacheLen) ∧ t1 ≤ bytes.length) ∨
        (t1 = bytes.length ∧ c1.cacheLen = ctx.cacheLen + (bytes.length - tbp) ∧
          c1.cacheLen < 64)) := by
  by_cases h64 : ctx.cacheLen = 64
  · refine ⟨_, _, md5_update_iter_full ctx bytes bytes.length tbp h64, ?_, ?_⟩
    · intro _
      exact ⟨rfl, md5_update_block_cacheLen _ _⟩
    · intro h; omega
  · have hlt : ctx.cacheLen < 64 := by omega
    by_cases hfast : ctx.cacheLen = 0 ∧ 64 < bytes.length - tbp
    · refine ⟨_, _, md5_update_iter_fast ctx bytes tbp hfast.1 hfast.2, ?_, ?_⟩
      · intro h; omega
      · intro _
        left
        refine ⟨md5_update_block_cacheLen _ _, ?_, ?_⟩
        · rw [hfast.1]
        · omega
    · by_cases hfill : 64 - ctx.cacheLen ≤ bytes.length - tbp
      · refine ⟨_, _, md5_update_iter_fill ctx bytes tbp hlt ht hfast hfill, ?_, ?_⟩
        · intro h; omega
        · intro _
          left
          exact ⟨md5_update_block_cacheLen _ _, rfl, by omega⟩
      · refine ⟨_, _, md5_update_iter_part ctx bytes tbp ht (by omega), ?_, ?_⟩
        · intro h; omega
        · intro _
          right
          refine ⟨rfl, rfl, ?_⟩
          show ctx.cacheLen + (bytes.length - tbp) < 64
          omega

theorem md5_update_loop_count_spec (bytes : List Nat) :
    ∀ (fuel : Nat) (ctx : md5_context) (tbp : Nat), ctx.cacheLen ≤ 64 → tbp ≤ bytes.length →
      bytes.length - tbp + ctx.cacheLen / 64 ≤ fuel →
      ∃ ctx1 k, md5_update_loop_count fuel ctx bytes bytes.length tbp
          = some (ctx1, bytes.length, k) ∧
        k ≤ (ctx.cacheLen + (bytes.length - tbp)) / 64 + 1 := by
  intro fuel
  induction fuel with
  | zero =>
    intro ctx tbp hc ht hf
    have e : tbp = bytes.length := by omega
    refine ⟨ctx, 0, ?_, by omega⟩
    rw [md5_update_loop_count_done _ _ _ _ _ (by omega), e]
  | succ f ih =>
    intro ctx tbp hc ht hf
    by_cases hdone : bytes.length ≤ tbp
    · have e : tbp = bytes.length := by omega
      refine ⟨ctx, 0, ?_, by omega⟩
      rw [md5_update_loop_count_done _ _ _ _ _ hdone, e]
    · have ht' : tbp < bytes.length := by omega
      obtain ⟨c1, t1, hi, hfull, hlt⟩ := md5_update_iter_progress ctx bytes tbp hc ht'
      by_cases h64 : ctx.cacheLen = 64
      · obtain ⟨e1, e2⟩ := hfull h64
        obtain ⟨c2, k, hl, hk⟩ := ih c1 t1 (by omega) (by omega) (by omega)
        refine ⟨c2, k + 1, md5_update_loop_count_step f ctx c1 c2 bytes _ tbp t1 _ k ht' hi hl,
          ?_⟩
        rw [e1, e2] at hk
        omega
      · rcases hlt (by omega) with ⟨e1, e2, e3⟩ | ⟨e1, e2, e3⟩
        · obtain ⟨c2, k, hl, hk⟩ := ih c1 t1 (by omega) e3 (by omega)
          refine ⟨c2, k + 1,
            md5_update_loop_count_step f ctx c1 c2 bytes _ tbp t1 _ k ht' hi hl, ?_⟩
          rw [e1, e2] at hk
          omega
        · have hl := md5_update_loop_count_done f c1 bytes bytes.length t1 (by omega)
          rw [e1] at hl
          refine ⟨c1, 0 + 1,
            md5_update_loop_count_step f ctx c1 c1 bytes _ tbp t1 _ 0 ht' hi
              (by rw [e1]; exact hl), by omega⟩

/-! ## Index safety -/

theorem md5_update_iter_safe_of_le (ctx : md5_context) (sz tbp : Nat)
    (hc : ctx.cacheLen ≤ 64) (ht : tbp < sz) : md5_update_iter_safe ctx sz tbp = true := by
  have h1 : u32 ctx.cacheLen = ctx.cacheLen := by unfold u32; omega
  have h2 : usize_sub 64 ctx.cacheLen = 64 - ctx.cacheLen :=
    usize_sub_of_le _ _ hc (by omega)
  unfold md5_update_iter_safe
  simp only [sizeof_cache, h1, h2, Bool.and_eq_true, decide_eq_true_eq]
  refine ⟨by omega, ?_⟩
  split
  · next hf => simp only [decide_eq_true_eq]; omega
  · simp only [Bool.and_eq_true, decide_eq_true_eq]
    refine ⟨hc, ?_⟩
    split
    · simp only [Bool.and_eq_true, decide_eq_true_eq, u32]
      split <;> omega
    · rfl

theorem md5_update_loop_safe_done (fuel : Nat) (ctx : md5_context) (bytes : List Nat)
    (sz tbp : Nat) (h : sz ≤ tbp) : md5_update_loop_safe fuel ctx bytes sz tbp = true := by
  cases fuel with
  | zero =>
    unfold md5_update_loop_safe
    simp only [decide_eq_true_eq]
    omega
  | succ f => unfold md5_update_loop_safe; rw [if_neg (by omega)]

theorem md5_update_loop_safe_of_le (bytes : List Nat) :
    ∀ (fuel : Nat) (ctx : md5_context) (tbp : Nat), ctx.cacheLen ≤ 64 → tbp ≤ bytes.length →
      bytes.length - tbp + ctx.cacheLen / 64 ≤ fuel →
      md5_update_loop_safe fuel ctx bytes bytes.length tbp = true := by
  intro fuel
  induction fuel with
  | zero =>
    intro ctx tbp hc ht hf
    exact md5_update_loop_safe_done _ _ _ _ _ (by omega)
  | succ f ih =>
    intro ctx tbp hc ht hf
    by_cases hdone : bytes.length ≤ tbp
    · exact md5_update_loop_safe_done _ _ _ _ _ hdone
    · have ht' : tbp < bytes.length := by omega
      obtain ⟨c1, t1, hi, hfull, hlt⟩ := md5_update_iter_progress ctx bytes tbp hc ht'
      have hnext : md5_update_loop_safe f c1 bytes bytes.length t1 = true := by
        by_cases h64 : ctx.cacheLen = 64
        · obtain ⟨e1, e2⟩ := hfull h64
          exact ih c1 t1 (by omega) (by omega) (by omega)
        · rcases hlt (by omega) with ⟨e1, e2, e3⟩ | ⟨e1, e2, e3⟩
          · exact ih c1 t1 (by omega) e3 (by omega)
          · exact md5_update_loop_safe_done _ _ _ _ _ (by omega)
      rw [md5_update_loop_safe, if_pos ht', md5_update_iter_safe_of_le ctx _ tbp hc ht', hi]
      simp only [hnext, Bool.and_self]

theorem md5_finalize_flush_cacheLen (ctx : md5_context) (h : ctx.cacheLen ≤ 64) :
    (md5_finalize_flush ctx).1.cacheLen < 64 ∧
      (md5_finalize_flush ctx).1.cache.length = ctx.cache.length := by
  unfold md5_finalize_flush
  split
  · exact ⟨by show (md5_update_block ctx ctx.cache).cacheLen < 64
              rw [md5_update_block_cacheLen]; omega,
      by show (md5_update_block ctx ctx.cache).cache.length = _
         rw [md5_update_block_cache]⟩
  · next hf =>
    refine ⟨?_, rfl⟩
    show ctx.cacheLen < 64
    have h1 : u32 ctx.cacheLen = ctx.cacheLen := by unfold u32; omega
    simp only [md5_finalize_cache_full, h1, sizeof_cache, beq_iff_eq] at hf
    rw [usize_sub_of_le _ _ h (by omega)] at hf
    omega

/-- The state `md5_finalize` is in when it reaches the zero fill that precedes the length
bytes: `cacheLen ≤ 56`, at least 8 bytes remain, and the fill ends at index 56. -/
theorem md5_finalize_marker_fill (ctx : md5_context) (h : ctx.cacheLen < 64) :
    8 ≤ (md5_finalize_marker ctx).2.2 ∧
      (md5_finalize_marker ctx).1.cacheLen +
        usize_sub (md5_finalize_marker ctx).2.2 8 = 56 := by
  have h1 : u32 (ctx.cacheLen + 1) = ctx.cacheLen + 1 := by unfold u32; omega
  have h2 : usize_sub sizeof_cache (ctx.cacheLen + 1) = 63 - ctx.cacheLen := by
    rw [usize_sub_of_le _ _ (by unfold sizeof_cache; omega) (by unfold sizeof_cache; omega)]
    unfold sizeof_cache
    omega
  by_cases h55 : ctx.cacheLen ≤ 55
  · rw [md5_finalize_marker_le55 ctx h55]
    refine ⟨by show 8 ≤ 63 - ctx.cacheLen; omega, ?_⟩
    show ctx.cacheLen + 1 + usize_sub (63 - ctx.cacheLen) 8 = 56
    rw [usize_sub_of_le _ _ (by omega) (by omega)]
    omega
  · simp only [md5_finalize_marker, h1, h2]
    rw [if_pos (by omega)]
    refine ⟨by show 8 ≤ sizeof_cache; unfold sizeof_cache; omega, ?_⟩
    show (md5_update_block _ _).cacheLen + usize_sub sizeof_cache 8 = 56
    rw [md5_update_block_cacheLen]
    rfl

theorem md5_finalize_safe_of_le (ctx : md5_context) (h : ctx.cacheLen ≤ 64) :
    md5_finalize_safe ctx = true := by
  obtain ⟨hs, -⟩ := md5_finalize_flush_cacheLen ctx h
  obtain ⟨m1, m2⟩ := md5_finalize_marker_fill (md5_finalize_flush ctx).1 hs
  have h0 : u32 ctx.cacheLen = ctx.cacheLen := by unfold u32; omega
  have h1 : u32 ((md5_finalize_flush ctx).1.cacheLen + 1) =
      (md5_finalize_flush ctx).1.cacheLen + 1 := by unfold u32; omega
  have h2 : usize_sub 64 ((md5_finalize_flush ctx).1.cacheLen + 1) =
      63 - (md5_finalize_flush ctx).1.cacheLen := by
    rw [usize_sub_of_le _ _ (by omega) (by omega)]
    omega
  unfold md5_finalize_safe
  simp only [sizeof_cache, h0, h1, h2, Bool.and_eq_true, decide_eq_true_eq]
  refine ⟨⟨⟨⟨⟨h, hs⟩, by omega⟩, ?_⟩, m1⟩, by omega⟩
  split
  · simp only [decide_eq_true_eq]; omega
  · rfl

/-! ## The compression core and the round formula -/

theorem MD5_ROTATE_LEFT_eq (x n : Nat) (hx : x < 4294967296) (h0 : 0 < n) (hn : n < 32) :
    MD5_ROTATE_LEFT x n = rotl32 x n := by
  have h32 : (4294967296 : Nat) = 2 ^ (32 - n) * 2 ^ n := by
    rw [← Nat.pow_add]
    have e : 32 - n + n = 32 := by omega
    rw [e]
  have hhi : x / 2 ^ (32 - n) < 2 ^ n := by
    apply Nat.div_lt_of_lt_mul
    rw [← h32]
    exact hx
  unfold MD5_ROTATE_LEFT rotl32 u32
  rw [Nat.shiftLeft_eq, Nat.shiftRight_eq_div_pow]
  have e1 : x * 2 ^ n % 4294967296 = 2 ^ n * (x % 2 ^ (32 - n)) := by
    rw [h32, Nat.mul_mod_mul_right, Nat.mul_comm]
  rw [e1]
  exact (Nat.mul_add_lt_is_or hhi _).symm

theorem md5_decode_word (b0 b1 b2 b3 : Nat) (h0 : b0 < 256) (h1 : b1 < 256) (h2 : b2 < 256)
    (h3 : b3 < 256) :
    u32 b0 ||| u32 (u32 b1 <<< 8) ||| u32 (u32 b2 <<< 16) ||| u32 (u32 b3 <<< 24) =
      b0 + 256 * b1 + 65536 * b2 + 16777216 * b3 := by
  have e0 : u32 b0 = b0 := by unfold u32; omega
  have e1 : u32 (u32 b1 <<< 8) = 2 ^ 8 * b1 := by
    simp only [u32, Nat.shiftLeft_eq]; omega
  have e2 : u32 (u32 b2 <<< 16) = 2 ^ 16 * b2 := by
    simp only [u32, Nat.shiftLeft_eq]; omega
  have e3 : u32 (u32 b3 <<< 24) = 2 ^ 24 * b3 := by
    simp only [u32, Nat.shiftLeft_eq]; omega
  rw [e0, e1, e2, e3]
  have s1 : b0 ||| 2 ^ 8 * b1 = 2 ^ 8 * b1 + b0 := by
    rw [Nat.or_comm]
    exact (Nat.mul_add_lt_is_or (by omega) _).symm
  have s2 : 2 ^ 8 * b1 + b0 ||| 2 ^ 16 * b2 = 2 ^ 16 * b2 + (2 ^ 8 * b1 + b0) := by
    rw [Nat.or_comm]
    exact (Nat.mul_add_lt_is_or (by omega) _).symm
  have s3 : 2 ^ 16 * b2 + (2 ^ 8 * b1 + b0) ||| 2 ^ 24 * b3 =
      2 ^ 24 * b3 + (2 ^ 16 * b2 + (2 ^ 8 * b1 + b0)) := by
    rw [Nat.or_comm]
    exact (Nat.mul_add_lt_is_or (by omega) _).symm
  rw [s1, s2, s3]
  omega

theorem md5_decode_eq (block : List Nat) (hb : ∀ b ∈ block, b < 256) :
    md5_decode block = (List.range 16).map (le32_word block) := by
  unfold md5_decode
  apply List.map_congr_left
  intro i _
  unfold le32_word
  exact md5_decode_word _ _ _ _ (md5_getD_lt block hb _) (md5_getD_lt block hb _)
    (md5_getD_lt block hb _) (md5_getD_lt block hb _)

theorem md5_round_sum (a f w ac : Nat) :
    u32 (a + u32 (u32 (f + w) + u32 ac)) = (a + f + w + ac) % 4294967296 := by
  unfold u32
  omega

theorem md5_round_step_FF (w : List Nat) (a b c d i k s ac : Nat) (hr : i / 16 = 0)
    (hk : md5_round_perm i = k) (hs : md5_round_shift i = s)
    (hac : md5_round_K.getD i 0 = ac) (h0 : 0 < s) (h32 : s < 32) :
    md5_round_step w (a, b, c, d) i = (d, MD5_FF a b c d (w.getD k 0) s ac, b, c) := by
  unfold md5_round_step MD5_FF
  simp only [hr, hk, hs, hac, md5_round_f, md5_round_sum]
  rw [MD5_ROTATE_LEFT_eq _ s (Nat.mod_lt _ (by norm_num)) h0 h32, Nat.add_comm]
  rfl

theorem md5_round_step_GG (w : List Nat) (a b c d i k s ac : Nat) (hr : i / 16 = 1)
    (hk : md5_round_perm i = k) (hs : md5_round_shift i = s)
    (hac : md5_round_K.getD i 0 = ac) (h0 : 0 < s) (h32 : s < 32) :
    md5_round_step w (a, b, c, d) i = (d, MD5_GG a b c d (w.getD k 0) s ac, b, c) := by
  unfold md5_round_step MD5_GG
  simp only [hr, hk, hs, hac, md5_round_f, md5_round_sum]
  rw [MD5_ROTATE_LEFT_eq _ s (Nat.mod_lt _ (by norm_num)) h0 h32, Nat.add_comm]
  rfl

theorem md5_round_step_HH (w : List Nat) (a b c d i k s ac : Nat) (hr : i / 16 = 2)
    (hk : md5_round_perm i = k) (hs : md5_round_shift i = s)
    (hac : md5_round_K.getD i 0 = ac) (h0 : 0 < s) (h32 : s < 32) :
    md5_round_step w (a, b, c, d) i = (d, MD5_HH a b c d (w.getD k 0) s ac, b, c) := by
  unfold md5_round_step MD5_HH
  simp only [hr, hk, hs, hac, md5_round_f, md5_round_sum]
  rw [MD5_ROTATE_LEFT_eq _ s (Nat.mod_lt _ (by norm_num)) h0 h32, Nat.add_comm]
  rfl

theorem md5_round_step_II (w : List Nat) (a b c d i k s ac : Nat) (hr : i / 16 = 3)
    (hk : md5_round_perm i = k) (hs : md5_round_shift i = s)
    (hac : md5_round_K.getD i 0 = ac) (h0 : 0 < s) (h32 : s < 32) :
    md5_round_step w (a, b, c, d) i = (d, MD5_II a b c d (w.getD k 0) s ac, b, c) := by
  unfold md5_round_step MD5_II
  simp only [hr, hk, hs, hac, md5_round_f, md5_round_sum]
  rw [MD5_ROTATE_LEFT_eq _ s (Nat.mod_lt _ (by norm_num)) h0 h32, Nat.add_comm]
  rfl

theorem md5_range_64 :
    List.range 64 =
      [0, 1, 2, 3, 4, 5, 6, 7, 8, 9, 10, 11, 12, 13, 14, 15, 16, 17, 18, 19, 20, 21, 22, 23,
        24, 25, 26, 27, 28, 29, 30, 31, 32, 33, 34, 35, 36, 37, 38, 39, 40, 41, 42, 43, 44,
        45, 46, 47, 48, 49, 50, 51, 52, 53, 54, 55, 56, 57, 58, 59, 60, 61, 62, 63] := by
  decide

/-- The 64 unrolled steps of `md5_update_block` are the round loop. -/
theorem md5_update_block_rounds_eq (a b c d : Nat) (x : List Nat) :
    md5_update_block_rounds a b c d x = md5_round_loop a b c d x := by
  unfold md5_round_loop
  rw [md5_range_64]
  simp only [List.foldl_cons, List.foldl_nil]
  unfold md5_update_block_rounds
  lift_lets
  intro a1 d1 c1 b1 a2 d2 c2 b2 a3 d3 c3 b3 a4 d4 c4 b4 a5 d5 c5 b5 a6 d6 c6 b6 a7 d7 c7 b7 a8 d8 c8 b8 a9 d9 c9 b9 a10 d10 c10 b10 a11 d11 c11 b11 a12 d12 c12 b12 a13 d13 c13 b13 a14 d14 c14 b14 a15 d15 c15 b15 a16 d16 c16 b16
  rw [show md5_round_step x (a, b, c, d) 0 = (d, a1, b, c) from
    md5_round_step_FF x a b c d 0 0 MD5_S11 0xd76aa478 (by decide) (by decide) (by decide)
      (by decide) (by decide) (by decide)]
  rw [show md5_round_step x (d, a1, b, c) 1 = (c, d1, a1, b) from
    md5_round_step_FF x d a1 b c 1 1 MD5_S12 0xe8c7b756 (by decide) (by decide) (by decide)
      (by decide) (by decide) (by decide)]
  rw [show md5_round_step x (c, d1, a1, b) 2 = (b, c1, d1, a1) from
    md5_round_step_FF x c d1 a1 b 2 2 MD5_S13 0x242070db (by decide) (by decide) (by decide)
      (by decide) (by decide) (by decide)]
  rw [show md5_round_step x (b, c1, d1, a1) 3 = (a1, b1, c1, d1) from
    md5_round_step_FF x b c1 d1 a1 3 3 MD5_S14 0xc1bdceee (by decide) (by decide) (by decide)
      (by decide) (by decide) (by decide)]
  rw [show md5_round_step x (a1, b1, c1, d1) 4 = (d1, a2, b1, c1) from
    md5_round_step_FF x a1 b1 c1 d1 4 4 MD5_S11 0xf57c0faf (by decide) (by decide) (by decide)
      (by decide) (by decide) (by decide)]
  rw [show md5_round_step x (d1, a2, b1, c1) 5 = (c1, d2, a2, b1) from
    md5_round_step_FF x d1 a2 b1 c1 5 5 MD5_S12 0x4787c62a (by decide) (by decide) (by decide)
      (by decide) (by decide) (by decide)]
  rw [show md5_round_step x (c1, d2, a2, b1) 6 = (b1, c2, d2, a2) from
    md5_round_step_FF x c1 d2 a2 b1 6 6 MD5_S13 0xa8304613 (by decide) (by decide) (by decide)
      (by decide) (by decide) (by decide)]
  rw [show md5_round_step x (b1, c2, d2, a2) 7 = (a2, b2, c2, d2) from
    md5_round_step_FF x b1 c2 d2 a2 7 7 MD5_S14 0xfd469501 (by decide) (by decide) (by decide)
      (by decide) (by decide) (by decide)]
  rw [show md5_round_step x (a2, b2, c2, d2) 8 = (d2, a3, b2, c2) from
    md5_round_step_FF x a2 b2 c2 d2 8 8 MD5_S11 0x698098d8 (by decide) (by decide) (by decide)
      (by decide) (by decide) (by decide)]
  rw [show md5_round_step x (d2, a3, b2, c2) 9 = (c2, d3, a3, b2) from
    md5_round_step_FF x d2 a3 b2 c2 9 9 MD5_S12 0x8b44f7af (by decide) (by decide) (by decide)
      (by decide) (by decide) (by decide)]
  rw [show md5_round_step x (c2, d3, a3, b2) 10 = (b2, c3, d3, a3) from
    md5_round_step_FF x c2 d3 a3 b2 10 10 MD5_S13 0xffff5bb1 (by decide) (by decide) (by decide)
      (by decide) (by decide) (by decide)]
  rw [show md5_round_step x (b2, c3, d3, a3) 11 = (a3, b3, c3, d3) from
    md5_round_step_FF x b2 c3 d3 a3 11 11 MD5_S14 0x895cd7be (by decide) (by decide) (by decide)
      (by decide) (by decide) (by decide)]
  rw [show md5_round_step x (a3, b3, c3, d3) 12 = (d3, a4, b3, c3) from
    md5_round_step_FF x a3 b3 c3 d3 12 12 MD5_S11 0x6b901122 (by decide) (by decide) (by decide)
      (by decide) (by decide) (by decide)]
  rw [show md5_round_step x (d3, a4, b3, c3) 13 = (c3, d4, a4, b3) from
    md5_round_step_FF x d3 a4 b3 c3 13 13 MD5_S12 0xfd987193 (by decide) (by decide) (by decide)
      (by decide) (by decide) (by decide)]
  rw [show md5_round_step x (c3, d4, a4, b3) 14 = (b3, c4, d4, a4) from
    md5_round_step_FF x c3 d4 a4 b3 14 14 MD5_S13 0xa679438e (by decide) (by decide) (by decide)
      (by decide) (by decide) (by decide)]
  rw [show md5_round_step x (b3, c4, d4, a4) 15 = (a4, b4, c4, d4) from
    md5_round_step_FF x b3 c4 d4 a4 15 15 MD5_S14 0x49b40821 (by decide) (by decide) (by decide)
      (by decide) (by decide) (by decide)]
  rw [show md5_round_step x (a4, b4, c4, d4) 16 = (d4, a5, b4, c4) from
    md5_round_step_GG x a4 b4 c4 d4 16 1 MD5_S21 0xf61e2562 (by decide) (by decide) (by decide)
      (by decide) (by decide) (by decide)]
  rw [show md5_round_step x (d4, a5, b4, c4) 17 = (c4, d5, a5, b4) from
    md5_round_step_GG x d4 a5 b4 c4 17 6 MD5_S22 0xc040b340 (by decide) (by decide) (by decide)
      (by decide) (by decide) (by decide)]
  rw [show md5_round_step x (c4, d5, a5, b4) 18 = (b4, c5, d5, a5) from
    md5_round_step_GG x c4 d5 a5 b4 18 11 MD5_S23 0x265e5a51 (by decide) (by decide) (by decide)
      (by decide) (by decide) (by decide)]
  rw [show md5_round_step x (b4, c5, d5, a5) 19 = (a5, b5, c5, d5) from
    md5_round_step_GG x b4 c5 d5 a5 19 0 MD5_S24 0xe9b6c7aa (by decide) (by decide) (by decide)
      (by decide) (by decide) (by decide)]
  rw [show md5_round_step x (a5, b5, c5, d5) 20 = (d5, a6, b5, c5) from
    md5_round_step_GG x a5 b5 c5 d5 20 5 MD5_S21 0xd62f105d (by decide) (by decide) (by decide)
      (by decide) (by decide) (by decide)]
  rw [show md5_round_step x (d5, a6, b5, c5) 21 = (c5, d6, a6, b5) from
    md5_round_step_GG x d5 a6 b5 c5 21 10 MD5_S22 0x02441453 (by decide) (by decide) (by decide)
      (by decide) (by decide) (by decide)]
  rw [show md5_round_step x (c5, d6, a6, b5) 22 = (b5, c6, d6, a6) from
    md5_round_step_GG x c5 d6 a6 b5 22 15 MD5_S23 0xd8a1e681 (by decide) (by decide) (by decide)
      (by decide) (by decide) (by decide)]
  rw [show md5_round_step x (b5, c6, d6, a6) 23 = (a6, b6, c6, d6) from
    md5_round_step_GG x b5 c6 d6 a6 23 4 MD5_S24 0xe7d3fbc8 (by decide) (by decide) (by decide)
      (by decide) (by decide) (by decide)]
  rw [show md5_round_step x (a6, b6, c6, d6) 24 = (d6, a7, b6, c6) from
    md5_round_step_GG x a6 b6 c6 d6 24 9 MD5_S21 0x21e1cde6 (by decide) (by decide) (by decide)
      (by decide) (by decide) (by decide)]
  rw [show md5_round_step x (d6, a7, b6, c6) 25 = (c6, d7, a7, b6) from
    md5_round_step_GG x d6 a7 b6 c6 25 14 MD5_S22 0xc33707d6 (by decide) (by decide) (by decide)
      (by decide) (by decide) (by decide)]
  rw [show md5_round_step x (c6, d7, a7, b6) 26 = (b6, c7, d7, a7) from
    md5_round_step_GG x c6 d7 a7 b6 26 3 MD5_S23 0xf4d50d87 (by decide) (by decide) (by decide)
      (by decide) (by decide) (by decide)]
  rw [show md5_round_step x (b6, c7, d7, a7) 27 = (a7, b7, c7, d7) from
    md5_round_step_GG x b6 c7 d7 a7 27 8 MD5_S24 0x455a14ed (by decide) (by decide) (by decide)
      (by decide) (by decide) (by decide)]
  rw [show md5_round_step x (a7, b7, c7, d7) 28 = (d7, a8, b7, c7) from
    md5_round_step_GG x a7 b7 c7 d7 28 13 MD5_S21 0xa9e3e905 (by decide) (by decide) (by decide)
      (by decide) (by decide) (by decide)]
  rw [show md5_round_step x (d7, a8, b7, c7) 29 = (c7, d8, a8, b7) from
    md5_round_step_GG x d7 a8 b7 c7 29 2 MD5_S22 0xfcefa3f8 (by decide) (by decide) (by decide)
      (by decide) (by decide) (by decide)]
  rw [show md5_round_step x (c7, d8, a8, b7) 30 = (b7, c8, d8, a8) from
    md5_round_step_GG x c7 d8 a8 b7 30 7 MD5_S23 0x676f02d9 (by decide) (by decide) (by decide)
      (by decide) (by decide) (by decide)]
  rw [show md5_round_step x (b7, c8, d8, a8) 31 = (a8, b8, c8, d8) from
    md5_round_step_GG x b7 c8 d8 a8 31 12 MD5_S24 0x8d2a4c8a (by decide) (by decide) (by decide)
      (by decide) (by decide) (by decide)]
  rw [show md5_round_step x (a8, b8, c8, d8) 32 = (d8, a9, b8, c8) from
    md5_round_step_HH x a8 b8 c8 d8 32 5 MD5_S31 0xfffa3942 (by decide) (by decide) (by decide)
      (by decide) (by decide) (by decide)]
  rw [show md5_round_step x (d8, a9, b8, c8) 33 = (c8, d9, a9, b8) from
    md5_round_step_HH x d8 a9 b8 c8 33 8 MD5_S32 0x8771f681 (by decide) (by decide) (by decide)
      (by decide) (by decide) (by decide)]
  rw [show md5_round_step x (c8, d9, a9, b8) 34 = (b8, c9, d9, a9) from
    md5_round_step_HH x c8 d9 a9 b8 34 11 MD5_S33 0x6d9d6122 (by decide) (by decide) (by decide)
      (by decide) (by decide) (by decide)]
  rw [show md5_round_step x (b8, c9, d9, a9) 35 = (a9, b9, c9, d9) from
    md5_round_step_HH x b8 c9 d9 a9 35 14 MD5_S34 0xfde5380c (by decide) (by decide) (by decide)
      (by decide) (by decide) (by decide)]
  rw [show md5_round_step x (a9, b9, c9, d9) 36 = (d9, a10, b9, c9) from
    md5_round_step_HH x a9 b9 c9 d9 36 1 MD5_S31 0xa4beea44 (by decide) (by decide) (by decide)
      (by decide) (by decide) (by decide)]
  rw [show md5_round_step x (d9, a10, b9, c9) 37 = (c9, d10, a10, b9) from
    md5_round_step_HH x d9 a10 b9 c9 37 4 MD5_S32 0x4bdecfa9 (by decide) (by decide) (by decide)
      (by decide) (by decide) (by decide)]
  rw [show md5_round_step x (c9, d10, a10, b9) 38 = (b9, c10, d10, a10) from
    md5_round_step_HH x c9 d10 a10 b9 38 7 MD5_S33 0xf6bb4b60 (by decide) (by decide) (by decide)
      (by decide) (by decide) (by decide)]
  rw [show md5_round_step x (b9, c10, d10, a10) 39 = (a10, b10, c10, d10) from
    md5_round_step_HH x b9 c10 d10 a10 39 10 MD5_S34 0xbebfbc70 (by decide) (by decide) (by decide)
      (by decide) (by decide) (by decide)]
  rw [show md5_round_step x (a10, b10, c10, d10) 40 = (d10, a11, b10, c10) from
    md5_round_step_HH x a10 b10 c10 d10 40 13 MD5_S31 0x289b7ec6 (by decide) (by decide) (by decide)
      (by decide) (by decide) (by decide)]
  rw [show md5_round_step x (d10, a11, b10, c10) 41 = (c10, d11, a11, b10) from
    md5_round_step_HH x d10 a11 b10 c10 41 0 MD5_S32 0xeaa127fa (by decide) (by decide) (by decide)
      (by decide) (by decide) (by decide)]
  rw [show md5_round_step x (c10, d11, a11, b10) 42 = (b10, c11, d11, a11) from
    md5_round_step_HH x c10 d11 a11 b10 42 3 MD5_S33 0xd4ef3085 (by decide) (by decide) (by decide)
      (by decide) (by decide) (by decide)]
  rw [show md5_round_step x (b10, c11, d11, a11) 43 = (a11, b11, c11, d11) from
    md5_round_step_HH x b10 c11 d11 a11 43 6 MD5_S34 0x04881d05 (by decide) (by decide) (by decide)
      (by decide) (by decide) (by decide)]
  rw [show md5_round_step x (a11, b11, c11, d11) 44 = (d11, a12, b11, c11) from
    md5_round_step_HH x a11 b11 c11 d11 44 9 MD5_S31 0xd9d4d039 (by decide) (by decide) (by decide)
      (by decide) (by decide) (by decide)]
  rw [show md5_round_step x (d11, a12, b11, c11) 45 = (c11, d12, a12, b11) from
    md5_round_step_HH x d11 a12 b11 c11 45 12 MD5_S32 0xe6db99e5 (by decide) (by decide) (by decide)
      (by decide) (by decide) (by decide)]
  rw [show md5_round_step x (c11, d12, a12, b11) 46 = (b11, c12, d12, a12) from
    md5_round_step_HH x c11 d12 a12 b11 46 15 MD5_S33 0x1fa27cf8 (by decide) (by decide) (by decide)
      (by decide) (by decide) (by decide)]
  rw [show md5_round_step x (b11, c12, d12, a12) 47 = (a12, b12, c12, d12) from
    md5_round_step_HH x b11 c12 d12 a12 47 2 MD5_S34 0xc4ac5665 (by decide) (by decide) (by decide)
      (by decide) (by decide) (by decide)]
  rw [show md5_round_step x (a12, b12, c12, d12) 48 = (d12, a13, b12, c12) from
    md5_round_step_II x a12 b12 c12 d12 48 0 MD5_S41 0xf4292244 (by decide) (by decide) (by decide)
      (by decide) (by decide) (by decide)]
  rw [show md5_round_step x (d12, a13, b12, c12) 49 = (c12, d13, a13, b12) from
    md5_round_step_II x d12 a13 b12 c12 49 7 MD5_S42 0x432aff97 (by decide) (by decide) (by decide)
      (by decide) (by decide) (by decide)]
  rw [show md5_round_step x (c12, d13, a13, b12) 50 = (b12, c13, d13, a13) from
    md5_round_step_II x c12 d13 a13 b12 50 14 MD5_S43 0xab9423a7 (by decide) (by decide) (by decide)
      (by decide) (by decide) (by decide)]
  rw [show md5_round_step x (b12, c13, d13, a13) 51 = (a13, b13, c13, d13) from
    md5_round_step_II x b12 c13 d13 a13 51 5 MD5_S44 0xfc93a039 (by decide) (by decide) (by decide)
      (by decide) (by decide) (by decide)]
  rw [show md5_round_step x (a13, b13, c13, d13) 52 = (d13, a14, b13, c13) from
    md5_round_step_II x a13 b13 c13 d13 52 12 MD5_S41 0x655b59c3 (by decide) (by decide) (by decide)
      (by decide) (by decide) (by decide)]
  rw [show md5_round_step x (d13, a14, b13, c13) 53 = (c13, d14, a14, b13) from
    md5_round_step_II x d13 a14 b13 c13 53 3 MD5_S42 0x8f0ccc92 (by decide) (by decide) (by decide)
      (by decide) (by decide) (by decide)]
  rw [show md5_round_step x (c13, d14, a14, b13) 54 = (b13, c14, d14, a14) from
    md5_round_step_II x c13 d14 a14 b13 54 10 MD5_S43 0xffeff47d (by decide) (by decide) (by decide)
      (by decide) (by decide) (by decide)]
  rw [show md5_round_step x (b13, c14, d14, a14) 55 = (a14, b14, c14, d14) from
    md5_round_step_II x b13 c14 d14 a14 55 1 MD5_S44 0x85845dd1 (by decide) (by decide) (by decide)
      (by decide) (by decide) (by decide)]
  rw [show md5_round_step x (a14, b14, c14, d14) 56 = (d14, a15, b14, c14) from
    md5_round_step_II x a14 b14 c14 d14 56 8 MD5_S41 0x6fa87e4f (by decide) (by decide) (by decide)
      (by decide) (by decide) (by decide)]
  rw [show md5_round_step x (d14, a15, b14, c14) 57 = (c14, d15, a15, b14) from
    md5_round_step_II x d14 a15 b14 c14 57 15 MD5_S42 0xfe2ce6e0 (by decide) (by decide) (by decide)
      (by decide) (by decide) (by decide)]
  rw [show md5_round_step x (c14, d15, a15, b14) 58 = (b14, c15, d15, a15) from
    md5_round_step_II x c14 d15 a15 b14 58 6 MD5_S43 0xa3014314 (by decide) (by decide) (by decide)
      (by decide) (by decide) (by decide)]
  rw [show md5_round_step x (b14, c15, d15, a15) 59 = (a15, b15, c15, d15) from
    md5_round_step_II x b14 c15 d15 a15 59 13 MD5_S44 0x4e0811a1 (by decide) (by decide) (by decide)
      (by decide) (by decide) (by decide)]
  rw [show md5_round_step x (a15, b15, c15, d15) 60 = (d15, a16, b15, c15) from
    md5_round_step_II x a15 b15 c15 d15 60 4 MD5_S41 0xf7537e82 (by decide) (by decide) (by decide)
      (by decide) (by decide) (by decide)]
  rw [show md5_round_step x (d15, a16, b15, c15) 61 = (c15, d16, a16, b15) from
    md5_round_step_II x d15 a16 b15 c15 61 11 MD5_S42 0xbd3af235 (by decide) (by decide) (by decide)
      (by decide) (by decide) (by decide)]
  rw [show md5_round_step x (c15, d16, a16, b15) 62 = (b15, c16, d16, a16) from
    md5_round_step_II x c15 d16 a16 b15 62 2 MD5_S43 0x2ad7d2bb (by decide) (by decide) (by decide)
      (by decide) (by decide) (by decide)]
  rw [show md5_round_step x (b15, c16, d16, a16) 63 = (a16, b16, c16, d16) from
    md5_round_step_II x b15 c16 d16 a16 63 9 MD5_S44 0xeb86d391 (by decide) (by decide) (by decide)
      (by decide) (by decide) (by decide)]

/-! ## Claims -/

/-- C1: for every list of chunks, `md5_init`, one `md5_update` per chunk and `md5_finalize`
write the digest that `md5` writes for the concatenation of the chunks, and that digest
exists and has 16 bytes. -/
theorem md5_chunk_boundary_independence (ctx0 : md5_context) (chunks : List (List Nat)) :
    md5_chunked ctx0 chunks = md5 (some chunks.flatten) chunks.flatten.length ∧
    ∃ digest, md5 (some chunks.flatten) chunks.flatten.length = some digest ∧
      digest.length = 16 := by
  obtain ⟨ca, a1, a2, a3, a4, a5⟩ :=
    md5_update_spec (md5_init ⟨0, 0, 0, 0, 0, [], 0⟩) chunks.flatten
      (by rw [md5_init_cacheLen]; omega)
  obtain ⟨a6, a7⟩ := a5 (md5_init_cache_length _)
  obtain ⟨cb, b1, b2, b3, b4, b5, b6⟩ :=
    md5_update_chunks_spec chunks (md5_init ctx0) (by rw [md5_init_cacheLen]; omega)
      (md5_init_cache_length _) (by rw [md5_init_sz]; omega)
  have ha : ca.cacheLen < 64 := by rw [a2]; exact Nat.mod_lt _ (by norm_num)
  have hb : cb.cacheLen < 64 := by rw [b2]; exact Nat.mod_lt _ (by norm_num)
  obtain ⟨fa, hfa⟩ := md5_finalize_spec ca ha (by rw [a4]; rfl)
  obtain ⟨fb, hfb⟩ := md5_finalize_spec cb hb b4
  have e1 : md5_regs cb = md5_regs ca := by rw [b5, a6]; rfl
  have e2 : md5_pending cb = md5_pending ca := by rw [b6, a7]; rfl
  have e3 : cb.sz = ca.sz := by rw [b3, a3]; rfl
  rw [e1, e2, e3] at hfb
  constructor
  · simp only [md5_chunked, md5, b1, a1, hfa, hfb]
  · refine ⟨md5_serialise (List.foldl md5_compress (md5_regs ca)
      (md5_padding_blocks (md5_pending ca) ca.sz)), ?_, md5_serialise_length _⟩
    simp only [md5, a1, hfa]

/-- C2: for every byte sequence `S` shorter than `2^29` bytes, `md5` writes the RFC 1321
reference digest of `S` (the compression function folded from the four initial constants
over the 64-byte blocks of the padded message, serialised least significant byte first);
the padded message is a whole number of blocks and its zero bytes are the fewest that make
the length 56 modulo 64 before the length field. -/
theorem md5_eq_rfc1321 (S : List Nat) (h : S.length < 536870912) :
    md5 (some S) S.length = some (rfc1321_md5 S) ∧
    (rfc1321_pad S).length % 64 = 0 ∧
    (S.length + 1 + rfc1321_zeros S.length) % 64 = 56 ∧
    (∀ z, (S.length + 1 + z) % 64 = 56 → rfc1321_zeros S.length ≤ z) := by
  obtain ⟨z1, z2⟩ := rfc1321_zeros_least S.length
  refine ⟨?_, ?_, z1, z2⟩
  · obtain ⟨ca, a1, a2, a3, a4, a5⟩ :=
      md5_update_spec (md5_init ⟨0, 0, 0, 0, 0, [], 0⟩) S (by rw [md5_init_cacheLen]; omega)
    obtain ⟨a6, a7⟩ := a5 (md5_init_cache_length _)
    rw [md5_init_regs, md5_init_pending, List.nil_append] at a6
    rw [md5_init_pending, List.nil_append] at a7
    rw [md5_init_sz] at a3
    have hsz : ca.sz = S.length := by rw [a3]; unfold u64; omega
    have ha : ca.cacheLen < 64 := by rw [a2]; exact Nat.mod_lt _ (by norm_num)
    obtain ⟨fa, hfa⟩ := md5_finalize_spec ca ha (by rw [a4]; rfl)
    obtain ⟨s1, -⟩ := md5_stream_append
      ([0x80] ++ List.replicate (rfc1321_zeros S.length) 0 ++ le64 (8 * S.length))
      S.length S rfc1321_initial (le_refl _)
    have hpad : rfc1321_pad S =
        S ++ ([0x80] ++ List.replicate (rfc1321_zeros S.length) 0 ++ le64 (8 * S.length)) := by
      simp only [rfc1321_pad, List.append_assoc]
    simp only [md5, a1, hfa]
    rw [rfc1321_md5_eq, hpad, ← s1,
      md5_stream_regs_padding _ _ S.length (md5_stream_rest_length S) h, a6, a7, hsz]
  · simp only [rfc1321_pad, List.length_append, List.length_replicate, List.length_singleton,
      le64, List.length_map, List.length_range]
    omega

set_option maxRecDepth 100000 in
/-- Witness of C2: the test strings of `md5_test.c`; for each, `md5` writes the reference
digest, and the first and the third reference digests are evaluated. -/
theorem md5_eq_rfc1321_witness :
    md5 (some (bytes_of "")) (bytes_of "").length = some (rfc1321_md5 (bytes_of "")) ∧
    md5 (some (bytes_of "a")) (bytes_of "a").length = some (rfc1321_md5 (bytes_of "a")) ∧
    md5 (some (bytes_of "abc")) (bytes_of "abc").length
      = some (rfc1321_md5 (bytes_of "abc")) ∧
    md5 (some (bytes_of "message digest")) (bytes_of "message digest").length
      = some (rfc1321_md5 (bytes_of "message digest")) ∧
    md5 (some (bytes_of "abcdefghijklmnopqrstuvwxyz"))
        (bytes_of "abcdefghijklmnopqrstuvwxyz").length
      = some (rfc1321_md5 (bytes_of "abcdefghijklmnopqrstuvwxyz")) ∧
    rfc1321_md5 (bytes_of "") =
      [0xd4, 0x1d, 0x8c, 0xd9, 0x8f, 0x00, 0xb2, 0x04, 0xe9, 0x80, 0x09, 0x98, 0xec, 0xf8,
        0x42, 0x7e] ∧
    rfc1321_md5 (bytes_of "abc") =
      [0x90, 0x01, 0x50, 0x98, 0x3c, 0xd2, 0x4f, 0xb0, 0xd6, 0x96, 0x3f, 0x7d, 0x28, 0xe1,
        0x7f, 0x72] :=
  ⟨(md5_eq_rfc1321 (bytes_of "") (by decide)).1,
   (md5_eq_rfc1321 (bytes_of "a") (by decide)).1,
   (md5_eq_rfc1321 (bytes_of "abc") (by decide)).1,
   (md5_eq_rfc1321 (bytes_of "message digest") (by decide)).1,
   (md5_eq_rfc1321 (bytes_of "abcdefghijklmnopqrstuvwxyz") (by decide)).1,
   by decide, by decide⟩

set_option maxRecDepth 100000 in
/-- C3: `md5` followed by `md5_format` into the 33-byte buffer `hashStr` of `do_test`,
whatever the buffer held before, leaves in it the expected string of the RFC 1321 test
suite and its terminator, for each of the seven test strings of `md5_test.c`. -/
theorem md5_test_suite (hashStr : List Nat) (hlen : hashStr.length = 33) :
    do_test_hashStr hashStr ""
      = some (bytes_of "d41d8cd98f00b204e9800998ecf8427e" ++ [0]) ∧
    do_test_hashStr hashStr "a"
      = some (bytes_of "0cc175b9c0f1b6a831c399e269772661" ++ [0]) ∧
    do_test_hashStr hashStr "abc"
      = some (bytes_of "900150983cd24fb0d6963f7d28e17f72" ++ [0]) ∧
    do_test_hashStr hashStr "message digest"
      = some (bytes_of "f96b697d7cb7938d525a2f31aaf161d0" ++ [0]) ∧
    do_test_hashStr hashStr "abcdefghijklmnopqrstuvwxyz"
      = some (bytes_of "c3fcd3d76192e4007dfb496cca67e13b" ++ [0]) ∧
    do_test_hashStr hashStr "ABCDEFGHIJKLMNOPQRSTUVWXYZabcdefghijklmnopqrstuvwxyz0123456789"
      = some (bytes_of "d174ab98d277d9f5a5611c2c9f419d9f" ++ [0]) ∧
    do_test_hashStr hashStr "12345678901234567890123456789012345678901234567890123456789012345678901234567890"
      = some (bytes_of "57edf4a22be3c955ac49da2e2107b67a" ++ [0]) := by
  refine ⟨?_, ?_, ?_, ?_, ?_, ?_, ?_⟩
  · rw [do_test_hashStr_eq hashStr hlen ""
      [0xd4, 0x1d, 0x8c, 0xd9, 0x8f, 0x00, 0xb2, 0x04, 0xe9, 0x80, 0x09, 0x98, 0xec, 0xf8, 0x42, 0x7e]
      (by decide) (by decide) (by decide)]
    decide
  · rw [do_test_hashStr_eq hashStr hlen "a"
      [0x0c, 0xc1, 0x75, 0xb9, 0xc0, 0xf1, 0xb6, 0xa8, 0x31, 0xc3, 0x99, 0xe2, 0x69, 0x77, 0x26, 0x61]
      (by decide) (by decide) (by decide)]
    decide
  · rw [do_test_hashStr_eq hashStr hlen "abc"
      [0x90, 0x01, 0x50, 0x98, 0x3c, 0xd2, 0x4f, 0xb0, 0xd6, 0x96, 0x3f, 0x7d, 0x28, 0xe1, 0x7f, 0x72]
      (by decide) (by decide) (by decide)]
    decide
  · rw [do_test_hashStr_eq hashStr hlen "message digest"
      [0xf9, 0x6b, 0x69, 0x7d, 0x7c, 0xb7, 0x93, 0x8d, 0x52, 0x5a, 0x2f, 0x31, 0xaa, 0xf1, 0x61, 0xd0]
      (by decide) (by decide) (by decide)]
    decide
  · rw [do_test_hashStr_eq hashStr hlen "abcdefghijklmnopqrstuvwxyz"
      [0xc3, 0xfc, 0xd3, 0xd7, 0x61, 0x92, 0xe4, 0x00, 0x7d, 0xfb, 0x49, 0x6c, 0xca, 0x67, 0xe1, 0x3b]
      (by decide) (by decide) (by decide)]
    decide
  · rw [do_test_hashStr_eq hashStr hlen "ABCDEFGHIJKLMNOPQRSTUVWXYZabcdefghijklmnopqrstuvwxyz0123456789"
      [0xd1, 0x74, 0xab, 0x98, 0xd2, 0x77, 0xd9, 0xf5, 0xa5, 0x61, 0x1c, 0x2c, 0x9f, 0x41, 0x9d, 0x9f]
      (by decide) (by decide) (by decide)]
    decide
  · rw [do_test_hashStr_eq hashStr hlen "12345678901234567890123456789012345678901234567890123456789012345678901234567890"
      [0x57, 0xed, 0xf4, 0xa2, 0x2b, 0xe3, 0xc9, 0x55, 0xac, 0x49, 0xda, 0x2e, 0x21, 0x07, 0xb6, 0x7a]
      (by decide) (by decide) (by decide)]
    decide

/-- Witness of C3: a buffer of 33 zero bytes. -/
theorem md5_test_suite_witness :
    do_test_hashStr (List.replicate 33 0) "abc"
      = some (bytes_of "900150983cd24fb0d6963f7d28e17f72" ++ [0]) ∧
    do_test_hashStr (List.replicate 33 0) "message digest"
      = some (bytes_of "f96b697d7cb7938d525a2f31aaf161d0" ++ [0]) :=
  ⟨(md5_test_suite (List.replicate 33 0) (by decide)).2.2.1,
   (md5_test_suite (List.replicate 33 0) (by decide)).2.2.2.1⟩

/-- C4, evaluated where it fails: with a byte counter of `2^29` the bit length is `2^32`,
whose 64-bit little-endian form has byte 60 equal to 1, but the block `md5_finalize`
compresses has zero in all of bytes 56 to 63. -/
theorem md5_finalize_length_field_at_2pow29 :
    (md5_finalize ⟨0x67452301, 0xefcdab89, 0x98badcfe, 0x10325476, 536870912,
        List.replicate 64 0, 0⟩).map (fun r => r.1.cache.drop 56)
      = some [0, 0, 0, 0, 0, 0, 0, 0] ∧
    le64 (u64 (536870912 * 8)) = [0, 0, 0, 0, 1, 0, 0, 0] := by
  decide

/-- C5: from a context with `n = cacheLen < 64`, `md5_finalize` hands to `md5_update_block`
exactly one block when `n ≤ 55`, namely the `n` valid cache bytes, `0x80`, `55 - n` zero
bytes and the eight length bytes, and exactly two blocks when `56 ≤ n`, namely the valid
bytes, `0x80` and `63 - n` zero bytes, then 56 zero bytes and the eight length bytes; the
registers are compressed with these blocks in this order and the last block is left in the
cache.  For whole messages: 55 bytes give one block in `md5_finalize`, 56 or 63 bytes give
two, and 64 bytes are finalised from an empty cache with the single padding block. -/
theorem md5_finalize_padding_layout :
    (∀ ctx : md5_context, ctx.cacheLen < 64 → ctx.cache.length = 64 →
      ∃ final digest log, md5_finalize_log ctx = some (final, digest, log) ∧
        md5_finalize ctx = some (final, digest) ∧
        (ctx.cacheLen ≤ 55 →
          log = [md5_pending ctx ++ [0x80] ++ List.replicate (55 - ctx.cacheLen) 0
            ++ md5_length_bytes ctx.sz] ∧
          md5_regs final = md5_compress (md5_regs ctx)
            (md5_pending ctx ++ [0x80] ++ List.replicate (55 - ctx.cacheLen) 0
              ++ md5_length_bytes ctx.sz) ∧
          final.cache = md5_pending ctx ++ [0x80] ++ List.replicate (55 - ctx.cacheLen) 0
            ++ md5_length_bytes ctx.sz) ∧
        (56 ≤ ctx.cacheLen →
          log = [md5_pending ctx ++ [0x80] ++ List.replicate (63 - ctx.cacheLen) 0,
            List.replicate 56 0 ++ md5_length_bytes ctx.sz] ∧
          md5_regs final = md5_compress (md5_compress (md5_regs ctx)
              (md5_pending ctx ++ [0x80] ++ List.replicate (63 - ctx.cacheLen) 0))
            (List.replicate 56 0 ++ md5_length_bytes ctx.sz) ∧
          final.cache = List.replicate 56 0 ++ md5_length_bytes ctx.sz)) ∧
    (∀ (ctx0 : md5_context) (S : List Nat),
      ∃ ctx1 final digest log, md5_update (md5_init ctx0) (some S) S.length = some ctx1 ∧
        md5_finalize_log ctx1 = some (final, digest, log) ∧
        (S.length = 55 → md5_regs ctx1 = rfc1321_initial ∧ log.length = 1) ∧
        (S.length = 56 ∨ S.length = 63 → md5_regs ctx1 = rfc1321_initial ∧ log.length = 2) ∧
        (S.length = 64 → ctx1.cacheLen = 0 ∧ md5_regs ctx1 = md5_compress rfc1321_initial S ∧
          log = [[0x80] ++ List.replicate 55 0 ++ md5_length_bytes 64])) := by
  constructor
  · intro ctx hn hlen
    obtain ⟨final, h1, h2, h3⟩ := md5_finalize_log_spec ctx hn hlen
    have hp := md5_pending_length ctx (by omega)
    refine ⟨final, _, _, h1, by simp only [md5_finalize, h1], ?_, ?_⟩
    · intro h
      have hpb : md5_padding_blocks (md5_pending ctx) ctx.sz =
          [md5_pending ctx ++ [0x80] ++ List.replicate (55 - ctx.cacheLen) 0
            ++ md5_length_bytes ctx.sz] := by
        simp only [md5_padding_blocks, hp, if_pos h]
      rw [hpb] at h2 h3 ⊢
      simp only [List.getLast?_singleton, Option.some.injEq] at h3
      exact ⟨rfl, h2, h3.symm⟩
    · intro h
      have hpb : md5_padding_blocks (md5_pending ctx) ctx.sz =
          [md5_pending ctx ++ [0x80] ++ List.replicate (63 - ctx.cacheLen) 0,
            List.replicate 56 0 ++ md5_length_bytes ctx.sz] := by
        simp only [md5_padding_blocks, hp, if_neg (show ¬ ctx.cacheLen ≤ 55 by omega)]
      rw [hpb] at h2 h3 ⊢
      have h3' : some (List.replicate 56 0 ++ md5_length_bytes ctx.sz) = some final.cache := h3
      simp only [Option.some.injEq] at h3'
      exact ⟨rfl, h2, h3'.symm⟩
  · intro ctx0 S
    obtain ⟨ca, a1, a2, a3, a4, a5⟩ :=
      md5_update_spec (md5_init ctx0) S (by rw [md5_init_cacheLen]; omega)
    obtain ⟨a6, a7⟩ := a5 (md5_init_cache_length _)
    rw [md5_init_regs, md5_init_pending, List.nil_append] at a6
    rw [md5_init_pending, List.nil_append] at a7
    rw [md5_init_sz] at a3
    rw [md5_init_cacheLen] at a2
    have ha : ca.cacheLen < 64 := by rw [a2]; exact Nat.mod_lt _ (by norm_num)
    obtain ⟨final, h1, -, -⟩ := md5_finalize_log_spec ca ha (by rw [a4]; rfl)
    have hp := md5_pending_length ca (by rw [a4, md5_init_cache_length]; omega)
    refine ⟨ca, final, _, _, a1, h1, ?_, ?_, ?_⟩
    · intro h
      rw [a6, md5_stream_regs_short _ _ (by omega)]
      refine ⟨rfl, ?_⟩
      simp only [md5_padding_blocks, hp, a2]
      rw [if_pos (by omega)]
      rfl
    · intro h
      rw [a6, md5_stream_regs_short _ _ (by omega)]
      refine ⟨rfl, ?_⟩
      simp only [md5_padding_blocks, hp, a2]
      rw [if_neg (by omega)]
      rfl
    · intro h
      have e0 : ca.cacheLen = 0 := by rw [a2]; omega
      have ep : md5_pending ca = [] := by unfold md5_pending; rw [e0]; rfl
      refine ⟨e0, ?_, ?_⟩
      · rw [a6, md5_stream_regs_one_block _ _ h]
      · rw [ep, a3, h]
        rfl

/-- Witness of C5: the context `md5_init` leaves (one block), a context with 60 valid cache
bytes (two blocks), and a message of 64 bytes. -/
theorem md5_finalize_padding_layout_witness :
    (∃ final digest log,
      md5_finalize_log (md5_init ⟨0, 0, 0, 0, 0, [], 0⟩) = some (final, digest, log) ∧
      log = [[] ++ [0x80] ++ List.replicate 55 0 ++ md5_length_bytes 0]) ∧
    (∃ final digest log,
      md5_finalize_log ⟨1, 2, 3, 4, 60, List.replicate 64 5, 60⟩ = some (final, digest, log) ∧
      log = [List.replicate 60 5 ++ [0x80] ++ List.replicate 3 0,
        List.replicate 56 0 ++ md5_length_bytes 60]) ∧
    (∃ ctx1 final digest log,
      md5_update (md5_init ⟨0, 0, 0, 0, 0, [], 0⟩) (some (List.replicate 64 9))
        (List.replicate 64 9).length = some ctx1 ∧
      md5_finalize_log ctx1 = some (final, digest, log) ∧ ctx1.cacheLen = 0 ∧
      log = [[0x80] ++ List.replicate 55 0 ++ md5_length_bytes 64]) := by
  refine ⟨?_, ?_, ?_⟩
  · obtain ⟨final, digest, log, h1, -, h3, -⟩ :=
      md5_finalize_padding_layout.1 (md5_init ⟨0, 0, 0, 0, 0, [], 0⟩) (by decide) (by decide)
    exact ⟨final, digest, log, h1, (h3 (by decide)).1⟩
  · obtain ⟨final, digest, log, h1, -, -, h4⟩ :=
      md5_finalize_padding_layout.1 ⟨1, 2, 3, 4, 60, List.replicate 64 5, 60⟩ (by decide)
        (by decide)
    exact ⟨final, digest, log, h1, (h4 (by decide)).1⟩
  · obtain ⟨ctx1, final, digest, log, h1, h2, -, -, h5⟩ :=
      md5_finalize_padding_layout.2 ⟨0, 0, 0, 0, 0, [], 0⟩ (List.replicate 64 9)
    exact ⟨ctx1, final, digest, log, h1, h2, (h5 (by decide)).1, (h5 (by decide)).2.2⟩

/-- C6: whenever `md5_finalize` completes, which it does from every context with
`cacheLen ≤ 64`, the digest has exactly 16 bytes, byte `4k + j` of it is byte `j` (least
significant first) of register number `k` in the order A, B, C, D of the final context, that
context is the result of the last compression, and decoding the digest as four little-endian
32-bit words gives back the four registers. -/
theorem md5_finalize_digest_serialisation (ctx : md5_context) :
    (ctx.cacheLen ≤ 64 → ∃ r, md5_finalize ctx = some r) ∧
    ∀ (final : md5_context) (digest : List Nat), md5_finalize ctx = some (final, digest) →
      (∃ p : md5_context, final = md5_update_block p p.cache) ∧
      digest.length = 16 ∧
      (∀ k j, k < 4 → j < 4 →
        digest[4 * k + j]? =
          some ([final.a, final.b, final.c, final.d].getD k 0 / 256 ^ j % 256)) ∧
      digest_words digest = [final.a, final.b, final.c, final.d] := by
  refine ⟨md5_finalize_isSome ctx, ?_⟩
  intro final digest h
  have hlog : ∃ log, md5_finalize_log ctx = some (final, digest, log) := by
    unfold md5_finalize at h
    split at h
    · exact absurd h (by simp)
    · next c1 d1 l1 heq =>
      simp only [Option.some.injEq, Prod.mk.injEq] at h
      exact ⟨l1, by rw [heq, h.1, h.2]⟩
  obtain ⟨log, hlog⟩ := hlog
  obtain ⟨⟨p, hp⟩, hd⟩ := md5_finalize_log_shape ctx final digest log hlog
  have hlt := md5_update_block_regs_lt p p.cache
  rw [← hp] at hlt
  obtain ⟨ha, hb, hc, hd'⟩ := hlt
  refine ⟨⟨p, hp⟩, ?_, ?_, ?_⟩
  · rw [hd]; rfl
  · intro k j hk hj
    rw [hd, md5_write_digest_eq]
    have hk' : k = 0 ∨ k = 1 ∨ k = 2 ∨ k = 3 := by omega
    have hj' : j = 0 ∨ j = 1 ∨ j = 2 ∨ j = 3 := by omega
    rcases hk' with rfl | rfl | rfl | rfl <;> rcases hj' with rfl | rfl | rfl | rfl <;>
      simp [md5_serialise, md5_regs, le32]
  · rw [hd, md5_write_digest_eq]
    simp only [digest_words, md5_serialise, md5_regs, List.append_assoc]
    have e1 : ∀ (v : Nat) (X : List Nat), (le32 v ++ X).take 4 = le32 v := by
      intro v X; exact List.take_left' rfl
    have e2 : ∀ (v : Nat) (X : List Nat), (le32 v ++ X).drop 4 = X := by
      intro v X; exact List.drop_left' rfl
    have e3 : ∀ (v w : Nat) (X : List Nat), (le32 v ++ (le32 w ++ X)).drop 8 = X := by
      intro v w X
      have : (8 : Nat) = 4 + 4 := rfl
      rw [this, ← List.drop_drop, e2, e2]
    have e4 : ∀ (u v w : Nat) (X : List Nat),
        (le32 u ++ (le32 v ++ (le32 w ++ X))).drop 12 = X := by
      intro u v w X
      have : (12 : Nat) = 4 + 8 := rfl
      rw [this, ← List.drop_drop, e2, e3]
    have e5 : ∀ v : Nat, (le32 v).take 4 = le32 v := by intro v; rfl
    rw [e1, e2, e1, e3, e1, e4, e5, le_value_le32 _ ha, le_value_le32 _ hb,
      le_value_le32 _ hc, le_value_le32 _ hd']

/-- Witness of C6: `md5_finalize` on the context `md5_init` leaves, whose `cacheLen` is 0. -/
theorem md5_finalize_digest_serialisation_witness :
    (md5_init ⟨0, 0, 0, 0, 0, [], 0⟩).cacheLen ≤ 64 ∧
    ∃ r, md5_finalize (md5_init ⟨0, 0, 0, 0, 0, [], 0⟩) = some r ∧
      r.2.length = 16 ∧ digest_words r.2 = [r.1.a, r.1.b, r.1.c, r.1.d] := by
  have h := md5_finalize_digest_serialisation (md5_init ⟨0, 0, 0, 0, 0, [], 0⟩)
  obtain ⟨r, hr⟩ := h.1 (by decide)
  obtain ⟨-, h2, -, h4⟩ := h.2 r.1 r.2 hr
  exact ⟨by decide, r, hr, h2, h4⟩

/-- C7: whatever the context held before, after `md5_init` the registers are the four
constants of RFC 1321, the byte counter is 0, `cacheLen` is 0 and the cache is 64 zero
bytes; two prior contents give the same context. -/
theorem md5_init_postcondition (ctx0 ctx0' : md5_context) :
    (md5_init ctx0).a = 0x67452301 ∧ (md5_init ctx0).b = 0xefcdab89 ∧
    (md5_init ctx0).c = 0x98badcfe ∧ (md5_init ctx0).d = 0x10325476 ∧
    (md5_init ctx0).sz = 0 ∧ (md5_init ctx0).cacheLen = 0 ∧
    (md5_init ctx0).cache = List.replicate 64 0 ∧
    md5_init ctx0 = md5_init ctx0' :=
  ⟨rfl, rfl, rfl, rfl, rfl, rfl, rfl, rfl⟩

/-- C8: `md5_init` yields `cacheLen = 0`; from a context with `cacheLen < 64`, `md5_update`
on a chunk of length `n` returns a context with `cacheLen = (cacheLen + n) mod 64 < 64`; and
in every context reachable from `md5_init` by `md5_update` calls `cacheLen < 64`, so the
test for an exactly full cache at the start of `md5_finalize` fails and its flush is not
taken. -/
theorem md5_buffer_length_invariant :
    (∀ ctx0 : md5_context, (md5_init ctx0).cacheLen = 0) ∧
    (∀ (ctx : md5_context) (chunk : List Nat), ctx.cacheLen < 64 →
      ∃ ctx1, md5_update ctx (some chunk) chunk.length = some ctx1 ∧
        ctx1.cacheLen = (ctx.cacheLen + chunk.length) % 64 ∧ ctx1.cacheLen < 64) ∧
    (∀ ctx : md5_context, md5_reachable ctx →
      ctx.cacheLen < 64 ∧ md5_finalize_cache_full ctx = false ∧
        md5_finalize_flush ctx = (ctx, [])) := by
  refine ⟨md5_init_cacheLen, ?_, ?_⟩
  · intro ctx chunk hc
    obtain ⟨ctx1, h1, h2, -⟩ := md5_update_spec ctx chunk hc
    exact ⟨ctx1, h1, h2, by rw [h2]; exact Nat.mod_lt _ (by norm_num)⟩
  · intro ctx hr
    have h := md5_reachable_cacheLen_lt ctx hr
    exact ⟨h, md5_finalize_cache_full_of_lt ctx h, md5_finalize_flush_of_lt ctx h⟩

/-- Witness of C8: the context after `md5_init` and one `md5_update` with 70 bytes. -/
theorem md5_buffer_length_invariant_witness :
    (md5_init ⟨1, 2, 3, 4, 5, [6], 7⟩).cacheLen < 64 ∧
    (∃ ctx1, md5_update (md5_init ⟨1, 2, 3, 4, 5, [6], 7⟩) (some (List.replicate 70 9))
        (List.replicate 70 9).length = some ctx1 ∧
      ctx1.cacheLen = ((md5_init ⟨1, 2, 3, 4, 5, [6], 7⟩).cacheLen
        + (List.replicate 70 9).length) % 64 ∧ ctx1.cacheLen < 64) ∧
    md5_finalize_cache_full (md5_init ⟨1, 2, 3, 4, 5, [6], 7⟩) = false :=
  ⟨by decide,
   md5_buffer_length_invariant.2.1 (md5_init ⟨1, 2, 3, 4, 5, [6], 7⟩) (List.replicate 70 9)
     (by decide),
   (md5_buffer_length_invariant.2.2 (md5_init ⟨1, 2, 3, 4, 5, [6], 7⟩)
     (md5_reachable.init _)).2.1⟩

/-- C9: with a capacity of at least 33 (and a destination at least that long), a 16-byte
digest `h` is rendered as 32 characters followed by a terminator at index 32; character `2i`
is the lowercase hex digit of the high nibble of `h[i]` and character `2i+1` that of the low
nibble; each of the 32 characters is one of `0123456789abcdef` (so none is a terminator);
parsing them as hex gives back `h`; the bytes after index 32 are not written. -/
theorem md5_format_spec (dst : List Nat) (dstCap : Nat) (h : List Nat) (hcap : 33 ≤ dstCap)
    (hdst : dstCap ≤ dst.length) (hh : h.length = 16) (hb : ∀ b ∈ h, b < 256) :
    ∃ out, md5_format dst dstCap h = some out ∧ out.length = dst.length ∧
      out[32]? = some 0 ∧
      (∀ i, i < 16 → out[2 * i]? = some (hex_digit (h.getD i 0 / 16)) ∧
        out[2 * i + 1]? = some (hex_digit (h.getD i 0 % 16))) ∧
      (∀ j, j < 32 → ∃ c, out[j]? = some c ∧ c ∈ md5_hex ∧ c ≠ 0) ∧
      out.take 32 = hex_encode h ∧
      parse_hex (out.take 32) = some h ∧
      (∀ j, 33 ≤ j → out[j]? = dst[j]?) := by
  have hget := md5_format_getElem? dst h (by omega)
  have htake := md5_format_take dst h (by omega) hh hb
  refine ⟨_, md5_format_ok dst dstCap h hcap hdst (by omega), ?_, ?_, ?_, ?_, htake, ?_, ?_⟩
  · rw [List.length_set, md5_format_loop_length]
  · rw [hget, if_neg (by omega), if_pos rfl]
  · intro i hi
    constructor
    · rw [hget, if_pos (by omega), md5_format_char h hb]
      have e1 : (2 * i) % 2 = 0 := by omega
      have e2 : (2 * i) / 2 = i := by omega
      rw [if_pos e1, e2]
    · rw [hget, if_pos (by omega), md5_format_char h hb]
      have e1 : ¬ (2 * i + 1) % 2 = 0 := by omega
      have e2 : (2 * i + 1) / 2 = i := by omega
      rw [if_neg e1, e2]
  · intro j hj
    refine ⟨_, by rw [hget, if_pos hj], ?_⟩
    rw [md5_format_char h hb]
    have hlt := md5_getD_lt h hb (j / 2)
    apply hex_digit_mem
    split <;> omega
  · rw [htake]
    exact parse_hex_encode h hb
  · intro j hj
    rw [hget, if_neg (by omega), if_neg (by omega)]

/-- Witness of C9: the digest of the empty message formatted into a 33-byte buffer. -/
theorem md5_format_spec_witness :
    ∃ out, md5_format (List.replicate 33 7) 33
        [0xd4, 0x1d, 0x8c, 0xd9, 0x8f, 0x00, 0xb2, 0x04, 0xe9, 0x80, 0x09, 0x98, 0xec, 0xf8,
          0x42, 0x7e] = some out ∧
      out.take 32 = bytes_of "d41d8cd98f00b204e9800998ecf8427e" ∧ out[32]? = some 0 := by
  obtain ⟨out, h1, -, h3, -, -, h6, -, -⟩ := md5_format_spec (List.replicate 33 7) 33
    [0xd4, 0x1d, 0x8c, 0xd9, 0x8f, 0x00, 0xb2, 0x04, 0xe9, 0x80, 0x09, 0x98, 0xec, 0xf8,
      0x42, 0x7e] (by decide) (by decide) (by decide) (by decide)
  exact ⟨out, h1, by rw [h6]; decide, h3⟩

/-- C10, where it fails: with a capacity of 0 `md5_format` writes nothing, so the destination
holds no terminator at index 0. -/
theorem md5_format_capacity_zero_no_terminator :
    md5_format [65] 0 (List.replicate 16 0) = some [65] ∧
    ¬ ∃ out, md5_format [65] 0 (List.replicate 16 0) = some out ∧ out[0]? = some 0 := by
  refine ⟨rfl, ?_⟩
  rintro ⟨out, h1, h2⟩
  have h3 : md5_format [65] 0 (List.replicate 16 0) = some [65] := rfl
  rw [h3] at h1
  simp only [Option.some.injEq] at h1
  rw [← h1] at h2
  simp at h2

/-- C10, amended: for every capacity below 33 (the destination being at least that long) and
every digest, `md5_format` returns having written no byte at index 1 or above, hence none at
or above the capacity and no hex character; with a capacity of at least 1 the only write is
the terminator at index 0, and with a capacity of 0 nothing is written. -/
theorem md5_format_insufficient_capacity (dst : List Nat) (dstCap : Nat) (h : List Nat)
    (hcap : dstCap < 33) (hdst : dstCap ≤ dst.length) :
    ∃ out, md5_format dst dstCap h = some out ∧ out.length = dst.length ∧
      (0 < dstCap → out = dst.set 0 0 ∧ out[0]? = some 0) ∧
      (dstCap = 0 → out = dst) ∧
      (∀ j, 1 ≤ j → out[j]? = dst[j]?) ∧
      (∀ j, dstCap ≤ j → out[j]? = dst[j]?) := by
  by_cases h0 : 0 < dstCap
  · have hm : md5_format dst dstCap h = some (dst.set 0 0) := by
      unfold md5_format
      rw [if_pos hcap, if_pos h0, if_pos (by omega)]
    refine ⟨_, hm, by rw [List.length_set], ?_, ?_, ?_, ?_⟩
    · intro _
      refine ⟨rfl, ?_⟩
      rw [List.getElem?_set, if_pos rfl, if_pos (by omega)]
    · intro hc; omega
    · intro j hj
      rw [List.getElem?_set, if_neg (by omega)]
    · intro j hj
      rw [List.getElem?_set, if_neg (by omega)]
  · have hm : md5_format dst dstCap h = some dst := by
      unfold md5_format
      rw [if_pos hcap, if_neg h0]
    refine ⟨_, hm, rfl, ?_, ?_, ?_, ?_⟩
    · intro hc; omega
    · intro _; rfl
    · intro j _; rfl
    · intro j _; rfl

/-- Witness of amended C10: a 10-byte destination with capacity 10. -/
theorem md5_format_insufficient_capacity_witness :
    ∃ out, md5_format (List.replicate 10 7) 10 (List.replicate 16 255) = some out ∧
      out = (List.replicate 10 7).set 0 0 ∧ out[0]? = some 0 := by
  obtain ⟨out, h1, -, h3, -, -, -⟩ := md5_format_insufficient_capacity (List.replicate 10 7) 10
    (List.replicate 16 255) (by decide) (by decide)
  exact ⟨out, h1, (h3 (by decide)).1, (h3 (by decide)).2⟩

/-- C11: `md5_update` with length 0, with a present or an absent source, returns at once and
leaves the registers, `cacheLen` and the cache unchanged and the byte counter equal to its
value modulo `2^64`; so for a counter below `2^64`, as every `unsigned long long` is, the
whole context is unchanged. -/
theorem md5_update_zero_length (ctx : md5_context) (src : Option (List Nat)) :
    (∃ ctx1, md5_update ctx src 0 = some ctx1 ∧ ctx1.a = ctx.a ∧ ctx1.b = ctx.b ∧
      ctx1.c = ctx.c ∧ ctx1.d = ctx.d ∧ ctx1.cacheLen = ctx.cacheLen ∧
      ctx1.cache = ctx.cache ∧ ctx1.sz = ctx.sz % 18446744073709551616) ∧
    (ctx.sz < 18446744073709551616 → md5_update ctx src 0 = some ctx) := by
  have h : md5_update ctx src 0 = some { ctx with sz := u64 (ctx.sz + 0) } := by
    cases src with
    | none => rfl
    | some bytes => rfl
  refine ⟨⟨_, h, rfl, rfl, rfl, rfl, rfl, rfl, rfl⟩, ?_⟩
  intro hsz
  rw [h]
  have e : u64 (ctx.sz + 0) = ctx.sz := by unfold u64; omega
  rw [e]

/-- Witness of C11: a zero-length update of a context holding three cached bytes, with a
present and with an absent source. -/
theorem md5_update_zero_length_witness :
    md5_update ⟨1, 2, 3, 4, 3, List.replicate 64 5, 3⟩ (some [7, 8]) 0
      = some ⟨1, 2, 3, 4, 3, List.replicate 64 5, 3⟩ ∧
    md5_update ⟨1, 2, 3, 4, 3, List.replicate 64 5, 3⟩ none 0
      = some ⟨1, 2, 3, 4, 3, List.replicate 64 5, 3⟩ :=
  ⟨(md5_update_zero_length ⟨1, 2, 3, 4, 3, List.replicate 64 5, 3⟩ (some [7, 8])).2
      (by decide),
   (md5_update_zero_length ⟨1, 2, 3, 4, 3, List.replicate 64 5, 3⟩ none).2 (by decide)⟩

/-- C12: `md5_update` with an absent source and a length `n > 0` returns, and returns the
context it was given: no field changes, and the byte counter is not advanced by `n`. -/
theorem md5_update_null_source (ctx : md5_context) (n : Nat) (hn : 0 < n) :
    md5_update ctx none n = some ctx ∧
    ∀ ctx1, md5_update ctx none n = some ctx1 → ctx1.sz = ctx.sz := by
  have h : md5_update ctx none n = some ctx := by
    unfold md5_update
    rw [if_pos hn]
  refine ⟨h, ?_⟩
  intro ctx1 h1
  rw [h] at h1
  simp only [Option.some.injEq] at h1
  rw [← h1]

/-- Witness of C12: an absent source with length 5. -/
theorem md5_update_null_source_witness :
    md5_update ⟨1, 2, 3, 4, 3, List.replicate 64 5, 3⟩ none 5
      = some ⟨1, 2, 3, 4, 3, List.replicate 64 5, 3⟩ :=
  (md5_update_null_source ⟨1, 2, 3, 4, 3, List.replicate 64 5, 3⟩ 5 (by decide)).1

/-- C13: after `md5_init` and one `md5_update` per chunk, with `S` the concatenation of the
chunks, the registers are the fold of the compression function from the initial constants
over the first `|S| / 64` 64-byte blocks of `S`, `cacheLen = |S| mod 64`, `cache[0..cacheLen)`
is the last `|S| mod 64` bytes of `S`, and the byte counter is `|S| mod 2^64`; and every
`md5_update` call from a context with `cacheLen < 64` advances the byte counter by exactly
the chunk length modulo `2^64`. -/
theorem md5_stream_state (ctx0 : md5_context) (chunks : List (List Nat)) :
    (∃ ctx, md5_update_chunks (md5_init ctx0) chunks = some ctx ∧
      md5_regs ctx =
        md5_fold_blocks (chunks.flatten.length / 64) rfc1321_initial chunks.flatten ∧
      ctx.cacheLen = chunks.flatten.length % 64 ∧
      ctx.cache.take ctx.cacheLen =
        chunks.flatten.drop (chunks.flatten.length - chunks.flatten.length % 64) ∧
      ctx.sz = chunks.flatten.length % 18446744073709551616) ∧
    (∀ (ctx : md5_context) (chunk : List Nat), ctx.cacheLen < 64 →
      ∃ ctx1, md5_update ctx (some chunk) chunk.length = some ctx1 ∧
        ctx1.sz = (ctx.sz + chunk.length) % 18446744073709551616) := by
  constructor
  · obtain ⟨cb, b1, b2, b3, -, b5, b6⟩ :=
      md5_update_chunks_spec chunks (md5_init ctx0) (by rw [md5_init_cacheLen]; omega)
        (md5_init_cache_length _) (by rw [md5_init_sz]; omega)
    rw [md5_init_cacheLen] at b2
    rw [md5_init_sz] at b3
    rw [md5_init_regs, md5_init_pending, List.nil_append] at b5
    rw [md5_init_pending, List.nil_append] at b6
    refine ⟨cb, b1, b5, by omega, ?_, ?_⟩
    · have e : chunks.flatten.length - chunks.flatten.length % 64 =
          64 * (chunks.flatten.length / 64) := by omega
      rw [e]
      exact b6
    · rw [b3]
      unfold u64
      omega
  · intro ctx chunk hc
    obtain ⟨ctx1, h1, -, h3, -⟩ := md5_update_spec ctx chunk hc
    exact ⟨ctx1, h1, h3⟩

/-- Witness of C13: the byte counter after an update with 100 bytes from a context holding
10 cached bytes. -/
theorem md5_stream_state_witness :
    ∃ ctx1, md5_update ⟨1, 2, 3, 4, 10, List.replicate 64 5, 10⟩ (some (List.replicate 100 6))
        (List.replicate 100 6).length = some ctx1 ∧
      ctx1.sz = (10 + (List.replicate 100 6).length) % 18446744073709551616 :=
  (md5_stream_state ⟨0, 0, 0, 0, 0, [], 0⟩ []).2 ⟨1, 2, 3, 4, 10, List.replicate 64 5, 10⟩
    (List.replicate 100 6) (by decide)

/-- C14: for every context and every block of bytes, the words `md5_decode` computes are the
little-endian decodings of block bytes `4k .. 4k+3`, the 64 unrolled steps of
`md5_update_block` equal the round loop (step `i` of round `i / 16` turns `(a, b, c, d)` into
`(d, b + rotl32(a + f(b, c, d) + w[perm i] + K[i], s), b, c)` with the mixing functions,
word permutation, rotation amounts and constants of the claim, modulo `2^32`), and
`md5_update_block` stores the old registers plus the result of the loop modulo `2^32`,
resets `cacheLen` and changes nothing else. -/
theorem md5_update_block_round_formula (ctx : md5_context) (block : List Nat)
    (hb : ∀ b ∈ block, b < 256) :
    md5_decode block = (List.range 16).map (le32_word block) ∧
    md5_update_block_rounds ctx.a ctx.b ctx.c ctx.d (md5_decode block) =
      md5_round_loop ctx.a ctx.b ctx.c ctx.d ((List.range 16).map (le32_word block)) ∧
    md5_regs (md5_update_block ctx block) = md5_round_compress (md5_regs ctx) block ∧
    md5_update_block ctx block =
      { ctx with
        a := (md5_round_compress (md5_regs ctx) block).1
        b := (md5_round_compress (md5_regs ctx) block).2.1
        c := (md5_round_compress (md5_regs ctx) block).2.2.1
        d := (md5_round_compress (md5_regs ctx) block).2.2.2
        cacheLen := 0 } := by
  have hd := md5_decode_eq block hb
  have hr := md5_update_block_rounds_eq ctx.a ctx.b ctx.c ctx.d (md5_decode block)
  rw [hd] at hr
  refine ⟨hd, ?_, ?_, ?_⟩
  · rw [hd]
    exact hr
  · simp only [md5_regs, md5_update_block, md5_round_compress, hd, hr, u32]
  · simp only [md5_regs, md5_update_block, md5_round_compress, hd, hr, u32]

set_option maxRecDepth 100000 in
/-- Witness of C14: the registers of `md5_init` and the padding block of the empty message;
the round formula gives the registers whose serialisation is the digest
`d41d8cd98f00b204e9800998ecf8427e`. -/
theorem md5_update_block_round_formula_witness :
    md5_regs (md5_update_block (md5_init ⟨0, 0, 0, 0, 0, [], 0⟩)
        ([128] ++ List.replicate 63 0))
      = md5_round_compress (md5_regs (md5_init ⟨0, 0, 0, 0, 0, [], 0⟩))
        ([128] ++ List.replicate 63 0) ∧
    md5_round_compress rfc1321_initial ([128] ++ List.replicate 63 0)
      = (0xd98c1dd4, 0x04b2008f, 0x980980e9, 0x7e42f8ec) :=
  ⟨(md5_update_block_round_formula (md5_init ⟨0, 0, 0, 0, 0, [], 0⟩)
      ([128] ++ List.replicate 63 0) (by decide)).2.2.1, by decide⟩

/-- C15: from a context with `cacheLen < 64` (and its 64-byte cache), `md5_update` and
`md5_update` with the cache-bypass branch removed both return, and the two contexts agree on
the four registers, the byte counter, `cacheLen` and `cache[0..cacheLen)`; `md5_finalize`
then writes the same digest after either. -/
theorem md5_update_fast_path_refinement (ctx : md5_context) (chunk : List Nat)
    (hc : ctx.cacheLen < 64) (hlen : ctx.cache.length = 64) :
    ∃ u v, md5_update ctx (some chunk) chunk.length = some u ∧
      md5_update_buffered ctx (some chunk) chunk.length = some v ∧
      md5_regs u = md5_regs v ∧ u.sz = v.sz ∧ u.cacheLen = v.cacheLen ∧
      md5_pending u = md5_pending v ∧
      ∃ fu fv digest, md5_finalize u = some (fu, digest) ∧
        md5_finalize v = some (fv, digest) := by
  obtain ⟨u, a1, a2, a3, a4, a5⟩ := md5_update_spec ctx chunk hc
  obtain ⟨v, b1, b2, b3, b4, b5⟩ := md5_update_buffered_spec ctx chunk hc
  obtain ⟨a6, a7⟩ := a5 hlen
  obtain ⟨b6, b7⟩ := b5 hlen
  have hu : u.cacheLen < 64 := by rw [a2]; exact Nat.mod_lt _ (by norm_num)
  have hv : v.cacheLen < 64 := by rw [b2]; exact Nat.mod_lt _ (by norm_num)
  have er : md5_regs u = md5_regs v := by rw [a6, b6]
  have es : u.sz = v.sz := by rw [a3, b3]
  have ep : md5_pending u = md5_pending v := by rw [a7, b7]
  obtain ⟨fu, e1⟩ := md5_finalize_spec u hu (by rw [a4, hlen])
  obtain ⟨fv, e2⟩ := md5_finalize_spec v hv (by rw [b4, hlen])
  rw [er, ep, es] at e1
  exact ⟨u, v, a1, b1, er, es, by rw [a2, b2], ep, fu, fv, _, e1, e2⟩

/-- Witness of C15: 200 bytes from an empty cache, where `md5_update` bypasses the cache for
the first three blocks. -/
theorem md5_update_fast_path_refinement_witness :
    ∃ u v, md5_update (md5_init ⟨0, 0, 0, 0, 0, [], 0⟩) (some (List.replicate 200 7))
        (List.replicate 200 7).length = some u ∧
      md5_update_buffered (md5_init ⟨0, 0, 0, 0, 0, [], 0⟩) (some (List.replicate 200 7))
        (List.replicate 200 7).length = some v ∧
      md5_regs u = md5_regs v ∧ u.sz = v.sz ∧ u.cacheLen = v.cacheLen ∧
      md5_pending u = md5_pending v ∧
      ∃ fu fv digest, md5_finalize u = some (fu, digest) ∧
        md5_finalize v = some (fv, digest) :=
  md5_update_fast_path_refinement (md5_init ⟨0, 0, 0, 0, 0, [], 0⟩) (List.replicate 200 7)
    (by decide) (by decide)

/-- C16: two contexts with the same registers, the same byte counter, the same
`cacheLen < 64` and the same `cache[0..cacheLen)`, whatever their cache bytes at indices from
`cacheLen` on, give the same digest under `md5_finalize`, and under `md5_update` with the
same chunk give two contexts that again agree on registers, byte counter, `cacheLen` and
`cache[0..cacheLen)`. -/
theorem md5_stale_cache_irrelevant (c1 c2 : md5_context) (chunk : List Nat)
    (hr : md5_regs c1 = md5_regs c2) (hs : c1.sz = c2.sz) (hl : c1.cacheLen = c2.cacheLen)
    (hn : c1.cacheLen < 64) (hp : md5_pending c1 = md5_pending c2)
    (h1 : c1.cache.length = 64) (h2 : c2.cache.length = 64) :
    (∃ f1 f2 digest, md5_finalize c1 = some (f1, digest) ∧
      md5_finalize c2 = some (f2, digest)) ∧
    (∃ u1 u2, md5_update c1 (some chunk) chunk.length = some u1 ∧
      md5_update c2 (some chunk) chunk.length = some u2 ∧
      md5_regs u1 = md5_regs u2 ∧ u1.sz = u2.sz ∧ u1.cacheLen = u2.cacheLen ∧
      md5_pending u1 = md5_pending u2) := by
  constructor
  · obtain ⟨f1, e1⟩ := md5_finalize_spec c1 hn h1
    obtain ⟨f2, e2⟩ := md5_finalize_spec c2 (by omega) h2
    rw [hr, hp, hs] at e1
    exact ⟨f1, f2, _, e1, e2⟩
  · obtain ⟨u1, a1, a2, a3, -, a5⟩ := md5_update_spec c1 chunk hn
    obtain ⟨u2, b1, b2, b3, -, b5⟩ := md5_update_spec c2 chunk (by omega)
    obtain ⟨a6, a7⟩ := a5 h1
    obtain ⟨b6, b7⟩ := b5 h2
    refine ⟨u1, u2, a1, b1, ?_, ?_, ?_, ?_⟩
    · rw [a6, b6, hr, hp]
    · rw [a3, b3, hs]
    · rw [a2, b2, hl]
    · rw [a7, b7, hp]

/-- Witness of C16: two contexts that differ in the 61 cache bytes after the 3 valid ones,
updated with 70 bytes. -/
theorem md5_stale_cache_irrelevant_witness :
    (∃ f1 f2 digest,
      md5_finalize ⟨1, 2, 3, 4, 3, List.replicate 64 5, 3⟩ = some (f1, digest) ∧
      md5_finalize ⟨1, 2, 3, 4, 3, List.replicate 3 5 ++ List.replicate 61 9, 3⟩
        = some (f2, digest)) ∧
    (∃ u1 u2,
      md5_update ⟨1, 2, 3, 4, 3, List.replicate 64 5, 3⟩ (some (List.replicate 70 6))
        (List.replicate 70 6).length = some u1 ∧
      md5_update ⟨1, 2, 3, 4, 3, List.replicate 3 5 ++ List.replicate 61 9, 3⟩
        (some (List.replicate 70 6)) (List.replicate 70 6).length = some u2 ∧
      md5_regs u1 = md5_regs u2 ∧ u1.sz = u2.sz ∧ u1.cacheLen = u2.cacheLen ∧
      md5_pending u1 = md5_pending u2) :=
  md5_stale_cache_irrelevant ⟨1, 2, 3, 4, 3, List.replicate 64 5, 3⟩
    ⟨1, 2, 3, 4, 3, List.replicate 3 5 ++ List.replicate 61 9, 3⟩ (List.replicate 70 6)
    (by decide) (by decide) (by decide) (by decide) (by decide) (by decide) (by decide)

/-- C17: for a chunk of length `n` with `cacheLen + n < 64`, `md5_update` returns a context
with the four registers unchanged, `cacheLen` raised by `n`, the byte counter equal to
`(counter + n) mod 2^64`, and a cache that is the old one with the chunk stored at
`cache[cacheLen .. cacheLen + n)`: the bytes below `cacheLen` and those from `cacheLen + n` on
are unchanged. -/
theorem md5_update_frame (ctx : md5_context) (chunk : List Nat)
    (h : ctx.cacheLen + chunk.length < 64) (hlen : ctx.cache.length = 64) :
    ∃ ctx1, md5_update ctx (some chunk) chunk.length = some ctx1 ∧
      ctx1.a = ctx.a ∧ ctx1.b = ctx.b ∧ ctx1.c = ctx.c ∧ ctx1.d = ctx.d ∧
      ctx1.cacheLen = ctx.cacheLen + chunk.length ∧
      ctx1.sz = (ctx.sz + chunk.length) % 18446744073709551616 ∧
      ctx1.cache.length = 64 ∧
      (∀ i, i < ctx.cacheLen → ctx1.cache[i]? = ctx.cache[i]?) ∧
      (∀ j, j < chunk.length → ctx1.cache[ctx.cacheLen + j]? = chunk[j]?) ∧
      (∀ i, ctx.cacheLen + chunk.length ≤ i → ctx1.cache[i]? = ctx.cache[i]?) ∧
      ctx1.cache = ctx.cache.take ctx.cacheLen ++ chunk
        ++ ctx.cache.drop (ctx.cacheLen + chunk.length) := by
  refine ⟨_, md5_update_small ctx chunk h, rfl, rfl, rfl, rfl, rfl, rfl, ?_, ?_, ?_, ?_, ?_⟩
  · show (md5_copy_memory ctx.cache ctx.cacheLen chunk 0 chunk.length).length = 64
    rw [md5_copy_memory_length, hlen]
  · intro i hi
    show (md5_copy_memory ctx.cache ctx.cacheLen chunk 0 chunk.length)[i]? = _
    rw [md5_copy_memory_getElem?, if_neg (by omega)]
  · intro j hj
    show (md5_copy_memory ctx.cache ctx.cacheLen chunk 0 chunk.length)[ctx.cacheLen + j]? = _
    rw [md5_copy_memory_getElem?, if_pos (by omega), List.getD_eq_getElem?_getD]
    have e : 0 + (ctx.cacheLen + j - ctx.cacheLen) = j := by omega
    rw [e, List.getElem?_eq_getElem hj]
    rfl
  · intro i hi
    show (md5_copy_memory ctx.cache ctx.cacheLen chunk 0 chunk.length)[i]? = _
    rw [md5_copy_memory_getElem?, if_neg (by omega)]
  · show md5_copy_memory ctx.cache ctx.cacheLen chunk 0 chunk.length = _
    rw [md5_copy_memory_eq _ _ _ _ _ (by omega) (by omega), List.drop_zero,
      List.take_of_length_le (le_refl _)]

/-- Witness of C17: five bytes appended to a cache holding three. -/
theorem md5_update_frame_witness :
    ∃ ctx1, md5_update ⟨1, 2, 3, 4, 3, List.replicate 64 5, 3⟩ (some [10, 11, 12, 13, 14])
        [10, 11, 12, 13, 14].length = some ctx1 ∧
      ctx1.a = 1 ∧ ctx1.cacheLen = 3 + [10, 11, 12, 13, 14].length ∧
      ctx1.cache = (List.replicate 64 5).take 3 ++ [10, 11, 12, 13, 14]
        ++ (List.replicate 64 5).drop (3 + [10, 11, 12, 13, 14].length) := by
  obtain ⟨ctx1, h1, h2, -, -, -, h6, -, -, -, -, -, h12⟩ :=
    md5_update_frame ⟨1, 2, 3, 4, 3, List.replicate 64 5, 3⟩ [10, 11, 12, 13, 14]
      (by decide) (by decide)
  exact ⟨ctx1, h1, h2, h6, h12⟩

/-- C18: from a context with `cacheLen ≤ 64` and for a chunk of length `n`, the loop of
`md5_update` ends with `totalBytesProcessed = n` after at most `(cacheLen + n) / 64 + 1`
iterations, within the `n + 1` iterations `md5_update` allows it and whatever larger number
is allowed, so `md5_update` returns; every iteration returns, keeps
`totalBytesProcessed ≤ n` and either consumes at least one byte or finds a full cache and
empties it, and an iteration that consumes nothing is followed by one that consumes. -/
theorem md5_update_terminates (ctx : md5_context) (chunk : List Nat)
    (hc : ctx.cacheLen ≤ 64) :
    (∃ ctx1 k,
      md5_update_loop_count (chunk.length + 1) ctx chunk chunk.length 0
        = some (ctx1, chunk.length, k) ∧
      k ≤ (ctx.cacheLen + chunk.length) / 64 + 1 ∧
      (∀ m, md5_update_loop_count (chunk.length + 1 + m) ctx chunk chunk.length 0
        = some (ctx1, chunk.length, k)) ∧
      md5_update_loop (chunk.length + 1) ctx chunk chunk.length 0 = some ctx1 ∧
      md5_update ctx (some chunk) chunk.length
        = some { ctx1 with sz := u64 (ctx1.sz + chunk.length) }) ∧
    (∀ (c : md5_context) (tbp : Nat), c.cacheLen ≤ 64 → tbp < chunk.length →
      ∃ c1 t1, md5_update_iter c chunk chunk.length tbp = some (c1, t1) ∧
        t1 ≤ chunk.length ∧ c1.cacheLen < 64 ∧
        (tbp < t1 ∨ (t1 = tbp ∧ c.cacheLen = 64 ∧ c1.cacheLen = 0)) ∧
        (t1 = tbp → ∃ c2 t2, md5_update_iter c1 chunk chunk.length t1 = some (c2, t2) ∧
          t1 < t2)) := by
  have hstep : ∀ (c : md5_context) (tbp : Nat), c.cacheLen ≤ 64 → tbp < chunk.length →
      ∃ c1 t1, md5_update_iter c chunk chunk.length tbp = some (c1, t1) ∧
        t1 ≤ chunk.length ∧ c1.cacheLen < 64 ∧
        (tbp < t1 ∨ (t1 = tbp ∧ c.cacheLen = 64 ∧ c1.cacheLen = 0)) ∧
        (c.cacheLen < 64 → tbp < t1) := by
    intro c tbp hcl ht
    obtain ⟨c1, t1, hi, hfull, hlt⟩ := md5_update_iter_progress c chunk tbp hcl ht
    refine ⟨c1, t1, hi, ?_, md5_update_iter_cacheLen_lt _ _ _ _ _ _ hi, ?_, ?_⟩
    · by_cases h64 : c.cacheLen = 64
      · obtain ⟨e1, -⟩ := hfull h64
        omega
      · rcases hlt (by omega) with ⟨-, -, e3⟩ | ⟨e1, -, -⟩ <;> omega
    · by_cases h64 : c.cacheLen = 64
      · obtain ⟨e1, e2⟩ := hfull h64
        exact Or.inr ⟨e1, h64, e2⟩
      · rcases hlt (by omega) with ⟨-, e2, -⟩ | ⟨e1, -, -⟩
        · left; omega
        · left; omega
    · intro h
      rcases hlt h with ⟨-, e2, -⟩ | ⟨e1, -, -⟩ <;> omega
  constructor
  · obtain ⟨ctx1, k, hl, hk⟩ :=
      md5_update_loop_count_spec chunk (chunk.length + 1) ctx 0 hc (by omega) (by omega)
    have hloop : md5_update_loop (chunk.length + 1) ctx chunk chunk.length 0 = some ctx1 := by
      rw [md5_update_loop_eq_count, hl]
      rfl
    refine ⟨ctx1, k, hl, by omega, ?_, hloop, ?_⟩
    · intro m
      exact md5_update_loop_count_mono chunk chunk.length _ ctx 0 _ hl m
    · simp only [md5_update, hloop]
  · intro c tbp hcl ht
    obtain ⟨c1, t1, hi, h1, h2, h3, -⟩ := hstep c tbp hcl ht
    refine ⟨c1, t1, hi, h1, h2, h3, ?_⟩
    intro he
    obtain ⟨c2, t2, hi2, -, -, -, h5⟩ := hstep c1 t1 (by omega) (by omega)
    exact ⟨c2, t2, hi2, h5 h2⟩

set_option maxRecDepth 100000 in
/-- Witness of C18: a full cache and a chunk of 130 bytes; the first iteration consumes
nothing and the loop ends after four iterations. -/
theorem md5_update_terminates_witness :
    (∃ ctx1 k,
      md5_update_loop_count ((List.replicate 130 7).length + 1)
          ⟨1, 2, 3, 4, 64, List.replicate 64 5, 64⟩ (List.replicate 130 7)
          (List.replicate 130 7).length 0
        = some (ctx1, (List.replicate 130 7).length, k) ∧
      k ≤ (64 + (List.replicate 130 7).length) / 64 + 1) ∧
    (∃ c1 t1,
      md5_update_iter ⟨1, 2, 3, 4, 64, List.replicate 64 5, 64⟩ (List.replicate 130 7)
          (List.replicate 130 7).length 0 = some (c1, t1) ∧
      (0 < t1 ∨ (t1 = 0 ∧ c1.cacheLen = 0))) := by
  have h := md5_update_terminates ⟨1, 2, 3, 4, 64, List.replicate 64 5, 64⟩
    (List.replicate 130 7) (by decide)
  obtain ⟨ctx1, k, h1, h2, -⟩ := h.1
  obtain ⟨c1, t1, h3, -, -, h4, -⟩ :=
    h.2 ⟨1, 2, 3, 4, 64, List.replicate 64 5, 64⟩ 0 (by decide) (by decide)
  refine ⟨⟨ctx1, k, h1, h2⟩, c1, t1, h3, ?_⟩
  rcases h4 with h4 | ⟨h5, -, h6⟩
  · exact Or.inl h4
  · exact Or.inr ⟨h5, h6⟩

/-- C19: from a context with `cacheLen ≤ 64` and for a chunk of length `n`, every iteration
the loop of `md5_update` runs meets its index conditions (`n - totalBytesProcessed` and both
`64 - cacheLen` do not underflow, the copy writes the cache inside `0 .. 63`, the copy and
the bypass path read the source below `n`) and `md5_update` returns; `md5_finalize` meets its
index conditions (`64 - cacheLen` and `cacheRemaining - 8` do not underflow, both zero fills
stay inside the cache) and returns; the byte `0x80` is stored at an index of at most 63, and
the zero fill that precedes the length bytes ends at index 56. -/
theorem md5_index_safety (ctx : md5_context) (chunk : List Nat) (hc : ctx.cacheLen ≤ 64) :
    md5_update_loop_safe (chunk.length + 1) ctx chunk chunk.length 0 = true ∧
    (∃ ctx1, md5_update ctx (some chunk) chunk.length = some ctx1) ∧
    (∀ (c : md5_context) (tbp : Nat), c.cacheLen ≤ 64 → tbp < chunk.length →
      md5_update_iter_safe c chunk.length tbp = true) ∧
    md5_finalize_safe ctx = true ∧
    (∃ r, md5_finalize ctx = some r) ∧
    (md5_finalize_flush ctx).1.cacheLen ≤ 63 ∧
    8 ≤ (md5_finalize_marker (md5_finalize_flush ctx).1).2.2 ∧
    (md5_finalize_marker (md5_finalize_flush ctx).1).1.cacheLen +
      usize_sub (md5_finalize_marker (md5_finalize_flush ctx).1).2.2 8 = 56 := by
  obtain ⟨hs, -⟩ := md5_finalize_flush_cacheLen ctx hc
  obtain ⟨m1, m2⟩ := md5_finalize_marker_fill (md5_finalize_flush ctx).1 hs
  refine ⟨md5_update_loop_safe_of_le chunk _ ctx 0 hc (by omega) (by omega), ?_, ?_,
    md5_finalize_safe_of_le ctx hc, md5_finalize_isSome ctx hc, by omega, m1, m2⟩
  · obtain ⟨ctx1, k, hl, -⟩ :=
      md5_update_loop_count_spec chunk (chunk.length + 1) ctx 0 hc (by omega) (by omega)
    have hloop : md5_update_loop (chunk.length + 1) ctx chunk chunk.length 0 = some ctx1 := by
      rw [md5_update_loop_eq_count, hl]
      rfl
    exact ⟨{ ctx1 with sz := u64 (ctx1.sz + chunk.length) }, by simp only [md5_update, hloop]⟩
  · intro c tbp hcl ht
    exact md5_update_iter_safe_of_le c _ tbp hcl ht

/-- Witness of C19: a context whose cache is full, updated with 70 bytes and finalised. -/
theorem md5_index_safety_witness :
    md5_update_loop_safe ((List.replicate 70 7).length + 1)
      ⟨1, 2, 3, 4, 64, List.replicate 64 5, 64⟩ (List.replicate 70 7)
      (List.replicate 70 7).length 0 = true ∧
    md5_finalize_safe ⟨1, 2, 3, 4, 64, List.replicate 64 5, 64⟩ = true ∧
    (md5_finalize_flush ⟨1, 2, 3, 4, 64, List.replicate 64 5, 64⟩).1.cacheLen ≤ 63 := by
  have h := md5_index_safety ⟨1, 2, 3, 4, 64, List.replicate 64 5, 64⟩ (List.replicate 70 7)
    (by decide)
  exact ⟨h.1, h.2.2.2.1, h.2.2.2.2.2.1⟩
end MD5
